import Mathlib

/-!
# hpp-rbprm: contact generation, state interpolation and dynamic random shortcut

A shallow embedding of

* `src/contact_generation/algorithm.cc` (`generateContactReport`,
  `genContactFromOneMaintainCombinatorial`, `handleFailure`, `oneStep`),
* `include/hpp/rbprm/interpolation/limb-rrt-helper.inl` (`TimeConfigFromDevice`,
  `checkPath`, `ConcatenateAndResizePath`, `interpolateStates`),
* `src/planner/random-shortcut-dynamic.cc` (`PathLength::run`, `steer`, `optimize`).

Conventions of the embedding.

* A value of `value_type` (a C++ `double`) is the rational number it denotes;
  configurations and time parameters are computed exactly. The arithmetic of `optimize`
  on path lengths (the sum of `PathLength <false>::run`, the comparisons and the
  convergence test) is that of IEEE 754 binary64: see `Double`. The infinite value is
  `none` in the deque of lengths.
* A path is represented by what the code observes of it: its initial and end
  configuration, its length and whether it is a `KinodynamicPath`.
* Collaborators defined outside these files (planner, validators, steering method,
  `maintain_contacts`, `gen_contacts`, ...) are parameters: functions giving their answers.
* Loops that the code does not bound are run with a fuel argument.
-/

namespace HppRbprm

/-- The scalar type `model::value_type` (`double`): a finite value is the rational it
denotes. -/
abbrev value_type := ℚ

/-- A configuration vector (`Configuration_t`, an Eigen column vector). -/
abbrev Configuration_t := List value_type

/-! ## States and reports (`rbprm-state.hh`, `projection.hh`, `algorithm.cc`) -/

/-- A contact pose: position and rotation of an end effector. -/
structure Pose where
  position : List value_type
  rotation : List value_type
deriving DecidableEq, Repr

/-- Modelled from the spec: `rbprm-state.hh` is not among the sources at hand. Spec §3:
a state is a "mapping from limb identifier to contact pose (position + rotation), set of
active limb identifiers, full configuration vector". -/
structure State where
  contactPoses : List (String × Pose)
  contacts : List String
  configuration_ : Configuration_t
deriving DecidableEq, Repr

instance : Inhabited State := ⟨⟨[], [], []⟩⟩

/-- The member `nbContacts`: the number of active contacts of the state. -/
def State.nbContacts (s : State) : ℕ := s.contacts.length

/-- The pose recorded for a limb, when there is one. -/
def State.poseOf (s : State) (limb : String) : Option Pose := s.contactPoses.lookup limb

/-- Modelled from the spec: `State::contactCreations` is defined outside the sources at
hand. Spec §4.1 (`generateContactReport`): flags are derived "by diffing `previous` and
`result` contact sets"; a contact is "newly created" when it is active in the state and
was not active in `previous`. -/
def State.contactCreations (s previous : State) : List String :=
  s.contacts.filter (fun limb => decide (limb ∉ previous.contacts))

/-- Modelled from the spec: `State::contactBreaks` is defined outside the sources at hand.
Spec §4.1: a contact "was dropped" when it was active in `previous` and is not active in
the state. -/
def State.contactBreaks (s previous : State) : List String :=
  previous.contacts.filter (fun limb => decide (limb ∉ s.contacts))

/-- Modelled from the spec: `State::fixedContacts` is defined outside the sources at hand.
Spec §4.1: the "contacts fixed relative to `previous`" are the contacts of the state that
were active in `previous` and kept their pose. -/
def State.fixedContacts (s previous : State) : List String :=
  s.contacts.filter
    (fun limb => decide (limb ∈ previous.contacts) && decide (s.poseOf limb = previous.poseOf limb))

/-- Two states have the same contact set: the same limbs are active in both. -/
def SameContacts (a b : State) : Prop := ∀ limb, limb ∈ a.contacts ↔ limb ∈ b.contacts

/-- The enumeration `ContactComputationStatus` of `projection.hh`. -/
inductive ContactComputationStatus where
  | NO_CONTACT
  | STABLE_CONTACT
  | UNSTABLE_CONTACT
deriving DecidableEq, Repr

/-- The struct `ProjectionReport` of `projection.hh`; the defaults are those of its
default constructor. -/
structure ProjectionReport where
  success_ : Bool := false
  result_ : State := default
  status_ : ContactComputationStatus := ContactComputationStatus.NO_CONTACT
deriving DecidableEq, Repr

/-- The struct `ContactReport`: a `ProjectionReport` with four flags. -/
structure ContactReport extends ProjectionReport where
  contactMaintained_ : Bool := false
  multipleBreaks_ : Bool := false
  contactCreated_ : Bool := false
  repositionedInPlace_ : Bool := false
deriving DecidableEq, Repr

/-- Modelled from the spec: the copy constructor `ProjectionReport (const
ProjectionReport&)` is declared in `projection.hh` and defined outside the sources at
hand. Spec §3 makes a `ContactReport` an extension of the `ProjectionReport` it is built
from: the three members are copied. -/
def ProjectionReport.copy (parent : ProjectionReport) : ProjectionReport :=
  { success_ := parent.success_, result_ := parent.result_, status_ := parent.status_ }

/-- The constructor `ContactReport::ContactReport(const ProjectionReport& parent)`: the
parent part is initialised by the copy constructor of `ProjectionReport` and the four
flags are false. -/
def ContactReport.ofParent (parent : ProjectionReport) : ContactReport :=
  { toProjectionReport := parent.copy
    contactMaintained_ := false
    multipleBreaks_ := false
    contactCreated_ := false
    repositionedInPlace_ := false }

/-- Modelled from the spec: `contact_generation.hh` is not among the sources at hand.
Spec §3: the helper holds `previousState_` (prior state, read-only), `workingState_`
(candidate under construction) and `candidates_` (queue of untried maintained-contact
subsets); its scalar parameters play no part in `algorithm.cc`. -/
structure ContactGenHelper where
  previousState_ : State
  workingState_ : State
  candidates_ : List (List String)
deriving DecidableEq, Repr

/-- The function `generateContactReport` of `algorithm.cc`; the default value `false` of
its last argument is passed explicitly by `oneStep`. -/
def generateContactReport (parent : ProjectionReport) (helper : ContactGenHelper)
    (repositionedInPlace : Bool) : ContactReport :=
  let previous := helper.previousState_
  let result := parent.result_
  let report := ContactReport.ofParent parent
  let report := { report with
    contactCreated_ := decide ((result.fixedContacts previous).length = previous.nbContacts) }
  let report := { report with
    multipleBreaks_ := decide ((result.contactBreaks previous).length > 1) }
  let report := { report with repositionedInPlace_ := repositionedInPlace }
  { report with
    contactMaintained_ :=
      !repositionedInPlace && !decide ((result.contactCreations previous).length > 0) }

/-- A collaborator taking the helper by reference: it answers with a report and may
update `workingState_` and `candidates_`. -/
abbrev HelperCall := ContactGenHelper → ProjectionReport × ContactGenHelper

/-- The searches of `contact_generation.cc` that `algorithm.cc` calls; their code is not
among the sources at hand, so their answers are parameters. -/
structure ContactSearch where
  maintain_contacts : HelperCall
  gen_contacts : HelperCall
  repositionContacts : HelperCall

/-- Calling a collaborator on the helper: `previousState_` is read-only (spec §3), so the
call can only change the other two members. -/
def HelperCall.run (call : HelperCall) (helper : ContactGenHelper) :
    ProjectionReport × ContactGenHelper :=
  let out := call helper
  (out.1, { out.2 with previousState_ := helper.previousState_ })

/-- The function `genContactFromOneMaintainCombinatorial` of `algorithm.cc`. -/
def genContactFromOneMaintainCombinatorial (cs : ContactSearch) (helper : ContactGenHelper) :
    ProjectionReport × ContactGenHelper :=
  let (rep, helper) := cs.maintain_contacts.run helper
  if rep.success_ then
    let helper := { helper with workingState_ := rep.result_ }
    cs.gen_contacts.run helper
  else
    (rep, helper)

/-- An observable step of `oneStep`: a call of `genContactFromOneMaintainCombinatorial`,
with the report it returned and the helper after it, or the call of `repositionContacts`,
with the helper it was given and the report it returned. -/
inductive Call where
  | attempt (rep : ProjectionReport) (after : ContactGenHelper)
  | reposition (given : ContactGenHelper) (rep : ProjectionReport)
deriving DecidableEq, Repr

/-- Whether a call is an attempt whose report has `success_` true. -/
def Call.succeeded : Call → Bool
  | Call.attempt rep _ => rep.success_
  | Call.reposition _ _ => false

/-- The function `handleFailure` of `algorithm.cc`, with the helper after the call and
the call of `repositionContacts` it made. -/
def handleFailure (cs : ContactSearch) (helper : ContactGenHelper) :
    ContactReport × ContactGenHelper × Call :=
  let given := { helper with workingState_ := helper.previousState_ }
  let (rep, helper) := cs.repositionContacts.run given
  (generateContactReport rep helper true, helper, Call.reposition given rep)

/-- The `do ... while` loop of `oneStep`: the successive attempts, each with the report
returned and the helper after it, in order; the last one gives the value of `rep` and the
helper when the loop is left. `none` when the fuel does not suffice. -/
def oneStepLoop (cs : ContactSearch) :
    ℕ → ContactGenHelper → Option (List (ProjectionReport × ContactGenHelper))
  | 0, _ => none
  | fuel + 1, helper =>
    let out := genContactFromOneMaintainCombinatorial cs helper
    if !out.1.success_ && !out.2.candidates_.isEmpty then
      (oneStepLoop cs fuel out.2).map (fun rest => out :: rest)
    else
      some [out]

/-- A run of `oneStep`: the report returned, the helper afterwards and the calls made,
in order. -/
structure OneStepRun where
  report : ContactReport
  helper : ContactGenHelper
  calls : List Call
deriving DecidableEq, Repr

/-- The calls recorded for a list of attempts. -/
def attemptCalls (attempts : List (ProjectionReport × ContactGenHelper)) : List Call :=
  attempts.map (fun out => Call.attempt out.1 out.2)

/-- The function `oneStep` of `algorithm.cc`, instrumented with the calls it makes. The
loop always runs its body once, so the list of attempts is never empty on the branch
reached. -/
def oneStep (cs : ContactSearch) (fuel : ℕ) (helper : ContactGenHelper) : Option OneStepRun :=
  match oneStepLoop cs fuel helper with
  | none => none
  | some attempts =>
    match attempts.getLast? with
    | none => none
    | some (rep, helper) =>
      if !rep.success_ then
        let (report, helper, call) := handleFailure cs helper
        some { report := report, helper := helper, calls := attemptCalls attempts ++ [call] }
      else
        some { report := generateContactReport rep helper false, helper := helper,
               calls := attemptCalls attempts }

/-- Modelled from the spec: `repositionContacts` is defined outside the sources at hand.
Spec §4.1: it "attempts to reposition the *existing* contact set (same contacts, adjusted
placement) without moving the root", and spec §8 (6) gives the report of `oneStep` "an
unchanged contact set relative to the previous state" whether or not the repositioning
succeeds. The placement search is the answer `place`: new poses and a new configuration
for the working state, whose active contacts are kept. When the search fails the report
is a failed one on the working state as it is. -/
def repositionContacts (place : State → Option (List (String × Pose) × Configuration_t)) :
    HelperCall := fun helper =>
  match place helper.workingState_ with
  | some (poses, configuration) =>
    ({ success_ := true
       result_ := { helper.workingState_ with
                    contactPoses := poses, configuration_ := configuration }
       status_ := ContactComputationStatus.STABLE_CONTACT }, helper)
  | none => ({ success_ := false, result_ := helper.workingState_ }, helper)
/-! ## The arithmetic of `double` (IEEE 754 binary64, round to nearest, ties to even) -/

/-- A value of type `double`: a finite number, given by the rational it denotes, an
infinity or a NaN. The sign of a zero plays no part in what `optimize` computes. -/
inductive Double where
  | finite (q : ℚ)
  | posInf
  | negInf
  | nan
deriving DecidableEq, Repr

namespace Double

/-- The number of binary digits of `n` when `n < 2 ^ 2 ^ k`, found by bisection: the
upper `2 ^ k` digits are looked at first. -/
def bitLengthBelow : ℕ → ℕ → ℕ
  | 0, n => if n = 0 then 0 else 1
  | k + 1, n =>
    if 2 ^ 2 ^ k ≤ n then bitLengthBelow k (n / 2 ^ 2 ^ k) + 2 ^ k else bitLengthBelow k n

/-- The first `j ≥ k` with `n < 2 ^ 2 ^ j`, among the `fuel` numbers from `k` on. -/
def bitDepth : ℕ → ℕ → ℕ → ℕ
  | 0, k, _ => k
  | fuel + 1, k, n => if n < 2 ^ 2 ^ k then k else bitDepth fuel (k + 1) n

/-- The number of binary digits of `n`. -/
def bitLength (n : ℕ) : ℕ := bitLengthBelow (bitDepth n 0 n) n

/-- The exponent of a positive rational `p / q`, counted from the exponent `-1022` of the
least normal number: `e + 1022` for the `e` with `2 ^ e ≤ p / q < 2 ^ (e + 1)`, and `0`
when `p / q` is subnormal (`e < -1022`; the subtraction of natural numbers stops at `0`).
The difference of the bit lengths of `p` and `q` is `e` or `e + 1`, and it is `e` when
`2 ^ (bitLength p - bitLength q) ≤ p / q`. -/
def biasedExponent (p q : ℕ) : ℕ :=
  if q * 2 ^ bitLength p ≤ p * 2 ^ bitLength q then bitLength p + 1022 - bitLength q
  else bitLength p + 1021 - bitLength q

/-- The integer nearest to the quotient `N / D` of two natural numbers, the even one of
the two when the quotient lies half-way. -/
def divHalfEven (N D : ℕ) : ℕ :=
  if 2 * (N % D) < D then N / D
  else if D < 2 * (N % D) then N / D + 1
  else if (N / D) % 2 = 0 then N / D else N / D + 1

/-- The `double` nearest to the absolute value `p / q` of a rational `a`, `none` when the
rounding overflows to infinity. The unit in the last place is `2 ^ (e - 52)` for the
exponent `e` of `p / q`, and `2 ^ (-1074)` for the subnormal numbers: with the biased
exponent `s` it is `2 ^ s` times `2 ^ (-1074)`, and `p / q` is
`p * 2 ^ 1074 / (q * 2 ^ s)` such units. The result, counted in multiples of
`2 ^ (-1074)`, is an overflow from `2 ^ 1024 = 2 ^ 2098 * 2 ^ (-1074)` on. -/
def roundMagnitude (a : ℚ) : Option ℚ :=
  let s := biasedExponent a.num.natAbs a.den
  let m := divHalfEven (a.num.natAbs * 2 ^ 1074) (a.den * 2 ^ s) * 2 ^ s
  if 2 ^ 2098 ≤ m then none else some (mkRat m (2 ^ 1074))

/-- The `double` nearest to a rational: the result of an operation whose exact value is
`x`. The sign of `x` is the sign of its numerator. -/
def round (x : ℚ) : Double :=
  match roundMagnitude x with
  | some m => finite (if 0 ≤ x.num then m else -m)
  | none => if 0 ≤ x.num then posInf else negInf

/-- The opposite of a `double`. -/
def neg : Double → Double
  | finite q => finite (-q)
  | posInf => negInf
  | negInf => posInf
  | nan => nan

/-- The sum of two `double`s. -/
def add : Double → Double → Double
  | finite a, finite b => round (a + b)
  | finite _, posInf => posInf
  | finite _, negInf => negInf
  | posInf, finite _ => posInf
  | posInf, posInf => posInf
  | negInf, finite _ => negInf
  | negInf, negInf => negInf
  | _, _ => nan

/-- The difference of two `double`s. -/
def sub (a b : Double) : Double := add a (neg b)

/-- The product of two `double`s. -/
def mul : Double → Double → Double
  | finite a, finite b => round (a * b)
  | finite a, posInf => if 0 < a then posInf else if a < 0 then negInf else nan
  | finite a, negInf => if 0 < a then negInf else if a < 0 then posInf else nan
  | posInf, finite b => if 0 < b then posInf else if b < 0 then negInf else nan
  | negInf, finite b => if 0 < b then negInf else if b < 0 then posInf else nan
  | posInf, posInf => posInf
  | posInf, negInf => negInf
  | negInf, posInf => negInf
  | negInf, negInf => posInf
  | _, _ => nan

/-- The comparison `a <= b` of two `double`s; it is false when one of them is a NaN. -/
def le : Double → Double → Bool
  | finite a, finite b => decide (a ≤ b)
  | finite _, posInf => true
  | negInf, finite _ => true
  | negInf, negInf => true
  | negInf, posInf => true
  | posInf, posInf => true
  | _, _ => false

/-- The comparison `a < b` of two `double`s; it is false when one of them is a NaN. -/
def lt : Double → Double → Bool
  | finite a, finite b => decide (a < b)
  | finite _, posInf => true
  | negInf, finite _ => true
  | negInf, posInf => true
  | _, _ => false

/-- The constant `1e-4` of the source: the `double` nearest to one ten-thousandth. -/
def tenThousandth : Double := round (1 / 10000)

/-- An entry of the deque of `optimize` as a `double`: `none` is the infinite value. -/
def ofEntry : Option ℚ → Double
  | some q => finite q
  | none => posInf

end Double
/-! ## Paths (`hpp::core::Path`, `PathVector`, `SubchainPath`) -/

/-- A non-negative rational is shown as the rational it is. -/
instance : Repr ℚ≥0 := ⟨fun q n => reprPrec (q : ℚ) n⟩

/-- A path object behind a `PathPtr_t`, taken as a whole: `initial()`, `end()`,
`length()` and whether `dynamic_pointer_cast<KinodynamicPath>` succeeds on it. The length
of a path is the extent of its time range: a number that is not negative. -/
structure Path where
  initial : Configuration_t
  end_ : Configuration_t
  length : ℚ≥0
  kinodynamic : Bool
deriving DecidableEq, Repr

/-- A `PathVector`: the sequence `paths_` of its sub-paths. -/
structure PathVector where
  paths_ : List Path
deriving DecidableEq, Repr

namespace PathVector

/-- The result of `PathVector::create`: no sub-path yet. -/
def create : PathVector := ⟨[]⟩

/-- The method `numberPaths`. -/
def numberPaths (v : PathVector) : ℕ := v.paths_.length

/-- The method `pathAtRank`; `none` stands for an access out of range. -/
def pathAtRank (v : PathVector) (rank : ℕ) : Option Path := v.paths_[rank]?

/-- The method `appendPath`: one more sub-path at the end. -/
def appendPath (v : PathVector) (path : Path) : PathVector := ⟨v.paths_ ++ [path]⟩

/-- The method `concatenate`: the sub-paths of `other` are appended in order. -/
def concatenate (v other : PathVector) : PathVector := ⟨v.paths_ ++ other.paths_⟩

/-- The method `initial`: the initial configuration of the first sub-path; `none` when
there is no sub-path. -/
def initial (v : PathVector) : Option Configuration_t := v.paths_.head?.map Path.initial

/-- The method `end`: the end configuration of the last sub-path; `none` when there is no
sub-path. -/
def end_ (v : PathVector) : Option Configuration_t := v.paths_.getLast?.map Path.end_

/-- The method `length`: the extent of the time range, which `appendPath` grows by the
length of each sub-path appended. -/
def length (v : PathVector) : ℚ≥0 := (v.paths_.map Path.length).sum

/-- The method `timeRange` of a vector built by `create` and `appendPath`. -/
def timeRange (v : PathVector) : value_type × value_type := (0, (v.length : value_type))

end PathVector

/-- A `PathPtr_t` as `optimize` holds one in `resultPaths`: a path taken as a whole, or a
`PathVector` whose sub-paths are visible (`->as <PathVector> ()`). -/
inductive PathPtr_t where
  | path (p : Path)
  | vector (v : PathVector)
deriving DecidableEq, Repr

namespace PathPtr_t

/-- The method `length` through the pointer. -/
def length : PathPtr_t → ℚ≥0
  | path p => p.length
  | vector v => v.length

/-- The method `initial` through the pointer. -/
def initial : PathPtr_t → Option Configuration_t
  | path p => some p.initial
  | vector v => v.initial

/-- The method `end` through the pointer. -/
def end_ : PathPtr_t → Option Configuration_t
  | path p => some p.end_
  | vector v => v.end_

end PathPtr_t

/-- The coordinates selected by a list of `SizeInterval_t` (first index, number of
indices). -/
def selectIntervals (intervals : List (ℕ × ℕ)) (q : Configuration_t) : Configuration_t :=
  intervals.flatMap (fun interval => (q.drop interval.1).take interval.2)

/-- A `SubchainPath`: the original path seen through a selection of coordinates. -/
structure SubchainPath where
  original : PathVector
  intervals : List (ℕ × ℕ)
deriving DecidableEq, Repr

namespace SubchainPath

/-- The function `SubchainPath::create`. -/
def create (original : PathVector) (intervals : List (ℕ × ℕ)) : SubchainPath :=
  ⟨original, intervals⟩

/-- The configuration a `SubchainPath` shows for a configuration of the original path. -/
def config (p : SubchainPath) (q : Configuration_t) : Configuration_t :=
  selectIntervals p.intervals q

/-- The initial configuration of a `SubchainPath`. -/
def initial (p : SubchainPath) : Option Configuration_t := p.original.initial.map p.config

/-- The end configuration of a `SubchainPath`. -/
def end_ (p : SubchainPath) : Option Configuration_t := p.original.end_.map p.config

end SubchainPath

/-! ## State interpolation (`limb-rrt-helper.inl`) -/

namespace interpolation

/-- What `limb-rrt-helper.inl` uses of a `TimeConstraintHelper` built for one transition:
the current configuration of `fullBodyDevice_`, the effector names of the limbs, the answer
of the planner run for a limb between an initial and a goal configuration, and the
`RandomShortcut` optimizer created on `rootProblem_`. -/
structure TimeConstraintHelper where
  currentConfiguration : Configuration_t
  effectors : List String
  solve : String → Configuration_t → Configuration_t → Option PathVector
  shortcut : PathVector → PathVector

/-- The function `TimeConfigFromDevice`: the current configuration of the device with its
head overwritten by the configuration of the state and its last coordinate set to `time`.
Eigen requires the state configuration to be no longer than the device configuration,
and the latter to be non-empty. -/
def TimeConfigFromDevice (helper : TimeConstraintHelper) (state : State) (time : value_type) :
    Configuration_t :=
  let config := helper.currentConfiguration
  let config := state.configuration_ ++ config.drop state.configuration_.length
  config.set (config.length - 1) time

/-- The function `interpolateStates (helper, from, to)`: one planner run per limb that
varies between the two states, each overwriting `res`. `allVariations` stands for
`State::allVariations`, defined outside the sources at hand. -/
def interpolateStatesFor (allVariations : State → State → List String → List String)
    (helper : TimeConstraintHelper) (from_ to_ : State) : Option PathVector :=
  let variations := allVariations to_ from_ helper.effectors
  variations.foldl
    (fun _ limb =>
      let start := TimeConfigFromDevice helper from_ 0
      let goal := TimeConfigFromDevice helper to_ 1
      helper.solve limb start goal)
    none

/-- The planner runs of `interpolateStates (helper, from, to)`, in order: one per
iteration of its loop, with the limb of the iteration and what `planner->solve ()`
returned. -/
def plannerRuns (allVariations : State → State → List String → List String)
    (helper : TimeConstraintHelper) (from_ to_ : State) : List (String × Option PathVector) :=
  (allVariations to_ from_ helper.effectors).map
    (fun limb =>
      (limb, helper.solve limb (TimeConfigFromDevice helper from_ 0)
        (TimeConfigFromDevice helper to_ 1)))

/-- The function `optimize` of the anonymous namespace: `numOptimizations` passes of the
`RandomShortcut` optimizer. -/
def optimize (helper : TimeConstraintHelper) (partialPath : PathVector) :
    ℕ → PathVector
  | 0 => partialPath
  | j + 1 => optimize helper (helper.shortcut partialPath) j

/-- The `for` loop of `checkPath`, entered at index `i` with `remaining` indices to go:
the first index whose flag is false, or `distance` when there is none. -/
def checkPathLoop (distance : ℕ) (valid : ℕ → Bool) : ℕ → ℕ → ℕ
  | 0, _ => distance
  | remaining + 1, i => if !valid i then i else checkPathLoop distance valid remaining (i + 1)

/-- The function `checkPath`; the `std::runtime_error` is the error of `Except`. -/
def checkPath (distance : ℕ) (valid : ℕ → Bool) : Except String ℕ :=
  let numValid := checkPathLoop distance valid distance 0
  if numValid = 0 then Except.error "No path found at state 0" else Except.ok numValid

/-- The `for` loop of `ConcatenateAndResizePath`, entered at index `i` with `remaining`
indices to go; `none` when a null `res[i]` is dereferenced. -/
def concatenateLoop (res : ℕ → Option PathVector) : ℕ → ℕ → PathVector → Option PathVector
  | 0, _, completePath => some completePath
  | remaining + 1, i, completePath =>
    match res i with
    | none => none
    | some next => concatenateLoop res remaining (i + 1) (completePath.concatenate next)

/-- The function `ConcatenateAndResizePath`; `none` when a null pointer is dereferenced or
`initial()` is taken of a vector without sub-path. -/
def ConcatenateAndResizePath (res : ℕ → Option PathVector) (numValid : ℕ) :
    Option SubchainPath :=
  match res 0 with
  | none => none
  | some first =>
    match concatenateLoop res (numValid - 1) 1 first with
    | none => none
    | some completePath =>
      match completePath.initial with
      | none => none
      | some q => some (SubchainPath.create completePath [(0, q.length - 1)])

/-- The collaborators of the state-sequence overload of `interpolateStates`: the helper
built for transition `i` and `State::allVariations`. -/
structure Transitions where
  helper : ℕ → TimeConstraintHelper
  allVariations : State → State → List String → List String

/-- The array `res` filled by the loop over the transitions of `interpolateStates`. -/
def transitionPaths (tr : Transitions) (states : ℕ → State) (numOptimizations : ℕ) (i : ℕ) :
    Option PathVector :=
  match interpolateStatesFor tr.allVariations (tr.helper i) (states i) (states (i + 1)) with
  | some partialPath => some (optimize (tr.helper i) partialPath numOptimizations)
  | none => none

/-- The function `interpolateStates (fullbody, referenceProblem, startState, endState,
numOptimizations)`: `states i` is `*(startState + i)` and `distance` is
`std::distance (startState, endState)`. The arrays `res` and `valid` have 100 entries and
the function starts with `assert (distance < 100)`: `none` is the failed assertion (with
assertions compiled out, the writes past the end of the arrays). The error of `Except` is
the exception of `checkPath`. -/
def interpolateStates (tr : Transitions) (states : ℕ → State) (distance numOptimizations : ℕ) :
    Option (Except String (Option SubchainPath)) :=
  if distance < 100 then
    let res := transitionPaths tr states numOptimizations
    let valid := fun i => (res i).isSome
    match checkPath distance valid with
    | Except.error e => some (Except.error e)
    | Except.ok numValid => some (Except.ok (ConcatenateAndResizePath res numValid))
  else none

end interpolation

/-! ## The dynamic random shortcut (`random-shortcut-dynamic.cc`) -/

namespace RandomShortcutDynamic

/-- The report a configuration validation fills; its content is not looked at by the
optimizer, only handed to the node. -/
structure ValidationReport where
  code : ℕ
deriving DecidableEq, Repr

/-- What `steer` puts in the `RbprmNode` it creates: the configuration `q1` and the
arguments of `fillNodeMatrices`. -/
structure RbprmNode where
  configuration : Configuration_t
  report : ValidationReport
  rectangularContact : Bool
  sizeFootX : value_type
  sizeFootY : value_type
  mass : value_type
  mu : value_type
deriving DecidableEq, Repr

/-- The members of `RandomShortcutDynamic` set by its constructor. -/
structure Settings where
  sizeFootX_ : value_type
  sizeFootY_ : value_type
  rectangularContact_ : Bool
  tryJump_ : Bool
  mu_ : value_type
deriving DecidableEq, Repr

/-- The answers of the collaborators of `optimize` during one round of its loop:
the two successive outputs of `rand ()`, the evaluation `(*tmpPath) (q, t)` (`none` when
it returns false), the configuration validation, the mass of the robot, the kinodynamic
steering method `(*sm_) (x1, q2)`, the path projector when one is configured,
`pathValidation ()->validate`, `KinodynamicOrientedPath::createCopy`, `extract`, and
whether appending the path chosen for segment `i` throws a `projection_error`. -/
structure Collaborators where
  rand : ℕ × ℕ
  eval : PathVector → value_type → Option Configuration_t
  configValidation : Configuration_t → ValidationReport
  mass : value_type
  sm : RbprmNode → Configuration_t → Option Path
  pathProjector : Option (Path → Option Path)
  validate : Path → Bool
  createCopy : Path → Path
  extract : PathVector → value_type × value_type → PathVector
  projection_error : ℕ → Bool

/-- The problem the optimizer is created on: the value configured for
`PathOptimizersNumberOfLoops`, the constant `RAND_MAX` of `<cstdlib>` and the answers of
the collaborators, round after round. -/
structure Problem where
  PathOptimizersNumberOfLoops : ℕ
  RAND_MAX : ℕ
  world : ℕ → Collaborators

/-- The struct `PathLength <reEstimateLength>`: `run` gives the length of the path, or
the sum of the lengths of its sub-paths, added one after the other in `double`s: each
`result += element->length ()` is rounded, and `none` is the infinite value the sum
overflows to. -/
def PathLength.run (reEstimateLength : Bool) (path : PathVector) : Option value_type :=
  if reEstimateLength then some (path.length : value_type)
  else
    path.paths_.foldl
      (fun result element =>
        result.bind (fun sum => Double.roundMagnitude (sum + (element.length : value_type))))
      (some 0)

/-- The method `RandomShortcutDynamic::steer`. -/
def steer (self : Settings) (c : Collaborators) (q1 q2 : Configuration_t) : Option Path :=
  let report := c.configValidation q1
  let x1 : RbprmNode :=
    { configuration := q1, report := report, rectangularContact := self.rectangularContact_,
      sizeFootX := self.sizeFootX_, sizeFootY := self.sizeFootY_, mass := c.mass,
      mu := self.mu_ }
  match c.sm x1 q2 with
  | some dp =>
    if dp.initial ≠ q1 ∨ dp.end_ ≠ q2 then none
    else
      match c.pathProjector with
      | none => some dp
      | some projector =>
        match projector dp with
        | some pp => some pp
        | none => none
  | none => none

/-- The value `n` of `optimize`: the configured parameter is read and then overwritten
by 100. -/
def numberOfLoops (_configured : ℕ) : ℕ := 100

/-- The width of `std::size_t` in bits. -/
def sizeBits : ℕ := 64

/-- The statement `projectionError--` on a `std::size_t`. -/
def decrement (projectionError : ℕ) : ℕ := (projectionError + (2 ^ sizeBits - 1)) % 2 ^ sizeBits

/-- The variables of `optimize` that live across the rounds of its loop: `tmpPath`,
`result` (null until a round completes), the deque `length` (`none` is the infinite
value), `projectionError` and `finished`; `rounds` counts the executions of the loop
body. -/
structure LoopState where
  tmpPath : PathVector
  result : Option PathVector
  length : List (Option value_type)
  projectionError : ℕ
  finished : Bool
  rounds : ℕ
deriving DecidableEq, Repr

/-- The sampling of the time parameters: `t[0]`, `t[1]`, `t[2]`, `t[3]`. -/
def sampleTimes (RAND_MAX : ℕ) (tmpPath : PathVector) (rand : ℕ × ℕ) :
    value_type × value_type × value_type × value_type :=
  let t0 := tmpPath.timeRange.1
  let t3 := tmpPath.timeRange.2
  let u2 := t0 + (t3 - t0) * (rand.1 : value_type) / (RAND_MAX : value_type)
  let u1 := t0 + (t3 - t0) * (rand.2 : value_type) / (RAND_MAX : value_type)
  if u1 < u2 then (t0, u1, u2, t3) else (t0, u2, u1, t3)

/-- What the first `for` loop of a round leaves for segment `i`: `valid[i]`,
`orientedValid[i]`, `straight[i]`, `oriented[i]` and `resultPaths[i]`. -/
structure Segment where
  valid : Bool
  orientedValid : Bool
  straight : Option Path
  oriented : Option Path
  resultPath : PathPtr_t
deriving DecidableEq, Repr

/-- The body of the first `for` loop of a round, for the segment from `qa` at `ta` to
`qb` at `tb`. -/
def acceptSegment (self : Settings) (c : Collaborators) (tmpPath : PathVector)
    (qa qb : Configuration_t) (ta tb : value_type) : Segment :=
  match steer self c qa qb with
  | none =>
    { valid := false, orientedValid := false, straight := none, oriented := none,
      resultPath := PathPtr_t.vector (c.extract tmpPath (ta, tb)) }
  | some straight =>
    let valid :=
      Double.lt (Double.finite straight.length)
        (Double.ofEntry (PathLength.run true (c.extract tmpPath (ta, tb))))
    let valid := if valid then c.validate straight else valid
    if valid then
      if straight.kinodynamic then
        let oriented := c.createCopy straight
        { valid := true, orientedValid := c.validate oriented, straight := some straight,
          oriented := some oriented, resultPath := PathPtr_t.path straight }
      else
        { valid := true, orientedValid := false, straight := some straight, oriented := none,
          resultPath := PathPtr_t.path straight }
    else
      { valid := false, orientedValid := false, straight := some straight, oriented := none,
        resultPath := PathPtr_t.vector (c.extract tmpPath (ta, tb)) }

/-- Re-steering towards `target` with validation: `replaceTmp = steer (...)` followed by
`replaceValid = validate (replaceTmp)`; the path when `replaceValid` ends up true. -/
def resteer (self : Settings) (c : Collaborators) (source target : Configuration_t) :
    Option Path :=
  match steer self c source target with
  | some replaceTmp => if c.validate replaceTmp then some replaceTmp else none
  | none => none

/-- The adjustment of a segment kept as a path vector whose end must reach `target`: its
last sub-path is re-steered from its initial configuration, and the vector is rebuilt
with the other sub-paths in front. The outer `none` is the access to the last sub-path of
a vector without sub-path; the inner one is `replaceValid` false. -/
def adjustVectorEnd (self : Settings) (c : Collaborators) (replaceVectorTmp : PathVector)
    (target : Configuration_t) : Option (Option PathPtr_t) :=
  match replaceVectorTmp.pathAtRank (replaceVectorTmp.numberPaths - 1) with
  | none => none
  | some last =>
    match resteer self c last.initial target with
    | some replaceTmp =>
      some (some (PathPtr_t.vector
        ⟨replaceVectorTmp.paths_.take (replaceVectorTmp.numberPaths - 1) ++ [replaceTmp]⟩))
    | none => some none

/-- The adjustment of a segment kept as a path vector that must start at `source`: its
first sub-path is re-steered towards its end configuration, and the vector is rebuilt
with the other sub-paths behind. The outer `none` is the access to the first sub-path of
a vector without sub-path; the inner one is `replaceValid` false. -/
def adjustVectorStart (self : Settings) (c : Collaborators) (replaceVectorTmp : PathVector)
    (source : Configuration_t) : Option (Option PathPtr_t) :=
  match replaceVectorTmp.pathAtRank 0 with
  | none => none
  | some first =>
    match resteer self c source first.end_ with
    | some replaceTmp =>
      some (some (PathPtr_t.vector ⟨replaceTmp :: replaceVectorTmp.paths_.drop 1⟩))
    | none => some none

/-- The value of `tmpResult[0]` when the middle segment is oriented (`oriented1`): the
inner `none` is `replaceValid` false after the check of the first segment. -/
def adjustFirst (self : Settings) (c : Collaborators) (tmpPath : PathVector)
    (seg0 : Segment) (q0 : Configuration_t) (t0 t1 : value_type) (oriented1 : Path) :
    Option (Option PathPtr_t) :=
  if seg0.orientedValid then
    match seg0.oriented with
    | some oriented0 => some (some (PathPtr_t.path oriented0))
    | none => none
  else if seg0.valid then
    some ((resteer self c q0 oriented1.initial).map PathPtr_t.path)
  else
    adjustVectorEnd self c (c.extract tmpPath (t0, t1)) oriented1.initial

/-- The value of `tmpResult[2]` when the middle segment is oriented (`oriented1`): the
inner `none` is `replaceValid` false after the check of the last segment. -/
def adjustLast (self : Settings) (c : Collaborators) (tmpPath : PathVector)
    (seg2 : Segment) (q3 : Configuration_t) (t2 t3 : value_type) (oriented1 : Path) :
    Option (Option PathPtr_t) :=
  if seg2.orientedValid then
    match seg2.oriented with
    | some oriented2 => some (some (PathPtr_t.path oriented2))
    | none => none
  else if seg2.valid then
    some ((resteer self c oriented1.end_ q3).map PathPtr_t.path)
  else
    adjustVectorStart self c (c.extract tmpPath (t2, t3)) oriented1.end_

/-- The branch `if (orientedValid[1])` of a round: the three `resultPaths` after it. -/
def cascadeMiddle (self : Settings) (c : Collaborators) (tmpPath : PathVector)
    (q0 q3 : Configuration_t) (t0 t1 t2 t3 : value_type) (seg0 seg1 seg2 : Segment) :
    Option (PathPtr_t × PathPtr_t × PathPtr_t) :=
  match seg1.oriented with
  | none => none
  | some oriented1 =>
    match adjustFirst self c tmpPath seg0 q0 t0 t1 oriented1 with
    | none => none
    | some none => some (seg0.resultPath, seg1.resultPath, seg2.resultPath)
    | some (some tmpResult0) =>
      match adjustLast self c tmpPath seg2 q3 t2 t3 oriented1 with
      | none => none
      | some none => some (seg0.resultPath, seg1.resultPath, seg2.resultPath)
      | some (some tmpResult2) => some (tmpResult0, PathPtr_t.path oriented1, tmpResult2)

/-- The block `if (orientedValid[0])` of the `else` branch: `resultPaths[0]` and
`resultPaths[1]` after it. -/
def cascadeFirst (self : Settings) (c : Collaborators) (tmpPath : PathVector)
    (q2 : Configuration_t) (t1 t2 : value_type) (seg0 seg1 : Segment) :
    Option (PathPtr_t × PathPtr_t) :=
  if seg0.orientedValid then
    match seg0.oriented with
    | none => none
    | some oriented0 =>
      if seg1.valid then
        match resteer self c oriented0.end_ q2 with
        | some replaceTmp => some (PathPtr_t.path oriented0, PathPtr_t.path replaceTmp)
        | none => some (seg0.resultPath, seg1.resultPath)
      else
        match adjustVectorStart self c (c.extract tmpPath (t1, t2)) oriented0.end_ with
        | none => none
        | some (some pv) => some (PathPtr_t.path oriented0, pv)
        | some none => some (seg0.resultPath, seg1.resultPath)
  else some (seg0.resultPath, seg1.resultPath)

/-- The block `if (orientedValid[2])` of the `else` branch: `resultPaths[1]` and
`resultPaths[2]` after it, `resultPath1` being `resultPaths[1]` before it. -/
def cascadeLast (self : Settings) (c : Collaborators) (tmpPath : PathVector)
    (q1 : Configuration_t) (t1 t2 : value_type) (seg1 seg2 : Segment) (resultPath1 : PathPtr_t) :
    Option (PathPtr_t × PathPtr_t) :=
  if seg2.orientedValid then
    match seg2.oriented with
    | none => none
    | some oriented2 =>
      if seg1.valid then
        match resteer self c q1 oriented2.initial with
        | some replaceTmp => some (PathPtr_t.path replaceTmp, PathPtr_t.path oriented2)
        | none => some (resultPath1, seg2.resultPath)
      else
        match adjustVectorEnd self c (c.extract tmpPath (t1, t2)) oriented2.initial with
        | none => none
        | some (some pv) => some (pv, PathPtr_t.path oriented2)
        | some none => some (resultPath1, seg2.resultPath)
  else some (resultPath1, seg2.resultPath)

/-- The adjustment of the segments to the oriented replacements: the three `resultPaths`
after it. -/
def cascade (self : Settings) (c : Collaborators) (tmpPath : PathVector)
    (q0 q1 q2 q3 : Configuration_t) (t0 t1 t2 t3 : value_type) (seg0 seg1 seg2 : Segment) :
    Option (PathPtr_t × PathPtr_t × PathPtr_t) :=
  if seg1.orientedValid then
    cascadeMiddle self c tmpPath q0 q3 t0 t1 t2 t3 seg0 seg1 seg2
  else
    match cascadeFirst self c tmpPath q2 t1 t2 seg0 seg1 with
    | none => none
    | some (resultPath0, resultPath1) =>
      match cascadeLast self c tmpPath q1 t1 t2 seg1 seg2 resultPath1 with
      | none => none
      | some (resultPath1, resultPath2) => some (resultPath0, resultPath1, resultPath2)

/-- A path appended by `appendPath` is one sub-path of the result, taken as a whole. -/
def wholePath : PathPtr_t → Path
  | PathPtr_t.path p => p
  | PathPtr_t.vector v =>
    { initial := v.initial.getD [], end_ := v.end_.getD [], length := v.length,
      kinodynamic := false }

/-- The body of the second `for` loop of a round for segment `i`, on the pair of `result`
and `projectionError`: the `try` block, and the `catch` block when the collaborators
make the `try` block throw. The assignment `result = tmpPath` of the `catch` block copies
the pointer: from then on `result` is the path object of `tmpPath` itself, and the later
segments of the round are appended to that object. So when an earlier segment of the
round already threw, `result` is that object as grown since and the assignment changes
nothing; `tmpPath` here is the value of the object when the round started. The `none` is
the cast to `PathVector` of a path that is none. -/
def composeSegment (c : Collaborators) (tmpPath : PathVector) (i : ℕ) (seg : Segment)
    (resultPath : PathPtr_t) (acc : PathVector × ℕ) : Option (PathVector × ℕ) :=
  if c.projection_error i then
    some (if (List.range i).any c.projection_error then acc.1 else tmpPath, decrement acc.2)
  else if seg.valid || seg.orientedValid then
    some (acc.1.appendPath (wholePath resultPath), acc.2)
  else
    match resultPath with
    | PathPtr_t.vector v => some (acc.1.concatenate v, acc.2)
    | PathPtr_t.path _ => none

/-- The block `Replace valid parts`: `result` and `projectionError` after the second
`for` loop. -/
def compose (c : Collaborators) (tmpPath : PathVector) (projectionError : ℕ)
    (seg0 seg1 seg2 : Segment) (resultPaths : PathPtr_t × PathPtr_t × PathPtr_t) :
    Option (PathVector × ℕ) :=
  match composeSegment c tmpPath 0 seg0 resultPaths.1 (PathVector.create, projectionError) with
  | none => none
  | some acc =>
    match composeSegment c tmpPath 1 seg1 resultPaths.2.1 acc with
    | none => none
    | some acc => composeSegment c tmpPath 2 seg2 resultPaths.2.2 acc

/-- The test `(length [0] - length [n-1]) <= 1e-4 * length[n-1]` on the deque, evaluated
in `double`s: the difference and the product are rounded, `1e-4` is the `double` nearest
to one ten-thousandth, and the infinite value follows the rules of IEEE 754. -/
def converged (n : ℕ) (length : List (Option value_type)) : Bool :=
  match length[0]?, length[n - 1]? with
  | some oldest, some newest =>
    Double.le (Double.sub (Double.ofEntry oldest) (Double.ofEntry newest))
      (Double.mul Double.tenThousandth (Double.ofEntry newest))
  | _, _ => false

/-- One execution of the body of the `while` loop of `optimize`, `q0` and `q3` being
`q[0]` and `q[3]`. The `none` is an undefined operation (an access out of range). -/
def round (self : Settings) (pb : Problem) (q0 q3 : Configuration_t) (s : LoopState) :
    Option LoopState :=
  let c := pb.world s.rounds
  let n := numberOfLoops pb.PathOptimizersNumberOfLoops
  let t := sampleTimes pb.RAND_MAX s.tmpPath c.rand
  let t0 := t.1
  let t1 := t.2.1
  let t2 := t.2.2.1
  let t3 := t.2.2.2
  match c.eval s.tmpPath t1 with
  | none =>
    some { s with projectionError := decrement s.projectionError, rounds := s.rounds + 1 }
  | some q1 =>
    match c.eval s.tmpPath t2 with
    | none =>
      some { s with projectionError := decrement s.projectionError, rounds := s.rounds + 1 }
    | some q2 =>
      let seg0 := acceptSegment self c s.tmpPath q0 q1 t0 t1
      let seg1 := acceptSegment self c s.tmpPath q1 q2 t1 t2
      let seg2 := acceptSegment self c s.tmpPath q2 q3 t2 t3
      match cascade self c s.tmpPath q0 q1 q2 q3 t0 t1 t2 t3 seg0 seg1 seg2 with
      | none => none
      | some resultPaths =>
        match compose c s.tmpPath s.projectionError seg0 seg1 seg2 resultPaths with
        | none => none
        | some (result, projectionError) =>
          let length := (s.length ++ [PathLength.run false result]).drop 1
          some { tmpPath := result
                 result := some result
                 length := length
                 projectionError := projectionError
                 finished := converged n length
                 rounds := s.rounds + 1 }

/-- How the `while` loop of `optimize` ends: its condition became false, a round made an
undefined operation, or the fuel ran out; each with the state at that point. -/
inductive LoopExit where
  | left (s : LoopState)
  | undefined (s : LoopState)
  | outOfFuel (s : LoopState)
deriving DecidableEq, Repr

/-- The `while (!finished && projectionError != 0)` loop of `optimize`. -/
def whileLoop (self : Settings) (pb : Problem) (q0 q3 : Configuration_t) :
    ℕ → LoopState → LoopExit
  | 0, s =>
    if !s.finished && s.projectionError != 0 then LoopExit.outOfFuel s else LoopExit.left s
  | fuel + 1, s =>
    if !s.finished && s.projectionError != 0 then
      match round self pb q0 q3 s with
      | none => LoopExit.undefined s
      | some s => whileLoop self pb q0 q3 fuel s
    else LoopExit.left s

/-- The variables of `optimize` when its loop is entered. -/
def initialState (pb : Problem) (path : PathVector) : LoopState :=
  let n := numberOfLoops pb.PathOptimizersNumberOfLoops
  { tmpPath := path
    result := none
    length := List.replicate (n - 1) none ++ [PathLength.run false path]
    projectionError := n
    finished := false
    rounds := 0 }

/-- What a call of `optimize` gives: the path returned; a null `result` dereferenced after
the loop (no round completed); an undefined operation; or not enough fuel. -/
inductive Outcome where
  | returned (path : PathVector)
  | nullResult
  | undefined
  | outOfFuel
deriving DecidableEq, Repr

/-- The method `RandomShortcutDynamic::optimize`: after the loop, `result` is
dereferenced (`result->numberPaths ()`) and returned. -/
def optimize (self : Settings) (pb : Problem) (fuel : ℕ) (path : PathVector) : Outcome :=
  match path.initial, path.end_ with
  | some q0, some q3 =>
    match whileLoop self pb q0 q3 fuel (initialState pb path) with
    | LoopExit.left s =>
      match s.result with
      | some result => Outcome.returned result
      | none => Outcome.nullResult
    | LoopExit.undefined _ => Outcome.undefined
    | LoopExit.outOfFuel _ => Outcome.outOfFuel
  | _, _ => Outcome.undefined

end RandomShortcutDynamic

namespace RandomShortcutDynamic

/-- The state of the variables of `optimize` when its loop ended. -/
def LoopExit.state : LoopExit → LoopState
  | LoopExit.left s => s
  | LoopExit.undefined s => s
  | LoopExit.outOfFuel s => s

end RandomShortcutDynamic

/-! ## Conditions on the collaborators of `optimize` -/

namespace RandomShortcutDynamic

/-- A configured path projector keeps the ends of the paths it projects. -/
def ProjectorKeepsEnds (c : Collaborators) : Prop :=
  ∀ f p pp, c.pathProjector = some f → f p = some pp →
    pp.initial = p.initial ∧ pp.end_ = p.end_

/-- The oriented copy keeps the ends of the path copied. -/
def CopyKeepsEnds (c : Collaborators) : Prop :=
  ∀ p, (c.createCopy p).initial = p.initial ∧ (c.createCopy p).end_ = p.end_

/-- The portion extracted from the start of the time range of a path starts where the
path starts, and the portion extracted up to the end of its time range ends where the
path ends. -/
def ExtractKeepsEnds (c : Collaborators) : Prop :=
  ∀ (v : PathVector) (a b : value_type),
    (v.initial.isSome = true → (c.extract v (v.timeRange.1, b)).initial = v.initial)
      ∧ (v.end_.isSome = true → (c.extract v (a, v.timeRange.2)).end_ = v.end_)

/-- The composition of a round does not raise a projection error on the last segment
after it raised one on the first segment and appended the middle segment to the current
path. -/
def NoErrorAfterAppend (c : Collaborators) : Prop :=
  c.projection_error 0 = true → c.projection_error 2 = true → c.projection_error 1 = true

/-- The current path runs from `q0` to `q3`, and so does `result` when it is not null. -/
def EndsAt (q0 q3 : Configuration_t) (s : LoopState) : Prop :=
  s.tmpPath.initial = some q0 ∧ s.tmpPath.end_ = some q3
    ∧ ∀ r, s.result = some r → r.initial = some q0 ∧ r.end_ = some q3

end RandomShortcutDynamic

namespace RandomShortcutDynamic

/-- One pass through the `while` statement of `optimize`: the state after the body, when
the condition holds and the body makes no undefined operation. -/
def loopStep (self : Settings) (pb : Problem) (q0 q3 : Configuration_t) (s : LoopState) :
    Option LoopState :=
  if !s.finished && s.projectionError != 0 then round self pb q0 q3 s else none

/-- The state after `j` executions of the loop body from the state `s`, when the loop runs
that long. -/
def stateAfter (self : Settings) (pb : Problem) (q0 q3 : Configuration_t) (s : LoopState) :
    ℕ → Option LoopState
  | 0 => some s
  | j + 1 => (stateAfter self pb q0 q3 s j).bind (loopStep self pb q0 q3)

/-- A `double` that is finite and not negative, as a rational: a multiple of `2 ^ (-1074)`
below `2 ^ 1024`. -/
def OnGrid (x : value_type) : Prop :=
  ∃ k : ℕ, k < 2 ^ 2098 ∧ x = (k : value_type) / 2 ^ 1074

/-- The rank of an entry of the deque among the `double`s that are not negative: the
number of steps of `2 ^ (-1074)` from 0 to a finite value, and `2 ^ 2098`, which is above
the rank of every finite `double`, for the infinite value. -/
def rank : Option value_type → ℕ
  | none => 2 ^ 2098
  | some x => ⌊x * 2 ^ 1074⌋₊

/-- The sum of the ranks of the entries of the deque but the oldest one. -/
def potential (length : List (Option value_type)) : ℕ :=
  (length.tail.map rank).sum

/-- The number of infinite entries of the deque, the oldest entry apart, that come before
its first finite entry. -/
def infiniteRun (length : List (Option value_type)) : ℕ :=
  (length.tail.takeWhile (fun entry => entry.isNone)).length

end RandomShortcutDynamic

namespace RandomShortcutDynamic

/-- Whether the round executed from the state `s` stops at one of its two evaluations of
the current path. -/
def sampleFails (pb : Problem) (s : LoopState) : Bool :=
  let c := pb.world s.rounds
  let t := sampleTimes pb.RAND_MAX s.tmpPath c.rand
  (c.eval s.tmpPath t.2.1).isNone || (c.eval s.tmpPath t.2.2.1).isNone

/-- The number of completed rounds among the first `j` rounds executed from the state
`s`: those that got past the two evaluations and reached the end of the loop body. -/
def completedRounds (self : Settings) (pb : Problem) (q0 q3 : Configuration_t)
    (s : LoopState) : ℕ → ℕ
  | 0 => 0
  | j + 1 =>
    match stateAfter self pb q0 q3 s j with
    | some t =>
      completedRounds self pb q0 q3 s j
        + (if (loopStep self pb q0 q3 t).isSome && !sampleFails pb t then 1 else 0)
    | none => completedRounds self pb q0 q3 s j

end RandomShortcutDynamic

/-! ## Concrete scenarios -/

namespace Scenario

/-- A foot pose at abscissa `x`, flat on the ground. -/
def footPose (x : value_type) : Pose := ⟨[x, 0, 0], [1, 0, 0, 0]⟩

/-- The previous state of spec §8.7: both feet in contact. -/
def twoFeet : State :=
  { contactPoses := [("left-foot", footPose 0), ("right-foot", footPose 0)]
    contacts := ["left-foot", "right-foot"]
    configuration_ := [0, 0, 0] }

/-- A helper on `twoFeet` with the given queue of candidates. -/
def helperOn (candidates : List (List String)) : ContactGenHelper :=
  { previousState_ := twoFeet, workingState_ := twoFeet, candidates_ := candidates }

/-- No placement is found. -/
def noPlace : State → Option (List (String × Pose) × Configuration_t) := fun _ => none

/-- Every contact is moved to abscissa `1/10`, the configuration being kept. -/
def shiftPlace : State → Option (List (String × Pose) × Configuration_t) := fun s =>
  some (s.contactPoses.map (fun entry => (entry.1, footPose (1 / 10))), s.configuration_)

/-- A search whose attempts succeed: `maintain_contacts` takes the first candidate off
the queue and keeps the working state, `gen_contacts` accepts it. -/
def keepingSearch : ContactSearch :=
  { maintain_contacts := fun helper =>
      ({ success_ := true, result_ := helper.workingState_,
         status_ := ContactComputationStatus.STABLE_CONTACT },
       { helper with candidates_ := helper.candidates_.drop 1 })
    gen_contacts := fun helper =>
      ({ success_ := true, result_ := helper.workingState_,
         status_ := ContactComputationStatus.STABLE_CONTACT }, helper)
    repositionContacts := repositionContacts noPlace }

/-- A search whose attempts all fail, each taking one candidate off the queue; the
repositioning is the one modelled from the spec, with the placement search `place`. -/
def failingSearch (place : State → Option (List (String × Pose) × Configuration_t)) :
    ContactSearch :=
  { maintain_contacts := fun helper =>
      ({ success_ := false }, { helper with candidates_ := helper.candidates_.drop 1 })
    gen_contacts := fun helper => ({ success_ := false }, helper)
    repositionContacts := repositionContacts place }

/-- A search that fails on the candidate `["left-foot"]` and succeeds on the next one,
leaving in the working state the contacts of the candidate tried. -/
def secondTrySearch : ContactSearch :=
  { maintain_contacts := fun helper =>
      match helper.candidates_ with
      | ["left-foot"] :: rest => ({ success_ := false }, { helper with candidates_ := rest })
      | kept :: rest =>
        ({ success_ := true
           result_ := { helper.previousState_ with contacts := kept }
           status_ := ContactComputationStatus.STABLE_CONTACT },
         { helper with candidates_ := rest })
      | [] => ({ success_ := false }, helper)
    gen_contacts := fun helper =>
      ({ success_ := true, result_ := helper.workingState_,
         status_ := ContactComputationStatus.STABLE_CONTACT }, helper)
    repositionContacts := repositionContacts noPlace }

end Scenario

namespace Scenario

/-- A sequence of states with two coordinates each: state `i` stands at abscissa `i`. -/
def walkStates (i : ℕ) : State :=
  { contactPoses := [], contacts := ["left-foot"], configuration_ := [(i : value_type), 0] }

/-- A helper whose device has one coordinate more than the states (the time), and whose
planner links the initial to the goal configuration by two sub-paths through `[9, 9, 1/2]`. -/
def walkHelper : interpolation.TimeConstraintHelper :=
  { currentConfiguration := [7, 7, 7]
    effectors := ["left-foot", "right-foot"]
    solve := fun _ start goal =>
      some ⟨[{ initial := start, end_ := [9, 9, 5], length := 1, kinodynamic := false },
             { initial := [9, 9, 5], end_ := goal, length := 1, kinodynamic := false }]⟩
    shortcut := fun path => path }

/-- Transitions all served by `walkHelper`, the limb `"left-foot"` varying in each. -/
def walk : interpolation.Transitions :=
  { helper := fun _ => walkHelper
    allVariations := fun _ _ _ => ["left-foot"] }

/-- A helper as `walkHelper` on a device that has two coordinates more than the states. -/
def wideHelper : interpolation.TimeConstraintHelper :=
  { walkHelper with currentConfiguration := [7, 7, 7, 7] }

/-- Transitions all served by `wideHelper`, the limb `"left-foot"` varying in each. -/
def wideWalk : interpolation.Transitions :=
  { helper := fun _ => wideHelper
    allVariations := fun _ _ _ => ["left-foot"] }

/-- The segment planned from abscissa `i` to abscissa `i + 1`. -/
def walkPath (i : ℕ) : PathVector :=
  ⟨[{ initial := [(i : value_type), 0, 0], end_ := [9, 9, 5], length := 1, kinodynamic := false },
    { initial := [9, 9, 5], end_ := [((i + 1 : ℕ) : value_type), 0, 1], length := 1,
      kinodynamic := false }]⟩

end Scenario

namespace Scenario

open RandomShortcutDynamic

/-- Settings of the optimizer: point contacts, default friction. -/
def settings : Settings :=
  { sizeFootX_ := 0, sizeFootY_ := 0, rectangularContact_ := false, tryJump_ := false,
    mu_ := 1 / 2 }

/-- A round in which no configuration can be evaluated on the path. -/
def failingRound : Collaborators :=
  { rand := (0, 0)
    eval := fun _ _ => none
    configValidation := fun _ => ⟨0⟩
    mass := 1
    sm := fun _ _ => none
    pathProjector := none
    validate := fun _ => false
    createCopy := fun p => p
    extract := fun v _ => v
    projection_error := fun _ => false }

/-- A problem in which every evaluation of the path fails. -/
def failingProblem : Problem :=
  { PathOptimizersNumberOfLoops := 5, RAND_MAX := 32767, world := fun _ => failingRound }

/-- A path of one sub-path and length 32767 between the configurations `[0, 0]` and
`[32767, 0]` (abscissa, heading), which is at abscissa `t` at time `t`. -/
def detour : PathVector :=
  ⟨[{ initial := [0, 0], end_ := [32767, 0], length := 32767, kinodynamic := true }]⟩

/-- The configuration of the detour at time `t`. -/
def detourEval : PathVector → value_type → Option Configuration_t :=
  fun _ t => some [t, 0]

/-- The portion between two times of a path that is at abscissa `t` at time `t`: one
sub-path, which starts where the path starts when the first time is the start of its time
range, and ends where the path ends when the second time is the end of its time range. -/
def detourExtract : PathVector → value_type × value_type → PathVector :=
  fun v interval =>
    ⟨[{ initial := if interval.1 = v.timeRange.1 then v.initial.getD [] else [interval.1, 0]
        end_ := if interval.2 = v.timeRange.2 then v.end_.getD [] else [interval.2, 0]
        length := (interval.2 - interval.1).toNNRat
        kinodynamic := true }]⟩

/-- A kinodynamic path of length 1 from the configuration of the node to the target. -/
def quickLine : RbprmNode → Configuration_t → Option Path :=
  fun x1 q2 => some { initial := x1.configuration, end_ := q2, length := 1, kinodynamic := true }

/-- An oriented copy: the heading is 1 at both ends. -/
def turned (p : Path) : Path :=
  { p with initial := p.initial.set 1 1, end_ := p.end_.set 1 1 }

/-- A round sampling the times 10000 and 20000, in which every segment is replaced by a
quick line whose oriented copy validates. -/
def orientedRound : Collaborators :=
  { rand := (20000, 10000)
    eval := detourEval
    configValidation := fun _ => ⟨0⟩
    mass := 1
    sm := quickLine
    pathProjector := none
    validate := fun _ => true
    createCopy := turned
    extract := detourExtract
    projection_error := fun _ => false }

/-- One round replaces the three segments by oriented paths; afterwards no configuration
can be evaluated. -/
def orientedProblem : Problem :=
  { PathOptimizersNumberOfLoops := 5, RAND_MAX := 32767,
    world := fun k => if k = 0 then orientedRound else failingRound }

/-- A round sampling the times 10000 and 20000, in which every segment is replaced by a
quick line whose oriented copy, with the same ends, validates. -/
def straightenedRound : Collaborators := { orientedRound with createCopy := fun p => p }

/-- One round replaces the three segments by quick lines; afterwards no configuration can
be evaluated. -/
def straightenedProblem : Problem :=
  { PathOptimizersNumberOfLoops := 5, RAND_MAX := 32767,
    world := fun k => if k = 0 then straightenedRound else failingRound }

/-- A steering method that links the sampled configurations `[10000, 0]` and `[20000, 0]`
by a quick line, reaches a configuration of heading 1 or leaves `[20000, 1]` by a path of
length 20000, and finds nothing else. -/
def slowTurn : RbprmNode → Configuration_t → Option Path :=
  fun x1 q2 =>
    if x1.configuration = [10000, 0] ∧ q2 = [20000, 0] then quickLine x1 q2
    else if q2 = [10000, 1] ∨ x1.configuration = [20000, 1] then
      some { initial := x1.configuration, end_ := q2, length := 20000, kinodynamic := true }
    else none

/-- A round in which only the middle segment is replaced, by an oriented path. -/
def resteeredRound : Collaborators := { orientedRound with sm := slowTurn }

/-- One round orients the middle segment and re-steers its neighbours; afterwards no
configuration can be evaluated. -/
def resteeredProblem : Problem :=
  { PathOptimizersNumberOfLoops := 5, RAND_MAX := 32767,
    world := fun k => if k = 0 then resteeredRound else failingRound }

/-- A path of one sub-path and length `2 ^ 200` between the configurations `[0]` and
`[1]`. -/
def longPath : PathVector :=
  ⟨[{ initial := [0], end_ := [1], length := 2 ^ 200, kinodynamic := false }]⟩

/-- The end of the long path a time stands for: its start at time 0, its end otherwise. -/
def longEnd (t : value_type) : Configuration_t := if t = 0 then [0] else [1]

/-- Round `k` of the halving problem: the times sampled are the two ends of the time
range, and the steering method links `[0]` to `[1]` by a path of length `2 ^ (199 - k)`,
half the length of the current path. -/
def halvingRound (k : ℕ) : Collaborators :=
  { rand := (32767, 0)
    eval := fun _ t => some (longEnd t)
    configValidation := fun _ => ⟨0⟩
    mass := 1
    sm := fun x1 q2 =>
      if x1.configuration = q2 then none
      else some { initial := x1.configuration, end_ := q2, length := 2 ^ (199 - k),
                  kinodynamic := false }
    pathProjector := none
    validate := fun _ => true
    createCopy := fun p => p
    extract := fun _ interval =>
      ⟨[{ initial := longEnd interval.1, end_ := longEnd interval.2,
          length := (interval.2 - interval.1).toNNRat, kinodynamic := false }]⟩
    projection_error := fun _ => false }

/-- The path is halved in each of the first 150 rounds; afterwards no configuration can
be evaluated. -/
def halvingProblem : Problem :=
  { PathOptimizersNumberOfLoops := 5, RAND_MAX := 32767,
    world := fun k => if k < 150 then halvingRound k else failingRound }

end Scenario

namespace Scenario

open RandomShortcutDynamic

/-- Collaborators with a path projector that turns the heading of both ends of the path
it is given to 1. -/
def turningProjector : Collaborators :=
  { orientedRound with pathProjector := some (fun p => some (turned p)) }

/-- Collaborators with a path projector that keeps both ends of the path it is given and
doubles its length. -/
def keepingProjector : Collaborators :=
  { orientedRound with pathProjector := some (fun p => some { p with length := 2 * p.length }) }

/-- A steering method whose path between the sampled configurations `[10000, 0]` and
`[20000, 0]` is not kinodynamic, every other path being a kinodynamic line of length 1. -/
def plainMiddle : RbprmNode → Configuration_t → Option Path :=
  fun x1 q2 =>
    some { initial := x1.configuration, end_ := q2, length := 1,
           kinodynamic := decide (¬ (x1.configuration = [10000, 0] ∧ q2 = [20000, 0])) }

/-- A round in which the first and the last segment are replaced by oriented paths and the
middle one by a path that has no oriented copy. -/
def doubleOrientedRound : Collaborators := { orientedRound with sm := plainMiddle }

/-- One round orients the first and the last segment; afterwards no configuration can be
evaluated. -/
def doubleOrientedProblem : Problem :=
  { PathOptimizersNumberOfLoops := 5, RAND_MAX := 32767,
    world := fun k => if k = 0 then doubleOrientedRound else failingRound }

/-- A round in which no segment can be steered and appending the first `throwing`
segments throws a `projection_error`. -/
def throwingRound (throwing : ℕ) : Collaborators :=
  { orientedRound with
    sm := fun _ _ => none
    projection_error := fun i => decide (i < throwing) }

/-- One round in which the composition of the first `throwing` segments throws;
afterwards no configuration can be evaluated. -/
def throwingProblem (throwing : ℕ) : Problem :=
  { PathOptimizersNumberOfLoops := 5, RAND_MAX := 32767,
    world := fun k => if k = 0 then throwingRound throwing else failingRound }

/-- A round in which no segment can be steered and the composition throws a
`projection_error` on the first and on the last segment, not on the middle one. -/
def brokenEndRound : Collaborators :=
  { orientedRound with
    sm := fun _ _ => none
    projection_error := fun i => decide (i ≠ 1) }

/-- One round whose composition throws on the first and on the last segment; afterwards
no configuration can be evaluated. -/
def brokenEndProblem : Problem :=
  { PathOptimizersNumberOfLoops := 5, RAND_MAX := 32767,
    world := fun k => if k = 0 then brokenEndRound else failingRound }

/-- After `failed` rounds in which no configuration can be evaluated, one round in which
no segment can be steered and the composition of the first `throwing` segments throws;
afterwards no configuration can be evaluated. -/
def lateThrowProblem (failed throwing : ℕ) : Problem :=
  { PathOptimizersNumberOfLoops := 5, RAND_MAX := 32767,
    world := fun k => if k = failed then throwingRound throwing else failingRound }

/-- A path of three sub-paths of length `2 ^ 1023` each, which is at abscissa `t` at time
`t`: adding its three lengths in `double`s overflows. -/
def hugePath : PathVector :=
  ⟨[{ initial := [0, 0], end_ := [2 ^ 1023, 0], length := 2 ^ 1023, kinodynamic := true },
    { initial := [2 ^ 1023, 0], end_ := [2 ^ 1024, 0], length := 2 ^ 1023, kinodynamic := true },
    { initial := [2 ^ 1024, 0], end_ := [3 * 2 ^ 1023, 0], length := 2 ^ 1023,
      kinodynamic := true }]⟩

/-- Every round samples the times at one third and two thirds of the time range and
replaces no segment. -/
def endlessProblem : Problem :=
  { PathOptimizersNumberOfLoops := 5, RAND_MAX := 3,
    world := fun _ => { throwingRound 0 with rand := (2, 1) } }

end Scenario

/-! ## Properties of `oneStep` -/

theorem HelperCall.run_previousState (call : HelperCall) (helper : ContactGenHelper) :
    (call.run helper).2.previousState_ = helper.previousState_ := rfl

theorem genContact_previousState (cs : ContactSearch) (helper : ContactGenHelper) :
    (genContactFromOneMaintainCombinatorial cs helper).2.previousState_
      = helper.previousState_ := by
  unfold genContactFromOneMaintainCombinatorial
  simp only []
  split <;> rfl

/-- Shape of the attempts of the loop of `oneStep`: all but the last failed and left
candidates, the last one succeeded or left no candidate, and `previousState_` never
changed. -/
theorem oneStepLoop_shape (cs : ContactSearch) :
    ∀ (fuel : ℕ) (helper : ContactGenHelper) (attempts : List (ProjectionReport × ContactGenHelper)),
      oneStepLoop cs fuel helper = some attempts →
      ∃ init last, attempts = init ++ [last]
        ∧ (∀ a ∈ init, a.1.success_ = false ∧ a.2.candidates_ ≠ [])
        ∧ (last.1.success_ = true ∨ last.2.candidates_ = [])
        ∧ (∀ a ∈ attempts, a.2.previousState_ = helper.previousState_)
  | 0, _, _, h => by simp [oneStepLoop] at h
  | fuel + 1, helper, attempts, h => by
    rw [oneStepLoop] at h
    split at h
    · rename_i hcond
      cases hrec : oneStepLoop cs fuel (genContactFromOneMaintainCombinatorial cs helper).2 with
      | none => simp [hrec] at h
      | some rest =>
        simp only [hrec, Option.map_some', Option.some.injEq] at h
        obtain ⟨init, last, hrest, hinit, hlast, hprev⟩ :=
          oneStepLoop_shape cs fuel _ rest hrec
        refine ⟨genContactFromOneMaintainCombinatorial cs helper :: init, last, ?_, ?_, hlast, ?_⟩
        · rw [← h, hrest]; rfl
        · intro a ha
          rcases List.mem_cons.mp ha with rfl | ha
          · simp only [Bool.and_eq_true, Bool.not_eq_true', List.isEmpty_eq_true] at hcond
            exact ⟨hcond.1, by simpa using hcond.2⟩
          · exact hinit a ha
        · intro a ha
          rw [← h] at ha
          rcases List.mem_cons.mp ha with rfl | ha
          · exact genContact_previousState cs helper
          · rw [hprev a ha]; exact genContact_previousState cs helper
    · rename_i hcond
      simp only [Option.some.injEq] at h
      refine ⟨[], genContactFromOneMaintainCombinatorial cs helper, ?_, ?_, ?_, ?_⟩
      · rw [← h]; rfl
      · intro a ha; cases ha
      · simp only [Bool.and_eq_true, Bool.not_eq_true', List.isEmpty_eq_true, not_and,
          Bool.not_eq_false] at hcond
        by_cases hs : (genContactFromOneMaintainCombinatorial cs helper).1.success_ = true
        · exact Or.inl hs
        · right
          have := hcond (by simpa using hs)
          cases hc : (genContactFromOneMaintainCombinatorial cs helper).2.candidates_ with
          | nil => rfl
          | cons x xs => simp [hc] at this
      · intro a ha
        rw [← h] at ha
        rcases List.mem_singleton.mp ha with rfl
        exact genContact_previousState cs helper

/-- The loop of `oneStep` needs no more fuel than the attempts it makes. -/
theorem oneStepLoop_fuel (cs : ContactSearch) :
    ∀ (fuel : ℕ) (helper : ContactGenHelper) (attempts : List (ProjectionReport × ContactGenHelper)),
      oneStepLoop cs fuel helper = some attempts →
      ∀ more, attempts.length ≤ more → oneStepLoop cs more helper = some attempts
  | 0, _, _, h => by simp [oneStepLoop] at h
  | fuel + 1, helper, attempts, h => by
    intro more hmore
    rw [oneStepLoop] at h
    split at h
    · rename_i hcond
      cases hrec : oneStepLoop cs fuel (genContactFromOneMaintainCombinatorial cs helper).2 with
      | none => simp [hrec] at h
      | some rest =>
        simp only [hrec, Option.map_some', Option.some.injEq] at h
        subst h
        cases more with
        | zero => simp at hmore
        | succ more =>
          have := oneStepLoop_fuel cs fuel _ rest hrec more (by simpa using hmore)
          rw [oneStepLoop]
          simp only [hcond, if_true, this, Option.map_some']
    · rename_i hcond
      simp only [Option.some.injEq] at h
      subst h
      cases more with
      | zero => simp at hmore
      | succ more =>
        rw [oneStepLoop]
        simp only [hcond]
        rfl

/-- What a run of `oneStep` is made of: the attempts of the loop, and either the report
generated from the last attempt, which succeeded, or the repositioning on the helper
reset to the previous state after a last attempt that failed with no candidate left. -/
theorem oneStep_cases (cs : ContactSearch) (fuel : ℕ) (helper : ContactGenHelper)
    (run : OneStepRun) (hrun : oneStep cs fuel helper = some run) :
    ∃ init last, oneStepLoop cs fuel helper = some (init ++ [last])
      ∧ (∀ a ∈ init, a.1.success_ = false ∧ a.2.candidates_ ≠ [])
      ∧ last.2.previousState_ = helper.previousState_
      ∧ ((last.1.success_ = true
            ∧ run.calls = attemptCalls (init ++ [last])
            ∧ run.report = generateContactReport last.1 last.2 false)
        ∨ (last.1.success_ = false ∧ last.2.candidates_ = []
            ∧ run.calls = attemptCalls (init ++ [last])
                ++ [Call.reposition { last.2 with workingState_ := helper.previousState_ }
                      (cs.repositionContacts.run
                        { last.2 with workingState_ := helper.previousState_ }).1]
            ∧ run.report = generateContactReport
                (cs.repositionContacts.run
                  { last.2 with workingState_ := helper.previousState_ }).1
                (cs.repositionContacts.run
                  { last.2 with workingState_ := helper.previousState_ }).2 true)) := by
  unfold oneStep at hrun
  cases hloop : oneStepLoop cs fuel helper with
  | none => simp [hloop] at hrun
  | some attempts =>
    obtain ⟨init, last, hatt, hinit, hlast, hprev⟩ := oneStepLoop_shape cs fuel helper attempts hloop
    have hp : last.2.previousState_ = helper.previousState_ := hprev last (by simp [hatt])
    refine ⟨init, last, by rw [hatt], hinit, hp, ?_⟩
    subst hatt
    have hgl : (init ++ [last]).getLast? = some last := by simp
    obtain ⟨rep, after⟩ := last
    simp only [hloop, hgl] at hrun
    by_cases hs : rep.success_ = true
    · left
      simp only [hs, Bool.not_true, Bool.false_eq_true, if_false, Option.some.injEq] at hrun
      subst hrun
      exact ⟨hs, rfl, rfl⟩
    · right
      have hf : rep.success_ = false := by simpa using hs
      have hc : after.candidates_ = [] := by
        rcases hlast with h | h
        · exact absurd h hs
        · exact h
      simp only [hf, Bool.not_false, if_true, handleFailure, Option.some.injEq] at hrun
      subst hrun
      simp only at hp
      refine ⟨hf, hc, ?_, ?_⟩
      · simp only [hp]
      · simp only [hp]

theorem generateContactReport_parent (parent : ProjectionReport) (helper : ContactGenHelper)
    (b : Bool) : (generateContactReport parent helper b).toProjectionReport = parent := rfl

theorem generateContactReport_repositioned (parent : ProjectionReport)
    (helper : ContactGenHelper) (b : Bool) :
    (generateContactReport parent helper b).repositionedInPlace_ = b := rfl

theorem mem_attemptCalls {attempts : List (ProjectionReport × ContactGenHelper)} {c : Call}
    (h : c ∈ attemptCalls attempts) : ∃ a ∈ attempts, c = Call.attempt a.1 a.2 := by
  unfold attemptCalls at h
  obtain ⟨a, ha, rfl⟩ := List.mem_map.mp h
  exact ⟨a, ha, rfl⟩

theorem attemptCalls_append (xs ys : List (ProjectionReport × ContactGenHelper)) :
    attemptCalls (xs ++ ys) = attemptCalls xs ++ attemptCalls ys := by
  simp [attemptCalls]

/-- An element that does not occur in `front` sits at the end of `front ++ [y]`. -/
theorem eq_last_of_not_mem {α : Type} :
    ∀ (pre post front : List α) (x y : α),
      pre ++ x :: post = front ++ [y] → x ∉ front → pre = front ∧ x = y ∧ post = []
  | [], post, [], x, y, h, _ => by
    simp only [List.nil_append, List.cons.injEq] at h
    exact ⟨rfl, h.1, h.2⟩
  | [], post, a :: front, x, y, h, hx => by
    simp only [List.nil_append, List.cons_append, List.cons.injEq] at h
    exact absurd (h.1 ▸ List.mem_cons_self _ _) hx
  | p :: pre, post, [], x, y, h, _ => by
    simp only [List.cons_append, List.nil_append, List.cons.injEq, List.append_eq_nil,
      reduceCtorEq, and_false] at h
  | p :: pre, post, a :: front, x, y, h, hx => by
    simp only [List.cons_append, List.cons.injEq] at h
    obtain ⟨h1, h2, h3⟩ := eq_last_of_not_mem pre post front x y h.2
      (fun hmem => hx (List.mem_cons_of_mem _ hmem))
    exact ⟨by rw [h.1, h1], h2, h3⟩

/-- C5 as stated fails: the loop of `oneStep` can end with `candidates_` empty because its
last candidate succeeded, and the report returned then has `repositionedInPlace_` false. -/
theorem oneStep_empty_queue_after_success :
    ∃ run rep after,
      oneStep Scenario.keepingSearch 1 (Scenario.helperOn [["left-foot", "right-foot"]])
        = some run
      ∧ run.calls = [Call.attempt rep after]
      ∧ after.candidates_ = []
      ∧ run.report.repositionedInPlace_ = false :=
  ⟨_, _, _, rfl, rfl, rfl, rfl⟩

/-- C5, amended: whenever the search loop of `oneStep` ends with a failed report (all its
attempts failed), `candidates_` is empty at that point, `repositionContacts` is run on the
helper whose working state is the previous state, the report returned has
`repositionedInPlace_` true, and the contact set of its `result_` is the contact set of
`previousState_`. -/
theorem oneStep_repositions_after_failed_search
    (cs : ContactSearch)
    (place : State → Option (List (String × Pose) × Configuration_t))
    (hcs : cs.repositionContacts = repositionContacts place)
    (fuel : ℕ) (helper : ContactGenHelper) (run : OneStepRun)
    (hrun : oneStep cs fuel helper = some run)
    (hfail : ∀ c ∈ run.calls, c.succeeded = false) :
    run.report.repositionedInPlace_ = true
      ∧ (∃ attempts last given rep,
          run.calls = attemptCalls (attempts ++ [last]) ++ [Call.reposition given rep]
          ∧ last.2.candidates_ = []
          ∧ given.workingState_ = helper.previousState_)
      ∧ SameContacts run.report.result_ helper.previousState_ := by
  obtain ⟨init, last, -, -, -, hcase⟩ := oneStep_cases _ fuel helper run hrun
  rcases hcase with ⟨hs, hcalls, -⟩ | ⟨-, hc, hcalls, hrep⟩
  · have := hfail (Call.attempt last.1 last.2) (by
      rw [hcalls, attemptCalls_append]
      simp [attemptCalls])
    simp only [Call.succeeded] at this
    rw [hs] at this
    cases this
  · refine ⟨by rw [hrep]; rfl, ⟨init, last, _, _, hcalls, hc, rfl⟩, ?_⟩
    rw [hrep]
    simp only [generateContactReport_parent, HelperCall.run, hcs, repositionContacts]
    cases hp : place helper.previousState_ with
    | none => intro limb; exact Iff.rfl
    | some out => intro limb; exact Iff.rfl

/-- The amended C5 at a concrete input: two candidates fail, then the existing contacts are
repositioned. -/
theorem oneStep_repositions_after_failed_search_witness :
    ∃ run,
      oneStep (Scenario.failingSearch Scenario.shiftPlace) 2
          (Scenario.helperOn [["left-foot"], []]) = some run
      ∧ run.calls.length = 3
      ∧ run.report.repositionedInPlace_ = true
      ∧ run.report.success_ = true
      ∧ SameContacts run.report.result_ Scenario.twoFeet :=
  ⟨_, rfl, rfl,
    (oneStep_repositions_after_failed_search (Scenario.failingSearch Scenario.shiftPlace)
      Scenario.shiftPlace rfl 2 (Scenario.helperOn [["left-foot"], []]) _ rfl
      (by decide)).1,
    rfl,
    (oneStep_repositions_after_failed_search (Scenario.failingSearch Scenario.shiftPlace)
      Scenario.shiftPlace rfl 2 (Scenario.helperOn [["left-foot"], []]) _ rfl
      (by decide)).2.2⟩

/-- C6: when an attempt of `oneStep` succeeds with a result whose contact set is the one
of the previous state, the report returned has `contactMaintained_` true,
`repositionedInPlace_` false and a `result_` with the contact set of the previous
state. -/
theorem oneStep_contact_maintained (cs : ContactSearch) (fuel : ℕ) (helper : ContactGenHelper)
    (run : OneStepRun) (rep : ProjectionReport) (after : ContactGenHelper)
    (hrun : oneStep cs fuel helper = some run)
    (hcall : Call.attempt rep after ∈ run.calls)
    (hsucc : rep.success_ = true)
    (hsame : SameContacts rep.result_ helper.previousState_) :
    run.report.contactMaintained_ = true
      ∧ run.report.repositionedInPlace_ = false
      ∧ SameContacts run.report.result_ helper.previousState_ := by
  obtain ⟨init, last, -, hinit, hprev, hcase⟩ := oneStep_cases cs fuel helper run hrun
  have key : ∀ a ∈ init ++ [last], Call.attempt rep after = Call.attempt a.1 a.2 →
      a.1.success_ = true → a = last := by
    intro a ha _ hs
    rcases List.mem_append.mp ha with h | h
    · rw [(hinit a h).1] at hs; cases hs
    · exact List.mem_singleton.mp h
  rcases hcase with ⟨-, hcalls, hrep⟩ | ⟨hf, -, hcalls, -⟩
  · rw [hcalls] at hcall
    obtain ⟨a, ha, hca⟩ := mem_attemptCalls hcall
    have hrepa : rep = a.1 := by injection hca
    have hlast : a = last := key a ha hca (hrepa ▸ hsucc)
    subst hlast
    subst hrepa
    rw [hrep]
    refine ⟨?_, rfl, hsame⟩
    have hnone : a.1.result_.contactCreations a.2.previousState_ = [] := by
      unfold State.contactCreations
      rw [List.filter_eq_nil_iff]
      intro limb hl
      rw [hprev]
      simpa using (hsame limb).mp hl
    simp [generateContactReport, hnone]
  · rw [hcalls] at hcall
    rcases List.mem_append.mp hcall with h | h
    · obtain ⟨a, ha, hca⟩ := mem_attemptCalls h
      have hrepa : rep = a.1 := by injection hca
      have hlast : a = last := key a ha hca (hrepa ▸ hsucc)
      rw [hrepa, hlast, hf] at hsucc
      cases hsucc
    · simp at h

/-- C6 at a concrete input: the only candidate keeps both feet and succeeds. -/
theorem oneStep_contact_maintained_witness :
    ∃ run rep after,
      oneStep Scenario.keepingSearch 1 (Scenario.helperOn [["left-foot", "right-foot"]])
        = some run
      ∧ Call.attempt rep after ∈ run.calls
      ∧ rep.success_ = true
      ∧ run.report.contactMaintained_ = true
      ∧ run.report.repositionedInPlace_ = false
      ∧ SameContacts run.report.result_ Scenario.twoFeet :=
  ⟨_, ⟨true, Scenario.twoFeet, ContactComputationStatus.STABLE_CONTACT⟩,
    Scenario.helperOn [], rfl, by decide, rfl,
    oneStep_contact_maintained Scenario.keepingSearch 1
      (Scenario.helperOn [["left-foot", "right-foot"]]) _
      ⟨true, Scenario.twoFeet, ContactComputationStatus.STABLE_CONTACT⟩ (Scenario.helperOn [])
      rfl (by decide) rfl (fun _ => Iff.rfl)⟩

/-- C7: the report returned by `oneStep` has `success_` false if and only if every attempt
it made failed, `candidates_` was empty after the last attempt, and `repositionContacts`,
run on the helper whose working state was reset to the previous state, returned a failed
report; in every other case it has `success_` true (the flag is a Boolean). -/
theorem oneStep_failure_iff (cs : ContactSearch) (fuel : ℕ) (helper : ContactGenHelper)
    (run : OneStepRun) (hrun : oneStep cs fuel helper = some run) :
    run.report.success_ = false ↔
      ∃ attempts last,
        run.calls = attemptCalls (attempts ++ [last])
          ++ [Call.reposition { last.2 with workingState_ := helper.previousState_ }
                (cs.repositionContacts.run
                  { last.2 with workingState_ := helper.previousState_ }).1]
        ∧ (∀ a ∈ attempts ++ [last], a.1.success_ = false)
        ∧ last.2.candidates_ = []
        ∧ (cs.repositionContacts.run
            { last.2 with workingState_ := helper.previousState_ }).1.success_ = false := by
  obtain ⟨init, last, -, hinit, -, hcase⟩ := oneStep_cases cs fuel helper run hrun
  rcases hcase with ⟨hs, hcalls, hrep⟩ | ⟨hf, hc, hcalls, hrep⟩
  · constructor
    · intro h
      rw [hrep] at h
      change last.1.success_ = false at h
      rw [hs] at h
      cases h
    · rintro ⟨attempts, last', hc', -, -, -⟩
      rw [hcalls, attemptCalls_append, attemptCalls_append] at hc'
      have := congrArg List.getLast? hc'
      simp [attemptCalls] at this
  · constructor
    · intro h
      rw [hrep] at h
      refine ⟨init, last, hcalls, ?_, hc, h⟩
      intro a ha
      rcases List.mem_append.mp ha with h' | h'
      · exact (hinit a h').1
      · rw [List.mem_singleton.mp h']; exact hf
    · rintro ⟨attempts, last', hc', -, -, hr⟩
      rw [hcalls] at hc'
      have h1 := List.append_inj_left' hc' rfl
      have h2 : init ++ [last] = attempts ++ [last'] := by
        have hinj : Function.Injective
            (fun out : ProjectionReport × ContactGenHelper => Call.attempt out.1 out.2) := by
          intro x y hxy
          simp only [Call.attempt.injEq] at hxy
          exact Prod.ext hxy.1 hxy.2
        exact List.map_injective_iff.mpr hinj h1
      have h3 : last = last' := by
        have := congrArg List.getLast? h2
        simpa using this
      subst h3
      rw [hrep]
      exact hr

/-- C7 at a concrete input: both candidates fail and no placement is found. -/
theorem oneStep_failure_iff_witness :
    ∃ run,
      oneStep (Scenario.failingSearch Scenario.noPlace) 2
          (Scenario.helperOn [["left-foot"], []]) = some run
      ∧ run.report.success_ = false
      ∧ run.calls.length = 3 :=
  ⟨_, rfl,
    ((oneStep_failure_iff (Scenario.failingSearch Scenario.noPlace) 2
        (Scenario.helperOn [["left-foot"], []]) _ rfl).mpr
      ⟨[(_, _)], (_, _), rfl, by decide, rfl, rfl⟩),
    rfl⟩

/-- C8: `oneStep` stops at the first attempt whose report has `success_` true. No call
follows it (neither another attempt nor `repositionContacts`), every earlier call is an
attempt that failed, the report returned carries its `result_` with `repositionedInPlace_`
false, and the run needs no more fuel than the calls it made. -/
theorem oneStep_stops_at_first_success (cs : ContactSearch) (fuel : ℕ)
    (helper : ContactGenHelper) (run : OneStepRun) (pre post : List Call)
    (rep : ProjectionReport) (after : ContactGenHelper)
    (hrun : oneStep cs fuel helper = some run)
    (hcalls : run.calls = pre ++ Call.attempt rep after :: post)
    (hsucc : rep.success_ = true) :
    post = []
      ∧ (∀ c ∈ pre, ∃ r a, c = Call.attempt r a ∧ r.success_ = false)
      ∧ run.report.result_ = rep.result_
      ∧ run.report.repositionedInPlace_ = false
      ∧ ∀ more, run.calls.length ≤ more → oneStep cs more helper = some run := by
  obtain ⟨init, last, hloop, hinit, -, hcase⟩ := oneStep_cases cs fuel helper run hrun
  have hnot : Call.attempt rep after ∉ attemptCalls init := by
    intro hmem
    obtain ⟨a, ha, hca⟩ := mem_attemptCalls hmem
    have hrepa : rep = a.1 := by injection hca
    rw [hrepa, (hinit a ha).1] at hsucc
    cases hsucc
  rcases hcase with ⟨-, hc, hrep⟩ | ⟨hf, -, hc, -⟩
  · rw [hcalls, attemptCalls_append] at hc
    obtain ⟨hpre, hx, hpost⟩ :=
      eq_last_of_not_mem pre post (attemptCalls init) _ (Call.attempt last.1 last.2) hc hnot
    have hrepl : rep = last.1 := by injection hx
    refine ⟨hpost, ?_, by rw [hrep, hrepl]; rfl, by rw [hrep]; rfl, ?_⟩
    · intro c hcmem
      rw [hpre] at hcmem
      obtain ⟨a, ha, rfl⟩ := mem_attemptCalls hcmem
      exact ⟨a.1, a.2, rfl, (hinit a ha).1⟩
    · intro more hmore
      have hlen : (init ++ [last]).length ≤ more := by
        have : run.calls.length = (init ++ [last]).length := by
          rw [hcalls, hc]; simp [attemptCalls]
        omega
      have hl := oneStepLoop_fuel cs fuel helper _ hloop more hlen
      rw [← hrun]
      unfold oneStep
      rw [hl, hloop]
  · exfalso
    have hmem : Call.attempt rep after ∈ run.calls := by rw [hcalls]; simp
    rw [hc, attemptCalls_append] at hmem
    rcases List.mem_append.mp hmem with h | h
    · rcases List.mem_append.mp h with h | h
      · exact hnot h
      · simp only [attemptCalls, List.map_cons, List.map_nil, List.mem_singleton,
          Call.attempt.injEq] at h
        rw [h.1, hf] at hsucc
        cases hsucc
    · simp at h

/-- C8 at a concrete input (spec §8.7): the candidate `["left-foot"]` fails, the next
candidate succeeds, and `oneStep` returns its result without repositioning. -/
theorem oneStep_stops_at_first_success_witness :
    ∃ run failedRep mid rep after,
      oneStep Scenario.secondTrySearch 2 (Scenario.helperOn [["left-foot"], []]) = some run
      ∧ run.calls = [Call.attempt failedRep mid] ++ Call.attempt rep after :: []
      ∧ rep.success_ = true
      ∧ run.report.result_ = rep.result_
      ∧ run.report.repositionedInPlace_ = false :=
  by
  refine ⟨_, _, _, _, _, rfl, rfl, rfl, ?_⟩
  have h := oneStep_stops_at_first_success Scenario.secondTrySearch 2
    (Scenario.helperOn [["left-foot"], []]) _ [Call.attempt _ _] []
    ⟨true, { Scenario.twoFeet with contacts := [] }, ContactComputationStatus.STABLE_CONTACT⟩
    _ rfl rfl rfl
  exact ⟨h.2.2.1, h.2.2.2.1⟩

/-! ## Properties of `checkPath`, `ConcatenateAndResizePath` and `interpolateStates` -/

namespace interpolation

/-- The loop of `checkPath` stops at the first false flag at or after `i`. -/
theorem checkPathLoop_spec (distance : ℕ) (valid : ℕ → Bool) :
    ∀ (remaining i : ℕ), i + remaining = distance →
      i ≤ checkPathLoop distance valid remaining i
        ∧ checkPathLoop distance valid remaining i ≤ distance
        ∧ (∀ j, i ≤ j → j < checkPathLoop distance valid remaining i → valid j = true)
        ∧ (checkPathLoop distance valid remaining i < distance →
            valid (checkPathLoop distance valid remaining i) = false)
  | 0, i, h => by
    simp only [checkPathLoop]
    refine ⟨by omega, le_refl _, ?_, ?_⟩
    · intro j h1 h2; omega
    · intro h'; omega
  | remaining + 1, i, h => by
    rw [checkPathLoop]
    by_cases hv : valid i = true
    · simp only [hv, Bool.not_true, Bool.false_eq_true, if_false]
      obtain ⟨h1, h2, h3, h4⟩ := checkPathLoop_spec distance valid remaining (i + 1) (by omega)
      refine ⟨by omega, h2, ?_, h4⟩
      intro j hj1 hj2
      rcases Nat.eq_or_lt_of_le hj1 with rfl | hlt
      · exact hv
      · exact h3 j hlt hj2
    · have hf : valid i = false := by simpa using hv
      rw [if_pos (by simp [hf])]
      refine ⟨le_refl _, by omega, ?_, fun _ => hf⟩
      intro j h1 h2; omega

/-- The loop of `ConcatenateAndResizePath` appends `res[i]`, ..., `res[i + remaining - 1]`
in order when none of them is null. -/
theorem concatenateLoop_spec (res : ℕ → Option PathVector) :
    ∀ (remaining i : ℕ) (completePath : PathVector),
      (∀ j, i ≤ j → j < i + remaining → (res j).isSome = true) →
      concatenateLoop res remaining i completePath
        = some ⟨completePath.paths_
            ++ (List.range' i remaining).flatMap
                (fun j => ((res j).map PathVector.paths_).getD [])⟩
  | 0, i, completePath, _ => by simp [concatenateLoop]
  | remaining + 1, i, completePath, h => by
    rw [concatenateLoop]
    cases hr : res i with
    | none =>
      have := h i (le_refl _) (by omega)
      rw [hr] at this
      cases this
    | some next =>
      simp only []
      rw [concatenateLoop_spec res remaining (i + 1) _ (fun j h1 h2 => h j (by omega) (by omega))]
      simp [PathVector.concatenate, List.range', hr]

/-- What `ConcatenateAndResizePath` returns when `res[0]`, ..., `res[numValid - 1]` are not
null: the concatenation of exactly these, seen without the last coordinate. -/
theorem ConcatenateAndResizePath_spec (res : ℕ → Option PathVector) (numValid : ℕ)
    (hpos : 0 < numValid) (h : ∀ j, j < numValid → (res j).isSome = true) :
    ConcatenateAndResizePath res numValid
      = (PathVector.initial
          ⟨(List.range numValid).flatMap (fun j => ((res j).map PathVector.paths_).getD [])⟩).map
          (fun q => SubchainPath.create
            ⟨(List.range numValid).flatMap (fun j => ((res j).map PathVector.paths_).getD [])⟩
            [(0, q.length - 1)]) := by
  unfold ConcatenateAndResizePath
  cases hr : res 0 with
  | none =>
    have := h 0 hpos
    rw [hr] at this
    cases this
  | some first =>
    simp only []
    rw [concatenateLoop_spec res (numValid - 1) 1 first
      (fun j h1 h2 => h j (by omega))]
    have hrange : (List.range numValid).flatMap
          (fun j => ((res j).map PathVector.paths_).getD [])
        = first.paths_ ++ (List.range' 1 (numValid - 1)).flatMap
            (fun j => ((res j).map PathVector.paths_).getD []) := by
      obtain ⟨k, rfl⟩ : ∃ k, numValid = k + 1 := ⟨numValid - 1, by omega⟩
      rw [List.range_eq_range', List.range'_succ]
      simp [hr]
    rw [hrange]
    dsimp only
    split
    · rename_i hq; rw [hq]; rfl
    · rename_i q hq; rw [hq]; rfl

/-- C10 as stated fails at `distance = 0`: with every flag true, `valid[0]` included,
`checkPath` does not return `distance` but throws. -/
theorem checkPath_zero_distance_throws :
    checkPath 0 (fun _ => true) = Except.error "No path found at state 0" := rfl

/-- What `checkPath` returns for a positive `distance` and `valid[0]` true, and what
`ConcatenateAndResizePath` then builds. -/
theorem checkPath_then_concatenate (distance : ℕ) (valid : ℕ → Bool)
    (res : ℕ → Option PathVector)
    (hdistance : 1 ≤ distance) (hvalid0 : valid 0 = true)
    (hres : ∀ j, valid j = true → (res j).isSome = true) :
    ∃ numValid, checkPath distance valid = Except.ok numValid
      ∧ 1 ≤ numValid ∧ numValid ≤ distance
      ∧ (∀ j, j < numValid → valid j = true)
      ∧ (numValid < distance → valid numValid = false)
      ∧ ConcatenateAndResizePath res numValid
          = (PathVector.initial
              ⟨(List.range numValid).flatMap
                (fun j => ((res j).map PathVector.paths_).getD [])⟩).map
              (fun q => SubchainPath.create
                ⟨(List.range numValid).flatMap
                  (fun j => ((res j).map PathVector.paths_).getD [])⟩
                [(0, q.length - 1)]) := by
  obtain ⟨-, h2, h3, h4⟩ := checkPathLoop_spec distance valid distance 0 (by omega)
  have hpos : 1 ≤ checkPathLoop distance valid distance 0 := by
    by_contra hlt
    have hz : checkPathLoop distance valid distance 0 = 0 := by omega
    have := h4 (by omega)
    rw [hz, hvalid0] at this
    cases this
  refine ⟨checkPathLoop distance valid distance 0, ?_, hpos, h2,
    fun j hj => h3 j (Nat.zero_le _) hj, h4, ?_⟩
  · unfold checkPath
    simp only []
    rw [if_neg (by omega)]
  · exact ConcatenateAndResizePath_spec res _ hpos (fun j hj => hres j (h3 j (Nat.zero_le _) hj))

/-- C10, amended with `distance ≥ 1`: for every flag array with `valid[0]` true,
`checkPath` returns the smallest index below `distance` whose flag is false, or `distance`
when there is none; every flag below the index returned is true, and
`ConcatenateAndResizePath` called with it concatenates exactly `res[0]`, ...,
`res[index - 1]` in order (the entries of valid transitions are not null). -/
theorem checkPath_first_invalid (distance : ℕ) (valid : ℕ → Bool)
    (res : ℕ → Option PathVector)
    (hdistance : 1 ≤ distance) (hvalid0 : valid 0 = true)
    (hres : ∀ j, valid j = true → (res j).isSome = true) :
    ∃ numValid, checkPath distance valid = Except.ok numValid
      ∧ 1 ≤ numValid ∧ numValid ≤ distance
      ∧ (∀ j, j < numValid → valid j = true)
      ∧ (numValid < distance → valid numValid = false)
      ∧ ConcatenateAndResizePath res numValid
          = (PathVector.initial
              ⟨(List.range numValid).flatMap
                (fun j => ((res j).map PathVector.paths_).getD [])⟩).map
              (fun q => SubchainPath.create
                ⟨(List.range numValid).flatMap
                  (fun j => ((res j).map PathVector.paths_).getD [])⟩
                [(0, q.length - 1)]) :=
  checkPath_then_concatenate distance valid res hdistance hvalid0 hres

end interpolation

namespace interpolation

/-- The amended C10 at a concrete input: of three transitions the third failed, so the
first two paths are concatenated. -/
theorem checkPath_first_invalid_witness :
    ∃ numValid, checkPath 3 (fun i => decide (i < 2)) = Except.ok numValid
      ∧ numValid = 2
      ∧ (ConcatenateAndResizePath (fun i => some (Scenario.walkPath i)) numValid).map
          SubchainPath.original
        = some ⟨(Scenario.walkPath 0).paths_ ++ (Scenario.walkPath 1).paths_⟩ := by
  obtain ⟨numValid, h1, -, -, -, -, h6⟩ :=
    checkPath_first_invalid 3 (fun i => decide (i < 2)) (fun i => some (Scenario.walkPath i))
      (by decide) (by decide) (fun _ _ => rfl)
  have h2 : numValid = 2 := by
    have : checkPath 3 (fun i => decide (i < 2)) = Except.ok 2 := rfl
    rw [this] at h1
    injection h1 with h1
    exact h1.symm
  subst h2
  exact ⟨2, h1, rfl, by rw [h6]; rfl⟩

/-- With a device that has one coordinate more than the state, `TimeConfigFromDevice`
gives the configuration of the state followed by the time. -/
theorem TimeConfigFromDevice_eq (helper : TimeConstraintHelper) (state : State)
    (time : value_type)
    (h : helper.currentConfiguration.length = state.configuration_.length + 1) :
    TimeConfigFromDevice helper state time = state.configuration_ ++ [time] := by
  unfold TimeConfigFromDevice
  obtain ⟨x, hx⟩ : ∃ x, helper.currentConfiguration.drop state.configuration_.length = [x] := by
    have hl : (helper.currentConfiguration.drop state.configuration_.length).length = 1 := by
      rw [List.length_drop]; omega
    exact List.length_eq_one.mp hl
  simp only [hx, List.length_append, List.length_singleton, Nat.add_sub_cancel]
  rw [List.set_append_right _ _ (le_refl _)]
  simp

/-- Seen without its last coordinate, the configuration built by `TimeConfigFromDevice`
is the configuration of the state. -/
theorem selectIntervals_TimeConfig (helper : TimeConstraintHelper) (state : State)
    (time : value_type)
    (h : helper.currentConfiguration.length = state.configuration_.length + 1) :
    selectIntervals [(0, state.configuration_.length)] (TimeConfigFromDevice helper state time)
      = state.configuration_ := by
  rw [TimeConfigFromDevice_eq helper state time h]
  simp [selectIntervals]

set_option maxRecDepth 100000 in
/-- C9 as stated fails when the device has more than one coordinate beyond those of the
states: with states of two coordinates and a device of four, the two transitions succeed,
each path running from `TimeConfigFromDevice (s_i, 0)` to `TimeConfigFromDevice (s_{i+1},
1)`, and both sides of the junction show `[1, 0, 7]`, which is not the configuration
`[1, 0]` of the shared state. -/
theorem interpolateStates_wide_device_junction :
    ∃ returned path0 path1,
      interpolateStates Scenario.wideWalk Scenario.walkStates 2 1
          = some (Except.ok (some returned))
        ∧ transitionPaths Scenario.wideWalk Scenario.walkStates 1 0 = some path0
        ∧ transitionPaths Scenario.wideWalk Scenario.walkStates 1 1 = some path1
        ∧ path0.initial
          = some (TimeConfigFromDevice Scenario.wideHelper (Scenario.walkStates 0) 0)
        ∧ path0.end_ = some (TimeConfigFromDevice Scenario.wideHelper (Scenario.walkStates 1) 1)
        ∧ path1.initial
          = some (TimeConfigFromDevice Scenario.wideHelper (Scenario.walkStates 1) 0)
        ∧ path1.end_ = some (TimeConfigFromDevice Scenario.wideHelper (Scenario.walkStates 2) 1)
        ∧ returned.original = ⟨path0.paths_ ++ path1.paths_⟩
        ∧ path0.end_.map returned.config = some [1, 0, 7]
        ∧ path1.initial.map returned.config = some [1, 0, 7]
        ∧ (Scenario.walkStates 1).configuration_ = [1, 0] := by
  refine ⟨_, _, _, rfl, rfl, rfl, ?_, ?_, ?_, ?_, ?_, ?_, ?_, ?_⟩ <;> decide!

/-- C9, amended: for `N` transitions that all succeeded (`1 ≤ N < 100`) over states of `m`
coordinates each, the device of each transition having `m + 1` coordinates (the last one
the time), transition `i` running from `TimeConfigFromDevice (s_i, 0)` to
`TimeConfigFromDevice (s_{i+1}, 1)`, the path returned by `interpolateStates` is the
concatenation in order of the `N` transition paths, seen without the last (time)
coordinate; it has the `N - 1` junctions between consecutive transitions, and at junction
`i` the configuration on both sides is the one of the shared state `s_{i+1}`. -/
theorem interpolateStates_concatenation (tr : Transitions) (states : ℕ → State)
    (N numOptimizations m : ℕ) (paths : ℕ → PathVector)
    (hN : 1 ≤ N) (hN' : N < 100)
    (hstates : ∀ i, i ≤ N → (states i).configuration_.length = m)
    (hdevice : ∀ i, i < N → (tr.helper i).currentConfiguration.length = m + 1)
    (hpaths : ∀ i, i < N → transitionPaths tr states numOptimizations i = some (paths i))
    (hinitial : ∀ i, i < N →
      (paths i).initial = some (TimeConfigFromDevice (tr.helper i) (states i) 0))
    (hend : ∀ i, i < N →
      (paths i).end_ = some (TimeConfigFromDevice (tr.helper i) (states (i + 1)) 1)) :
    ∃ returned,
      interpolateStates tr states N numOptimizations = some (Except.ok (some returned))
      ∧ returned.original = ⟨(List.range N).flatMap (fun i => (paths i).paths_)⟩
      ∧ returned.intervals = [(0, m)]
      ∧ (List.range (N - 1)).map
            (fun i => ((paths i).end_.map returned.config,
                       (paths (i + 1)).initial.map returned.config))
          = (List.range (N - 1)).map
            (fun i => (some (states (i + 1)).configuration_,
                       some (states (i + 1)).configuration_)) := by
  have hsome : ∀ j, j < N → (transitionPaths tr states numOptimizations j).isSome = true := by
    intro j hj; rw [hpaths j hj]; rfl
  obtain ⟨numValid, hcheck, -, hle, -, hlast, hconcat⟩ :=
    checkPath_then_concatenate N
      (fun i => (transitionPaths tr states numOptimizations i).isSome)
      (transitionPaths tr states numOptimizations) hN (hsome 0 (by omega)) (fun _ h => h)
  have hnum : numValid = N := by
    by_contra hne
    have hlt : numValid < N := by omega
    have := hlast hlt
    simp only [] at this
    rw [hsome numValid hlt] at this
    cases this
  subst hnum
  have hflat : (List.range numValid).flatMap
        (fun j => ((transitionPaths tr states numOptimizations j).map PathVector.paths_).getD [])
      = (List.range numValid).flatMap (fun i => (paths i).paths_) := by
    apply List.flatMap_congr
    intro j hj
    rw [hpaths j (List.mem_range.mp hj)]
    rfl
  rw [hflat] at hconcat
  have hfirst : PathVector.initial ⟨(List.range numValid).flatMap (fun i => (paths i).paths_)⟩
      = some (TimeConfigFromDevice (tr.helper 0) (states 0) 0) := by
    obtain ⟨k, rfl⟩ : ∃ k, numValid = k + 1 := ⟨numValid - 1, by omega⟩
    have h0 := hinitial 0 (by omega)
    unfold PathVector.initial at h0 ⊢
    rw [List.range_succ_eq_map, List.flatMap_cons]
    cases hp : (paths 0).paths_ with
    | nil => rw [hp] at h0; cases h0
    | cons p ps => rw [hp] at h0; simpa using h0
  have hlen : (TimeConfigFromDevice (tr.helper 0) (states 0) 0).length - 1 = m := by
    rw [TimeConfigFromDevice_eq _ _ _ (by rw [hdevice 0 (by omega), hstates 0 (by omega)])]
    simp [hstates 0 (by omega)]
  rw [hfirst] at hconcat
  simp only [Option.map_some', hlen] at hconcat
  refine ⟨SubchainPath.create ⟨(List.range numValid).flatMap (fun i => (paths i).paths_)⟩
    [(0, m)], ?_, rfl, rfl, ?_⟩
  · unfold interpolateStates
    rw [if_pos hN']
    simp only [hcheck, hconcat]
  · apply List.map_congr_left
    intro i hi
    have hi' : i + 1 < numValid := by have := List.mem_range.mp hi; omega
    have hs := hstates (i + 1) (by omega)
    rw [hend i (by omega), hinitial (i + 1) hi']
    simp only [Option.map_some', SubchainPath.config, SubchainPath.create]
    rw [← hs, selectIntervals_TimeConfig _ _ _ (by rw [hdevice i (by omega), hs]),
      selectIntervals_TimeConfig _ _ _ (by rw [hdevice (i + 1) hi', hs])]

end interpolation

namespace interpolation

/-- The amended C9 at a concrete input: two transitions over three states of two coordinates; the one
junction shows the configuration `[1, 0]` of the middle state on both sides. -/
theorem interpolateStates_concatenation_witness :
    ∃ returned,
      interpolateStates Scenario.walk Scenario.walkStates 2 1
          = some (Except.ok (some returned))
      ∧ returned.original
          = ⟨(List.range 2).flatMap (fun i => (Scenario.walkPath i).paths_)⟩
      ∧ returned.intervals = [(0, 2)]
      ∧ (List.range (2 - 1)).map
            (fun i => ((Scenario.walkPath i).end_.map returned.config,
                       (Scenario.walkPath (i + 1)).initial.map returned.config))
          = (List.range (2 - 1)).map
            (fun i => (some (Scenario.walkStates (i + 1)).configuration_,
                       some (Scenario.walkStates (i + 1)).configuration_)) :=
  interpolateStates_concatenation Scenario.walk Scenario.walkStates 2 1 2 Scenario.walkPath
    (by decide) (by decide) (fun _ _ => rfl) (fun _ _ => rfl) (fun _ _ => rfl)
    (fun _ _ => rfl) (fun _ _ => rfl)

end interpolation

/-! ## Endpoints of the paths handled by `optimize` -/

namespace PathVector

theorem initial_append_left {xs ys : List Path} {q : Configuration_t}
    (h : PathVector.initial ⟨xs⟩ = some q) : PathVector.initial ⟨xs ++ ys⟩ = some q := by
  cases xs with
  | nil => simp [PathVector.initial] at h
  | cons x xs => simpa [PathVector.initial] using h

theorem end_append_right {xs ys : List Path} {q : Configuration_t}
    (h : PathVector.end_ ⟨ys⟩ = some q) : PathVector.end_ ⟨xs ++ ys⟩ = some q := by
  cases ys with
  | nil => simp [PathVector.end_] at h
  | cons y ys =>
    unfold PathVector.end_ at h ⊢
    rw [List.getLast?_append_of_ne_nil _ (by simp)]
    exact h

theorem end_append_left {xs : List Path} : PathVector.end_ ⟨xs ++ []⟩ = PathVector.end_ ⟨xs⟩ := by
  simp

end PathVector

namespace RandomShortcutDynamic

theorem steer_endpoints (self : Settings) (c : Collaborators) (hproj : ProjectorKeepsEnds c)
    (q1 q2 : Configuration_t) (p : Path) (h : steer self c q1 q2 = some p) :
    p.initial = q1 ∧ p.end_ = q2 := by
  unfold steer at h
  simp only at h
  split at h
  · rename_i dp hdp
    split at h
    · cases h
    · rename_i hne
      have hends : dp.initial = q1 ∧ dp.end_ = q2 := by
        constructor
        · by_contra hc; exact hne (Or.inl hc)
        · by_contra hc; exact hne (Or.inr hc)
      split at h
      · injection h with h; subst h; exact hends
      · rename_i f hf
        split at h
        · rename_i pp hpp
          injection h with h
          subst h
          have := hproj f dp pp hf hpp
          exact ⟨this.1.trans hends.1, this.2.trans hends.2⟩
        · cases h
  · cases h

theorem resteer_endpoints (self : Settings) (c : Collaborators) (hproj : ProjectorKeepsEnds c)
    (q1 q2 : Configuration_t) (p : Path) (h : resteer self c q1 q2 = some p) :
    p.initial = q1 ∧ p.end_ = q2 := by
  unfold resteer at h
  split at h
  · rename_i replaceTmp hs
    split at h
    · injection h with h; subst h; exact steer_endpoints self c hproj q1 q2 _ hs
    · cases h
  · cases h

/-- The path chosen by the first loop for a segment is the straight path, which `steer`
returned, or the portion extracted; its oriented copy, when there is one, is the copy of
the straight path. -/
theorem acceptSegment_cases (self : Settings) (c : Collaborators) (tmpPath : PathVector)
    (qa qb : Configuration_t) (ta tb : value_type) :
    ((∃ s, steer self c qa qb = some s
          ∧ (acceptSegment self c tmpPath qa qb ta tb).resultPath = PathPtr_t.path s)
        ∨ (acceptSegment self c tmpPath qa qb ta tb).resultPath
            = PathPtr_t.vector (c.extract tmpPath (ta, tb)))
      ∧ (∀ o, (acceptSegment self c tmpPath qa qb ta tb).oriented = some o →
          ∃ s, steer self c qa qb = some s ∧ o = c.createCopy s) := by
  unfold acceptSegment
  cases hs : steer self c qa qb with
  | none => exact ⟨Or.inr rfl, fun o h => by cases h⟩
  | some s =>
    dsimp only
    generalize (if Double.lt (Double.finite s.length)
        (Double.ofEntry (PathLength.run true (c.extract tmpPath (ta, tb)))) = true
      then c.validate s
      else Double.lt (Double.finite s.length)
        (Double.ofEntry (PathLength.run true (c.extract tmpPath (ta, tb))))) = valid
    cases valid with
    | false => exact ⟨Or.inr rfl, fun o h => by cases h⟩
    | true =>
      cases hk : s.kinodynamic with
      | false => exact ⟨Or.inl ⟨s, rfl, rfl⟩, fun o h => by cases h⟩
      | true =>
        refine ⟨Or.inl ⟨s, rfl, rfl⟩, fun o h => ⟨s, rfl, ?_⟩⟩
        injection h with h
        exact h.symm

end RandomShortcutDynamic

namespace RandomShortcutDynamic

theorem acceptSegment_initial (self : Settings) (c : Collaborators) (hproj : ProjectorKeepsEnds c)
    (hcopy : CopyKeepsEnds c) (tmpPath : PathVector) (qa qb : Configuration_t)
    (ta tb : value_type) (hext : (c.extract tmpPath (ta, tb)).initial = some qa) :
    (acceptSegment self c tmpPath qa qb ta tb).resultPath.initial = some qa
      ∧ ∀ o, (acceptSegment self c tmpPath qa qb ta tb).oriented = some o → o.initial = qa := by
  obtain ⟨h1, h2⟩ := acceptSegment_cases self c tmpPath qa qb ta tb
  constructor
  · rcases h1 with ⟨s, hs, hr⟩ | hr
    · rw [hr]
      simp only [PathPtr_t.initial]
      rw [(steer_endpoints self c hproj qa qb s hs).1]
    · rw [hr]; exact hext
  · intro o ho
    obtain ⟨s, hs, rfl⟩ := h2 o ho
    rw [(hcopy s).1, (steer_endpoints self c hproj qa qb s hs).1]

theorem acceptSegment_end (self : Settings) (c : Collaborators) (hproj : ProjectorKeepsEnds c)
    (hcopy : CopyKeepsEnds c) (tmpPath : PathVector) (qa qb : Configuration_t)
    (ta tb : value_type) (hext : (c.extract tmpPath (ta, tb)).end_ = some qb) :
    (acceptSegment self c tmpPath qa qb ta tb).resultPath.end_ = some qb
      ∧ ∀ o, (acceptSegment self c tmpPath qa qb ta tb).oriented = some o → o.end_ = qb := by
  obtain ⟨h1, h2⟩ := acceptSegment_cases self c tmpPath qa qb ta tb
  constructor
  · rcases h1 with ⟨s, hs, hr⟩ | hr
    · rw [hr]
      simp only [PathPtr_t.end_]
      rw [(steer_endpoints self c hproj qa qb s hs).2]
    · rw [hr]; exact hext
  · intro o ho
    obtain ⟨s, hs, rfl⟩ := h2 o ho
    rw [(hcopy s).2, (steer_endpoints self c hproj qa qb s hs).2]

theorem adjustVectorEnd_initial (self : Settings) (c : Collaborators)
    (hproj : ProjectorKeepsEnds c) (w : PathVector) (target q : Configuration_t)
    (r : PathPtr_t) (h : adjustVectorEnd self c w target = some (some r))
    (hw : w.initial = some q) : r.initial = some q := by
  unfold adjustVectorEnd at h
  split at h
  · cases h
  · rename_i last hlast
    split at h
    · rename_i replaceTmp hre
      injection h with h
      injection h with h
      subst h
      have hends := resteer_endpoints self c hproj _ _ _ hre
      obtain ⟨paths⟩ := w
      simp only [PathVector.pathAtRank, PathVector.numberPaths] at hlast
      simp only [PathPtr_t.initial, PathVector.numberPaths, PathVector.initial] at hw ⊢
      cases paths with
      | nil => simp at hw
      | cons x xs =>
        cases xs with
        | nil =>
          simp only [List.length_singleton, Nat.sub_self, List.getElem?_cons_zero,
            Option.some.injEq] at hlast
          subst hlast
          simpa [hends.1] using hw
        | cons y ys => simpa using hw
    · cases h

theorem adjustVectorStart_end (self : Settings) (c : Collaborators)
    (hproj : ProjectorKeepsEnds c) (w : PathVector) (source q : Configuration_t)
    (r : PathPtr_t) (h : adjustVectorStart self c w source = some (some r))
    (hw : w.end_ = some q) : r.end_ = some q := by
  unfold adjustVectorStart at h
  split at h
  · cases h
  · rename_i first hfirst
    split at h
    · rename_i replaceTmp hre
      injection h with h
      injection h with h
      subst h
      have hends := resteer_endpoints self c hproj _ _ _ hre
      obtain ⟨paths⟩ := w
      simp only [PathVector.pathAtRank] at hfirst
      simp only [PathPtr_t.end_, PathVector.end_] at hw ⊢
      cases paths with
      | nil => simp at hw
      | cons x xs =>
        simp only [List.getElem?_cons_zero, Option.some.injEq] at hfirst
        subst hfirst
        cases xs with
        | nil => simpa [hends.2] using hw
        | cons y ys => simpa [List.getLast?_cons_cons] using hw
    · cases h

end RandomShortcutDynamic

namespace RandomShortcutDynamic

theorem adjustFirst_initial (self : Settings) (c : Collaborators) (hproj : ProjectorKeepsEnds c)
    (tmpPath : PathVector) (seg0 : Segment) (q0 : Configuration_t) (t0 t1 : value_type)
    (oriented1 : Path) (r : PathPtr_t)
    (horiented : ∀ o, seg0.oriented = some o → o.initial = q0)
    (hext : (c.extract tmpPath (t0, t1)).initial = some q0)
    (h : adjustFirst self c tmpPath seg0 q0 t0 t1 oriented1 = some (some r)) :
    r.initial = some q0 := by
  unfold adjustFirst at h
  split at h
  · split at h
    · rename_i o ho
      injection h with h
      injection h with h
      subst h
      simp only [PathPtr_t.initial, horiented o ho]
    · cases h
  · split at h
    · injection h with h
      cases hre : resteer self c q0 oriented1.initial with
      | none => rw [hre] at h; cases h
      | some p =>
        rw [hre] at h
        injection h with h
        subst h
        simp only [PathPtr_t.initial, (resteer_endpoints self c hproj _ _ _ hre).1]
    · exact adjustVectorEnd_initial self c hproj _ _ _ _ h hext

theorem adjustLast_end (self : Settings) (c : Collaborators) (hproj : ProjectorKeepsEnds c)
    (tmpPath : PathVector) (seg2 : Segment) (q3 : Configuration_t) (t2 t3 : value_type)
    (oriented1 : Path) (r : PathPtr_t)
    (horiented : ∀ o, seg2.oriented = some o → o.end_ = q3)
    (hext : (c.extract tmpPath (t2, t3)).end_ = some q3)
    (h : adjustLast self c tmpPath seg2 q3 t2 t3 oriented1 = some (some r)) :
    r.end_ = some q3 := by
  unfold adjustLast at h
  split at h
  · split at h
    · rename_i o ho
      injection h with h
      injection h with h
      subst h
      simp only [PathPtr_t.end_, horiented o ho]
    · cases h
  · split at h
    · injection h with h
      cases hre : resteer self c oriented1.end_ q3 with
      | none => rw [hre] at h; cases h
      | some p =>
        rw [hre] at h
        injection h with h
        subst h
        simp only [PathPtr_t.end_, (resteer_endpoints self c hproj _ _ _ hre).2]
    · exact adjustVectorStart_end self c hproj _ _ _ _ h hext

/-- After the adjustment to the oriented replacements, the path chosen for the first
segment still starts at `q0` and the one chosen for the last segment still ends at
`q3`. -/
theorem cascade_endpoints (self : Settings) (c : Collaborators) (hproj : ProjectorKeepsEnds c)
    (tmpPath : PathVector) (q0 q1 q2 q3 : Configuration_t) (t0 t1 t2 t3 : value_type)
    (seg0 seg1 seg2 : Segment) (r : PathPtr_t × PathPtr_t × PathPtr_t)
    (h0 : seg0.resultPath.initial = some q0)
    (ho0 : ∀ o, seg0.oriented = some o → o.initial = q0)
    (h3 : seg2.resultPath.end_ = some q3)
    (ho3 : ∀ o, seg2.oriented = some o → o.end_ = q3)
    (hext0 : (c.extract tmpPath (t0, t1)).initial = some q0)
    (hext3 : (c.extract tmpPath (t2, t3)).end_ = some q3)
    (h : cascade self c tmpPath q0 q1 q2 q3 t0 t1 t2 t3 seg0 seg1 seg2 = some r) :
    r.1.initial = some q0 ∧ r.2.2.end_ = some q3 := by
  unfold cascade at h
  split at h
  · unfold cascadeMiddle at h
    split at h
    · cases h
    · rename_i oriented1 _
      split at h
      · cases h
      · injection h with h; subst h; exact ⟨h0, h3⟩
      · rename_i tmpResult0 hfirst
        split at h
        · cases h
        · injection h with h; subst h; exact ⟨h0, h3⟩
        · rename_i tmpResult2 hlast
          injection h with h
          subst h
          exact ⟨adjustFirst_initial self c hproj tmpPath seg0 q0 t0 t1 oriented1 _ ho0 hext0 hfirst,
            adjustLast_end self c hproj tmpPath seg2 q3 t2 t3 oriented1 _ ho3 hext3 hlast⟩
  · split at h
    · cases h
    · rename_i resultPath0 resultPath1 hfirst
      split at h
      · cases h
      · rename_i resultPath1' resultPath2 hlast
        injection h with h
        subst h
        constructor
        · unfold cascadeFirst at hfirst
          split at hfirst
          · split at hfirst
            · cases hfirst
            · rename_i o ho
              split at hfirst
              · split at hfirst
                · injection hfirst with hfirst
                  injection hfirst with hf1 hf2
                  subst hf1
                  simp only [PathPtr_t.initial, ho0 o ho]
                · injection hfirst with hfirst
                  injection hfirst with hf1 hf2
                  subst hf1
                  exact h0
              · split at hfirst
                · cases hfirst
                · injection hfirst with hfirst
                  injection hfirst with hf1 hf2
                  subst hf1
                  simp only [PathPtr_t.initial, ho0 o ho]
                · injection hfirst with hfirst
                  injection hfirst with hf1 hf2
                  subst hf1
                  exact h0
          · injection hfirst with hfirst
            injection hfirst with hf1 hf2
            subst hf1
            exact h0
        · unfold cascadeLast at hlast
          split at hlast
          · split at hlast
            · cases hlast
            · rename_i o ho
              split at hlast
              · split at hlast
                · injection hlast with hlast
                  injection hlast with hf1 hf2
                  subst hf2
                  simp only [PathPtr_t.end_, ho3 o ho]
                · injection hlast with hlast
                  injection hlast with hf1 hf2
                  subst hf2
                  exact h3
              · split at hlast
                · cases hlast
                · injection hlast with hlast
                  injection hlast with hf1 hf2
                  subst hf2
                  simp only [PathPtr_t.end_, ho3 o ho]
                · injection hlast with hlast
                  injection hlast with hf1 hf2
                  subst hf2
                  exact h3
          · injection hlast with hlast
            injection hlast with hf1 hf2
            subst hf2
            exact h3

end RandomShortcutDynamic

namespace RandomShortcutDynamic

theorem any_range_one (f : ℕ → Bool) : (List.range 1).any f = f 0 := by
  simp [List.range_succ]

theorem any_range_two (f : ℕ → Bool) : (List.range 2).any f = (f 0 || f 1) := by
  simp [List.range_succ]

/-- What the body of the composition loop does for one segment: in the `catch` block
`result` becomes the current path, or stays what it is when an earlier segment threw;
otherwise the path chosen is appended. -/
theorem composeSegment_cases (c : Collaborators) (tmpPath : PathVector) (i : ℕ) (seg : Segment)
    (r : PathPtr_t) (acc acc' : PathVector × ℕ)
    (h : composeSegment c tmpPath i seg r acc = some acc') :
    (c.projection_error i = true
        ∧ acc' = (if (List.range i).any c.projection_error then acc.1 else tmpPath,
            decrement acc.2))
      ∨ (c.projection_error i = false ∧ acc'.2 = acc.2
          ∧ ∃ tail, acc'.1 = ⟨acc.1.paths_ ++ tail⟩
            ∧ (∀ q, r.initial = some q → PathVector.initial ⟨tail⟩ = some q)
            ∧ (∀ q, r.end_ = some q → PathVector.end_ ⟨tail⟩ = some q)) := by
  unfold composeSegment at h
  split at h
  · rename_i hthrow
    injection h with h; subst h; exact Or.inl ⟨hthrow, rfl⟩
  · rename_i hthrow
    have hthrow : c.projection_error i = false := by simpa using hthrow
    split at h
    · injection h with h
      subst h
      refine Or.inr ⟨hthrow, rfl, [wholePath r], rfl, ?_, ?_⟩
      · intro q hq
        cases r with
        | path p => simpa [PathVector.initial, wholePath, PathPtr_t.initial] using hq
        | vector v =>
          simp only [PathPtr_t.initial, PathVector.initial] at hq
          simp only [PathVector.initial, wholePath, hq, List.head?_cons, Option.map_some',
            Option.getD_some]
      · intro q hq
        cases r with
        | path p => simpa [PathVector.end_, wholePath, PathPtr_t.end_] using hq
        | vector v =>
          simp only [PathPtr_t.end_, PathVector.end_] at hq
          simp only [PathVector.end_, wholePath, hq, List.getLast?_singleton, Option.map_some',
            Option.getD_some]
    · split at h
      · rename_i v
        injection h with h
        subst h
        exact Or.inr ⟨hthrow, rfl, v.paths_, rfl, fun q hq => hq, fun q hq => hq⟩
      · cases h

theorem compose_endpoints (c : Collaborators) (tmpPath : PathVector) (projectionError : ℕ)
    (seg0 seg1 seg2 : Segment) (r : PathPtr_t × PathPtr_t × PathPtr_t)
    (out : PathVector × ℕ) (q0 q3 : Configuration_t)
    (hno : NoErrorAfterAppend c)
    (hinitial : tmpPath.initial = some q0) (hend : tmpPath.end_ = some q3)
    (h0 : r.1.initial = some q0) (h3 : r.2.2.end_ = some q3)
    (h : compose c tmpPath projectionError seg0 seg1 seg2 r = some out) :
    out.1.initial = some q0 ∧ out.1.end_ = some q3 := by
  unfold compose at h
  split at h
  · cases h
  · rename_i acc0 hacc0
    split at h
    · cases h
    · rename_i acc1 hacc1
      have c0 := composeSegment_cases _ _ _ _ _ _ _ hacc0
      have c1 := composeSegment_cases _ _ _ _ _ _ _ hacc1
      have c2 := composeSegment_cases _ _ _ _ _ _ _ h
      rw [any_range_one] at c1
      rw [any_range_two] at c2
      have e0 : c.projection_error 0 = true → acc0.1 = tmpPath := by
        intro he
        rcases c0 with ⟨-, h'⟩ | ⟨hf, -⟩
        · rw [h']; rfl
        · rw [he] at hf; cases hf
      have p0 : acc0.1.initial = some q0 := by
        rcases c0 with ⟨-, h'⟩ | ⟨-, -, tail, h', hi, -⟩
        · rw [h']; exact hinitial
        · rw [h']; simpa [PathVector.create] using hi q0 h0
      have e1 : c.projection_error 1 = true → acc1.1 = tmpPath := by
        intro he
        rcases c1 with ⟨-, h'⟩ | ⟨hf, -⟩
        · rw [h']
          by_cases h0' : c.projection_error 0 = true
          · simp only [h0', if_true]; exact e0 h0'
          · simp only [h0', Bool.false_eq_true, if_false]
        · rw [he] at hf; cases hf
      have p1 : acc1.1.initial = some q0 := by
        rcases c1 with ⟨-, h'⟩ | ⟨-, -, tail, h', -, -⟩
        · rw [h']
          dsimp only
          split
          · exact p0
          · exact hinitial
        · rw [h']; exact PathVector.initial_append_left p0
      rcases c2 with ⟨he2, h'⟩ | ⟨-, -, tail, h', -, he⟩
      · rw [h']
        dsimp only
        split
        · rename_i hany
          have h1 : c.projection_error 1 = true := by
            by_cases h1 : c.projection_error 1 = true
            · exact h1
            · have h0' : c.projection_error 0 = true := by
                simp only [Bool.or_eq_true] at hany
                rcases hany with h | h
                · exact h
                · exact absurd h h1
              exact hno h0' he2
          rw [e1 h1]
          exact ⟨hinitial, hend⟩
        · exact ⟨hinitial, hend⟩
      · rw [h']
        exact ⟨PathVector.initial_append_left p1, PathVector.end_append_right (he q3 h3)⟩

theorem sampleTimes_ends (RAND_MAX : ℕ) (tmpPath : PathVector) (rand : ℕ × ℕ) :
    (sampleTimes RAND_MAX tmpPath rand).1 = tmpPath.timeRange.1
      ∧ (sampleTimes RAND_MAX tmpPath rand).2.2.2 = tmpPath.timeRange.2 := by
  unfold sampleTimes
  dsimp only
  split <;> exact ⟨rfl, rfl⟩

/-- A round keeps the ends of the current path when the collaborators keep the ends of
the paths they are given. -/
theorem round_endsAt (self : Settings) (pb : Problem) (q0 q3 : Configuration_t)
    (hproj : ∀ k, ProjectorKeepsEnds (pb.world k))
    (hcopy : ∀ k, CopyKeepsEnds (pb.world k))
    (hextract : ∀ k, ExtractKeepsEnds (pb.world k))
    (hno : ∀ k, NoErrorAfterAppend (pb.world k))
    (s s' : LoopState) (hs : EndsAt q0 q3 s) (h : round self pb q0 q3 s = some s') :
    EndsAt q0 q3 s' := by
  obtain ⟨hi, he, hr⟩ := hs
  unfold round at h
  dsimp only at h
  split at h
  · injection h with h; subst h; exact ⟨hi, he, hr⟩
  · rename_i q1 _
    split at h
    · injection h with h; subst h; exact ⟨hi, he, hr⟩
    · rename_i q2 _
      split at h
      · cases h
      · rename_i resultPaths hcascade
        split at h
        · cases h
        · rename_i result projectionError hcompose
          injection h with h
          subst h
          obtain ⟨ht0, ht3⟩ := sampleTimes_ends pb.RAND_MAX s.tmpPath (pb.world s.rounds).rand
          have hext0 := (hextract s.rounds s.tmpPath 0
            (sampleTimes pb.RAND_MAX s.tmpPath (pb.world s.rounds).rand).2.1).1 (by rw [hi]; rfl)
          have hext3 := (hextract s.rounds s.tmpPath
            (sampleTimes pb.RAND_MAX s.tmpPath (pb.world s.rounds).rand).2.2.1 0).2
            (by rw [he]; rfl)
          rw [← ht0, hi] at hext0
          rw [← ht3, he] at hext3
          have a0 := acceptSegment_initial self _ (hproj s.rounds) (hcopy s.rounds) s.tmpPath
            q0 q1 _ _ hext0
          have a3 := acceptSegment_end self _ (hproj s.rounds) (hcopy s.rounds) s.tmpPath
            q2 q3 _ _ hext3
          have hc := cascade_endpoints self _ (hproj s.rounds) s.tmpPath q0 q1 q2 q3 _ _ _ _
            _ _ _ resultPaths a0.1 a0.2 a3.1 a3.2 hext0 hext3 hcascade
          have := compose_endpoints _ _ _ _ _ _ _ _ q0 q3 (hno s.rounds) hi he hc.1 hc.2 hcompose
          refine ⟨this.1, this.2, ?_⟩
          intro r hr'
          injection hr' with hr'
          subst hr'
          exact this

theorem whileLoop_endsAt (self : Settings) (pb : Problem) (q0 q3 : Configuration_t)
    (hproj : ∀ k, ProjectorKeepsEnds (pb.world k))
    (hcopy : ∀ k, CopyKeepsEnds (pb.world k))
    (hextract : ∀ k, ExtractKeepsEnds (pb.world k))
    (hno : ∀ k, NoErrorAfterAppend (pb.world k)) :
    ∀ (fuel : ℕ) (s : LoopState), EndsAt q0 q3 s →
      EndsAt q0 q3 (whileLoop self pb q0 q3 fuel s).state
  | 0, s, hs => by
    unfold whileLoop
    split <;> exact hs
  | fuel + 1, s, hs => by
    unfold whileLoop
    split
    · split
      · exact hs
      · rename_i s' hround
        exact whileLoop_endsAt self pb q0 q3 hproj hcopy hextract hno fuel s'
          (round_endsAt self pb q0 q3 hproj hcopy hextract hno s s' hs hround)
    · exact hs

end RandomShortcutDynamic

/-! ## Facts on the arithmetic of `double` -/

namespace Double

/-- The bisection brackets a positive number below `2 ^ 2 ^ k` between two powers of
two. -/
theorem bitLengthBelow_bounds : ∀ (k n : ℕ), n < 2 ^ 2 ^ k → 0 < n →
    2 ^ (bitLengthBelow k n - 1) ≤ n ∧ n < 2 ^ bitLengthBelow k n ∧ 1 ≤ bitLengthBelow k n
  | 0, n, h, hn => by
    have hn1 : n = 1 := by
      have : n < 2 := by simpa using h
      omega
    subst hn1
    simp [bitLengthBelow]
  | k + 1, n, h, hn => by
    have hsq : 2 ^ 2 ^ (k + 1) = 2 ^ 2 ^ k * 2 ^ 2 ^ k := by
      rw [← pow_add, pow_succ]
      congr 1
      omega
    have hpos : 0 < 2 ^ 2 ^ k := by positivity
    rw [bitLengthBelow]
    split
    · rename_i hle
      have hm0 : 0 < n / 2 ^ 2 ^ k := Nat.div_pos hle hpos
      have hm1 : n / 2 ^ 2 ^ k < 2 ^ 2 ^ k := by
        rw [Nat.div_lt_iff_lt_mul hpos, ← hsq]
        exact h
      obtain ⟨h1, h2, h3⟩ := bitLengthBelow_bounds k (n / 2 ^ 2 ^ k) hm1 hm0
      refine ⟨?_, ?_, le_trans h3 (Nat.le_add_right _ _)⟩
      · have e : bitLengthBelow k (n / 2 ^ 2 ^ k) + 2 ^ k - 1
            = (bitLengthBelow k (n / 2 ^ 2 ^ k) - 1) + 2 ^ k := Nat.sub_add_comm h3
        rw [e, pow_add]
        calc 2 ^ (bitLengthBelow k (n / 2 ^ 2 ^ k) - 1) * 2 ^ 2 ^ k
            ≤ n / 2 ^ 2 ^ k * 2 ^ 2 ^ k := Nat.mul_le_mul_right _ h1
          _ ≤ n := Nat.div_mul_le_self n _
      · rw [pow_add]
        calc n < (n / 2 ^ 2 ^ k + 1) * 2 ^ 2 ^ k := by
              rw [← Nat.div_lt_iff_lt_mul hpos]
              omega
          _ ≤ 2 ^ bitLengthBelow k (n / 2 ^ 2 ^ k) * 2 ^ 2 ^ k :=
              Nat.mul_le_mul_right _ h2
    · rename_i hlt
      exact bitLengthBelow_bounds k n (by omega) hn

/-- The depth found bounds the number, when the search is long enough. -/
theorem bitDepth_bounds : ∀ (fuel k n : ℕ), n < 2 ^ 2 ^ (k + fuel) →
    n < 2 ^ 2 ^ bitDepth fuel k n
  | 0, k, n, h => h
  | fuel + 1, k, n, h => by
    rw [bitDepth]
    split
    · rename_i hlt
      exact hlt
    · exact bitDepth_bounds fuel (k + 1) n (by
        have e : k + 1 + fuel = k + (fuel + 1) := by omega
        rw [e]
        exact h)

/-- The bit length of a positive number brackets it between two powers of two. -/
theorem bitLength_bounds (n : ℕ) (hn : 0 < n) :
    2 ^ (bitLength n - 1) ≤ n ∧ n < 2 ^ bitLength n ∧ 1 ≤ bitLength n := by
  have h1 : n < 2 ^ n := Nat.lt_two_pow n
  have h2 : 2 ^ n ≤ 2 ^ 2 ^ n := Nat.pow_le_pow_right (by norm_num) (le_of_lt h1)
  exact bitLengthBelow_bounds _ n
    (bitDepth_bounds n 0 n (by rw [Nat.zero_add]; omega)) hn

/-- The biased exponent found for a number below `2 ^ N`. -/
theorem biasedExponent_le (p q N : ℕ) (h : p < q * 2 ^ N) :
    biasedExponent p q ≤ N + 1021 := by
  have hq : 0 < q := by
    rcases Nat.eq_zero_or_pos q with h0 | h0
    · rw [h0, Nat.zero_mul] at h
      omega
    · exact h0
  have hbq : q < 2 ^ bitLength q := (bitLength_bounds q hq).2.1
  unfold biasedExponent
  split
  · rename_i hle
    have h1 : q * 2 ^ bitLength p < q * 2 ^ (N + bitLength q) := by
      calc q * 2 ^ bitLength p ≤ p * 2 ^ bitLength q := hle
        _ < q * 2 ^ N * 2 ^ bitLength q := Nat.mul_lt_mul_of_pos_right h (by positivity)
        _ = q * 2 ^ (N + bitLength q) := by rw [pow_add, Nat.mul_assoc]
    have h2 : 2 ^ bitLength p < 2 ^ (N + bitLength q) := Nat.lt_of_mul_lt_mul_left h1
    have h3 : bitLength p < N + bitLength q :=
      (Nat.pow_lt_pow_iff_right (by norm_num)).mp h2
    omega
  · rcases Nat.eq_zero_or_pos p with hp | hp
    · have : bitLength p = 0 := by rw [hp]; rfl
      omega
    · have hbp : 2 ^ (bitLength p - 1) ≤ p := (bitLength_bounds p hp).1
      have h1 : 2 ^ (bitLength p - 1) < 2 ^ (bitLength q + N) := by
        calc 2 ^ (bitLength p - 1) ≤ p := hbp
          _ < q * 2 ^ N := h
          _ < 2 ^ bitLength q * 2 ^ N := Nat.mul_lt_mul_of_pos_right hbq (by positivity)
          _ = 2 ^ (bitLength q + N) := by rw [pow_add]
      have h3 : bitLength p - 1 < bitLength q + N :=
        (Nat.pow_lt_pow_iff_right (by norm_num)).mp h1
      omega

/-- The integer nearest to a quotient is at most one above its integer part. -/
theorem divHalfEven_le (N D : ℕ) : divHalfEven N D ≤ N / D + 1 := by
  unfold divHalfEven
  split
  · omega
  · split
    · omega
    · split <;> omega

/-- What a finite result of the rounding is: a number of units `2 ^ (-1074)`, below
`2 ^ 1024`. -/
theorem roundMagnitude_eq (a m : value_type) (h : roundMagnitude a = some m) :
    ∃ k : ℕ, k < 2 ^ 2098 ∧ m = (k : value_type) / 2 ^ 1074 := by
  unfold roundMagnitude at h
  dsimp only at h
  split at h
  · cases h
  · rename_i hlt
    injection h with h
    refine ⟨_, not_le.mp hlt, ?_⟩
    rw [← h, Rat.mkRat_eq_div, Int.cast_natCast, Nat.cast_pow, Nat.cast_ofNat]

theorem roundMagnitude_nonneg (a m : ℚ) (h : roundMagnitude a = some m) : 0 ≤ m := by
  obtain ⟨k, -, hm⟩ := roundMagnitude_eq a m h
  rw [hm]
  positivity

set_option maxRecDepth 100000 in
theorem round_zero : round 0 = finite 0 := by decide!

/-- The rounding of a number that is not negative, when it is finite. -/
theorem round_of_nonneg (x m : ℚ) (hx : 0 ≤ x) (h : roundMagnitude x = some m) :
    round x = finite m := by
  have hnum : 0 ≤ x.num := Rat.num_nonneg.mpr hx
  unfold round
  rw [h]
  simp [hnum]

/-- The rounding of a number that is not negative is not negative. -/
theorem round_nonneg (x : ℚ) (hx : 0 ≤ x) :
    round x = posInf ∨ ∃ m, 0 ≤ m ∧ round x = finite m := by
  have hnum : 0 ≤ x.num := Rat.num_nonneg.mpr hx
  cases h : roundMagnitude x with
  | none =>
    left
    unfold round
    rw [h]
    simp [hnum]
  | some m => exact Or.inr ⟨m, roundMagnitude_nonneg _ m h, round_of_nonneg x m hx h⟩

/-- The rounding of a number that is not positive is not positive. -/
theorem round_nonpos (x : ℚ) (hx : x ≤ 0) :
    round x = negInf ∨ ∃ m, m ≤ 0 ∧ round x = finite m := by
  rcases eq_or_lt_of_le hx with h0 | hneg
  · right
    rw [h0]
    exact ⟨0, le_refl _, round_zero⟩
  · have hnot : ¬ (0 ≤ x.num) := fun hn => absurd (Rat.num_nonneg.mp hn) (not_le.mpr hneg)
    unfold round
    cases h : roundMagnitude x with
    | none => left; simp [hnot]
    | some m =>
      right
      refine ⟨-m, by have := roundMagnitude_nonneg _ m h; linarith, by simp [hnot]⟩

set_option maxRecDepth 100000 in
/-- The value of the constant `1e-4` as a `double`. -/
theorem tenThousandth_eq :
    tenThousandth = finite (7378697629483821 / 73786976294838206464) := by decide!

/-- A number below `2 ^ N` that is not negative, as a comparison of natural numbers. -/
theorem natAbs_lt_of_lt (a : ℚ) (N : ℕ) (h0 : 0 ≤ a) (h : a < (2 : ℚ) ^ N) :
    a.num.natAbs < a.den * 2 ^ N := by
  have hnum : (a.num.natAbs : ℤ) = a.num := Int.natAbs_of_nonneg (Rat.num_nonneg.mpr h0)
  have hcast : (a.num : ℚ) = (a.num.natAbs : ℚ) := by
    conv_lhs => rw [← hnum]
    exact Int.cast_natCast _
  have ha : a = (a.num.natAbs : ℚ) / (a.den : ℚ) := by
    rw [← hcast]
    exact (Rat.num_div_den a).symm
  have hden : (0 : ℚ) < (a.den : ℚ) := by exact_mod_cast a.den_pos
  have h1 : (a.num.natAbs : ℚ) < (2 : ℚ) ^ N * (a.den : ℚ) := by
    rw [ha] at h
    exact (div_lt_iff₀ hden).mp h
  have h2 : ((a.num.natAbs : ℕ) : ℚ) < ((a.den * 2 ^ N : ℕ) : ℚ) := by
    rw [Nat.cast_mul, Nat.cast_pow, Nat.cast_ofNat]
    linarith
  exact Nat.cast_lt.mp h2

/-- The rounding of a number below `2 ^ N`, `N ≤ 1023`, that is not negative does not
overflow. -/
theorem roundMagnitude_isSome (a : ℚ) (N : ℕ) (hN : N ≤ 1023) (h0 : 0 ≤ a)
    (h : a < (2 : ℚ) ^ N) : ∃ m, roundMagnitude a = some m := by
  have hp : a.num.natAbs < a.den * 2 ^ N := natAbs_lt_of_lt a N h0 h
  have hq : 0 < a.den := a.den_pos
  have hs : biasedExponent a.num.natAbs a.den ≤ N + 1021 :=
    biasedExponent_le a.num.natAbs a.den N hp
  have hn := divHalfEven_le (a.num.natAbs * 2 ^ 1074)
    (a.den * 2 ^ biasedExponent a.num.natAbs a.den)
  have hX : a.num.natAbs * 2 ^ 1074 / (a.den * 2 ^ biasedExponent a.num.natAbs a.den)
      * 2 ^ biasedExponent a.num.natAbs a.den < 2 ^ (N + 1074) := by
    have h1 : a.num.natAbs * 2 ^ 1074 / (a.den * 2 ^ biasedExponent a.num.natAbs a.den)
        * 2 ^ biasedExponent a.num.natAbs a.den * a.den < 2 ^ (N + 1074) * a.den := by
      calc a.num.natAbs * 2 ^ 1074 / (a.den * 2 ^ biasedExponent a.num.natAbs a.den)
            * 2 ^ biasedExponent a.num.natAbs a.den * a.den
          = a.num.natAbs * 2 ^ 1074 / (a.den * 2 ^ biasedExponent a.num.natAbs a.den)
            * (a.den * 2 ^ biasedExponent a.num.natAbs a.den) := by
            rw [Nat.mul_assoc, Nat.mul_comm (2 ^ biasedExponent a.num.natAbs a.den)]
        _ ≤ a.num.natAbs * 2 ^ 1074 := Nat.div_mul_le_self _ _
        _ < a.den * 2 ^ N * 2 ^ 1074 := Nat.mul_lt_mul_of_pos_right hp (by positivity)
        _ = 2 ^ (N + 1074) * a.den := by
            rw [pow_add, Nat.mul_assoc, Nat.mul_comm]
    exact Nat.lt_of_mul_lt_mul_right h1
  have hpow : 2 ^ biasedExponent a.num.natAbs a.den ≤ 2 ^ (N + 1074) :=
    Nat.pow_le_pow_right (by norm_num) (by omega)
  have hdouble : 2 ^ (N + 1074) + 2 ^ (N + 1074) = 2 ^ (N + 1075) := by
    rw [pow_succ (2 : ℕ) (N + 1074)]
    omega
  have hexp : N + 1075 ≤ 2098 := by omega
  have htop : 2 ^ (N + 1074) + 2 ^ (N + 1074) ≤ 2 ^ 2098 := by
    rw [hdouble]
    exact pow_le_pow_right₀ (by norm_num) hexp
  have hlt : divHalfEven (a.num.natAbs * 2 ^ 1074)
        (a.den * 2 ^ biasedExponent a.num.natAbs a.den)
      * 2 ^ biasedExponent a.num.natAbs a.den < 2 ^ 2098 := by
    calc divHalfEven (a.num.natAbs * 2 ^ 1074)
            (a.den * 2 ^ biasedExponent a.num.natAbs a.den)
          * 2 ^ biasedExponent a.num.natAbs a.den
        ≤ (a.num.natAbs * 2 ^ 1074 / (a.den * 2 ^ biasedExponent a.num.natAbs a.den) + 1)
          * 2 ^ biasedExponent a.num.natAbs a.den := Nat.mul_le_mul_right _ hn
      _ = a.num.natAbs * 2 ^ 1074 / (a.den * 2 ^ biasedExponent a.num.natAbs a.den)
            * 2 ^ biasedExponent a.num.natAbs a.den
          + 2 ^ biasedExponent a.num.natAbs a.den := by
          rw [Nat.add_mul, Nat.one_mul]
      _ < 2 ^ (N + 1074) + 2 ^ (N + 1074) := Nat.add_lt_add_of_lt_of_le hX hpow
      _ ≤ 2 ^ 2098 := htop
  unfold roundMagnitude
  dsimp only
  rw [if_neg (not_le.mpr hlt)]
  exact ⟨_, rfl⟩

/-- The comparison of two lengths as `double`s is their comparison. -/
theorem lt_lengths (a b : ℚ≥0) :
    lt (finite (a : ℚ)) (ofEntry (some (b : ℚ))) = decide (a < b) := by
  simp [lt, ofEntry]

end Double
/-! ## Termination of the loop of `optimize` -/

namespace RandomShortcutDynamic

theorem decrement_lt (n : ℕ) (h : n ≠ 0) : decrement n < n := by
  unfold decrement sizeBits
  norm_num
  omega

theorem stateAfter_succ (self : Settings) (pb : Problem) (q0 q3 : Configuration_t)
    (s : LoopState) :
    ∀ j, stateAfter self pb q0 q3 s (j + 1)
      = (loopStep self pb q0 q3 s).bind (fun next => stateAfter self pb q0 q3 next j)
  | 0 => by simp [stateAfter]
  | j + 1 => by
    rw [stateAfter, stateAfter_succ self pb q0 q3 s j]
    cases h : loopStep self pb q0 q3 s with
    | none => rfl
    | some next => simp [stateAfter]

/-- What a round does to the deque and the flags: either a sample failed, and the deque
and `finished` are kept while the error budget is decremented, or the round completed,
and a length was pushed on the deque, the oldest one dropped and the test evaluated. -/
theorem round_cases (self : Settings) (pb : Problem) (q0 q3 : Configuration_t)
    (s next : LoopState) (h : round self pb q0 q3 s = some next) :
    (next.length = s.length ∧ next.projectionError = decrement s.projectionError
        ∧ next.finished = s.finished ∧ next.tmpPath = s.tmpPath ∧ next.result = s.result)
      ∨ (∃ result, next.length = (s.length ++ [PathLength.run false result]).drop 1
          ∧ next.finished = converged 100 next.length
          ∧ next.tmpPath = result ∧ next.result = some result) := by
  unfold round at h
  dsimp only at h
  split at h
  · injection h with h; subst h; exact Or.inl ⟨rfl, rfl, rfl, rfl, rfl⟩
  · split at h
    · injection h with h; subst h; exact Or.inl ⟨rfl, rfl, rfl, rfl, rfl⟩
    · split at h
      · cases h
      · split at h
        · cases h
        · rename_i result projectionError _
          injection h with h
          subst h
          exact Or.inr ⟨result, rfl, rfl, rfl, rfl⟩

theorem round_rounds (self : Settings) (pb : Problem) (q0 q3 : Configuration_t)
    (s next : LoopState) (h : round self pb q0 q3 s = some next) :
    next.rounds = s.rounds + 1 := by
  unfold round at h
  dsimp only at h
  split at h
  · injection h with h; subst h; rfl
  · split at h
    · injection h with h; subst h; rfl
    · split at h
      · cases h
      · split at h
        · cases h
        · injection h with h
          subst h
          rfl

theorem cast_lt_two_pow (n k : ℕ) (h : k < 2 ^ n) : (k : ℚ) < (2 : ℚ) ^ n := by
  exact_mod_cast h

theorem onGrid_zero : OnGrid 0 := ⟨0, by positivity, by simp⟩

theorem onGrid_nonneg (x : value_type) (h : OnGrid x) : 0 ≤ x := by
  obtain ⟨k, -, rfl⟩ := h
  positivity

/-- A finite result of the rounding is a `double` that is not negative. -/
theorem roundMagnitude_onGrid (a m : ℚ) (h : Double.roundMagnitude a = some m) :
    OnGrid m := by
  obtain ⟨k, hk, hm⟩ := Double.roundMagnitude_eq a m h
  exact ⟨k, hk, hm⟩

/-- The sum that `PathLength <false>::run` finds, when it is finite, is a `double` that
is not negative. -/
theorem PathLength_run_onGrid (path : PathVector) (m : value_type)
    (h : PathLength.run false path = some m) : OnGrid m := by
  have key : ∀ (l : List Path) (acc : Option value_type),
      (∀ x, acc = some x → OnGrid x) →
      ∀ m, l.foldl
        (fun result element =>
          result.bind (fun sum => Double.roundMagnitude (sum + (element.length : value_type))))
        acc = some m → OnGrid m := by
    intro l
    induction l with
    | nil => intro acc hacc m hm; exact hacc m hm
    | cons e l ih =>
      intro acc hacc m hm
      rw [List.foldl_cons] at hm
      apply ih _ _ m hm
      intro x hx
      cases acc with
      | none => cases hx
      | some sum =>
        rw [Option.some_bind] at hx
        exact roundMagnitude_onGrid _ x hx
  unfold PathLength.run at h
  simp only [Bool.false_eq_true, if_false] at h
  exact key _ _ (fun x hx => by injection hx with hx; rw [← hx]; exact onGrid_zero) m h

theorem rank_onGrid (k : ℕ) : rank (some ((k : value_type) / 2 ^ 1074)) = k := by
  show ⌊(k : value_type) / 2 ^ 1074 * 2 ^ 1074⌋₊ = k
  rw [div_mul_cancel₀ _ (by positivity : (2 : value_type) ^ 1074 ≠ 0)]
  exact Nat.floor_natCast k

theorem rank_lt (a b : value_type) (ha : OnGrid a) (hb : OnGrid b) (h : b < a) :
    rank (some b) < rank (some a) := by
  obtain ⟨ka, -, rfl⟩ := ha
  obtain ⟨kb, -, rfl⟩ := hb
  rw [rank_onGrid, rank_onGrid]
  have := (div_lt_div_iff_of_pos_right (by positivity : (0 : value_type) < 2 ^ 1074)).mp h
  exact_mod_cast this

theorem rank_lt_none (b : value_type) (hb : OnGrid b) : rank (some b) < rank none := by
  obtain ⟨k, hk, rfl⟩ := hb
  rw [rank_onGrid]
  exact hk

/-- When the convergence test fails on two finite lengths, the newer one not negative,
the newer one is strictly below the older one. -/
theorem test_finite (a b : value_type) (hb : 0 ≤ b)
    (h : Double.le (Double.sub (Double.finite a) (Double.finite b))
      (Double.mul Double.tenThousandth (Double.finite b)) = false) : b < a := by
  by_contra hle
  have hle : a + -b ≤ 0 := by linarith [not_lt.mp hle]
  have hsub : Double.sub (Double.finite a) (Double.finite b) = Double.round (a + -b) := rfl
  have hmul : Double.mul Double.tenThousandth (Double.finite b)
      = Double.round (7378697629483821 / 73786976294838206464 * b) := by
    rw [Double.tenThousandth_eq]; rfl
  rw [hsub, hmul] at h
  rcases Double.round_nonpos _ hle with h1 | ⟨m1, hm1, h1⟩ <;>
    rcases Double.round_nonneg (7378697629483821 / 73786976294838206464 * b)
      (by positivity) with h2 | ⟨m2, hm2, h2⟩ <;>
    rw [h1, h2] at h <;> simp [Double.le] at h
  linarith

/-- The convergence test passes when the newest length is infinite and the oldest one
finite. -/
theorem test_newest_infinite (a : value_type) :
    Double.le (Double.sub (Double.finite a) Double.posInf)
      (Double.mul Double.tenThousandth Double.posInf) = true := by
  rw [Double.tenThousandth_eq]
  simp [Double.sub, Double.neg, Double.add, Double.mul, Double.le]

/-- The convergence test fails as long as the oldest entry is infinite. -/
theorem test_oldest_infinite (newest : Option value_type)
    (h : ∀ b, newest = some b → OnGrid b) :
    Double.le (Double.sub Double.posInf (Double.ofEntry newest))
      (Double.mul Double.tenThousandth (Double.ofEntry newest)) = false := by
  cases newest with
  | none => rfl
  | some b =>
    obtain ⟨k, hk, hb⟩ := h b rfl
    have hb0 : 0 ≤ b := onGrid_nonneg b ⟨k, hk, hb⟩
    have hsub : Double.sub Double.posInf (Double.ofEntry (some b)) = Double.posInf := rfl
    have hmul : Double.mul Double.tenThousandth (Double.ofEntry (some b))
        = Double.round (7378697629483821 / 73786976294838206464 * b) := by
      rw [Double.tenThousandth_eq]; rfl
    rw [hsub, hmul]
    have hlt : b < (2 : ℚ) ^ (1024 : ℕ) := by
      have hsum : (1024 + 1074 : ℕ) = 2098 := rfl
      rw [hb, div_lt_iff₀ (by positivity), ← pow_add, hsum]
      exact cast_lt_two_pow 2098 k hk
    have hprod : 7378697629483821 / 73786976294838206464 * b < (2 : ℚ) ^ (1011 : ℕ) := by
      have h1 : (7378697629483821 / 73786976294838206464 : ℚ) ≤ 1 / 2 ^ (13 : ℕ) := by norm_num
      have h2 : 7378697629483821 / 73786976294838206464 * b ≤ 1 / 2 ^ (13 : ℕ) * b :=
        mul_le_mul_of_nonneg_right h1 hb0
      have h3 : 1 / 2 ^ (13 : ℕ) * b < 1 / 2 ^ (13 : ℕ) * (2 : ℚ) ^ (1024 : ℕ) :=
        mul_lt_mul_of_pos_left hlt (by positivity)
      have h4 : 1 / 2 ^ (13 : ℕ) * (2 : ℚ) ^ (1024 : ℕ) = (2 : ℚ) ^ (1011 : ℕ) := by
        have : (2 : ℚ) ^ (1024 : ℕ) = 2 ^ (13 : ℕ) * 2 ^ (1011 : ℕ) := by rw [← pow_add]
        rw [this]
        field_simp
      linarith
    have hnonneg : (0 : ℚ) ≤ 7378697629483821 / 73786976294838206464 * b :=
      mul_nonneg (by norm_num) hb0
    obtain ⟨m, hm⟩ := Double.roundMagnitude_isSome _ 1011 (by norm_num) hnonneg hprod
    rw [Double.round_of_nonneg _ m hnonneg hm]
    rfl

end RandomShortcutDynamic

namespace RandomShortcutDynamic

theorem takeWhile_append_of_mem {α : Type} (p : α → Bool) (l l' : List α)
    (h : ∃ x ∈ l, p x = false) : (l ++ l').takeWhile p = l.takeWhile p := by
  induction l with
  | nil => obtain ⟨x, hx, -⟩ := h; cases hx
  | cons y ys ih =>
    rw [List.cons_append, List.takeWhile_cons, List.takeWhile_cons]
    cases hy : p y with
    | false => rfl
    | true =>
      simp only [if_true]
      congr 1
      apply ih
      obtain ⟨x, hx, hpx⟩ := h
      rcases List.mem_cons.mp hx with rfl | hx
      · rw [hy] at hpx; cases hpx
      · exact ⟨x, hx, hpx⟩

/-- The entries 0 and 99 of a deque of 100 entries after a push and a pop. -/
theorem deque_ends (d0 d1 e : Option value_type) (rest : List (Option value_type))
    (hrest : rest.length = 98) :
    ((d0 :: d1 :: rest ++ [e]).drop 1)[0]? = some d1
      ∧ ((d0 :: d1 :: rest ++ [e]).drop 1)[100 - 1]? = some e := by
  constructor
  · simp
  · simp only [List.cons_append, List.drop_succ_cons, List.drop_zero, Nat.reduceSub]
    rw [List.getElem?_cons_succ, List.getElem?_append_right (by omega)]
    simp [hrest]

/-- A completed round that fails the convergence test lowers the potential of the deque,
or leaves it as it is and brings the first finite entry nearer to the front. -/
theorem measure_lt (d0 d1 e : Option value_type) (rest : List (Option value_type))
    (hrest : rest.length = 98)
    (hgrid : ∀ x, some x ∈ d0 :: d1 :: rest → OnGrid x)
    (he : ∀ x, e = some x → OnGrid x)
    (hfinite : ∃ x, some x ∈ d1 :: rest)
    (htest : converged 100 ((d0 :: d1 :: rest ++ [e]).drop 1) = false) :
    (potential ((d0 :: d1 :: rest ++ [e]).drop 1) < potential (d0 :: d1 :: rest)
        ∨ (potential ((d0 :: d1 :: rest ++ [e]).drop 1) = potential (d0 :: d1 :: rest)
          ∧ infiniteRun ((d0 :: d1 :: rest ++ [e]).drop 1) < infiniteRun (d0 :: d1 :: rest)))
      ∧ ∃ x, some x ∈ ((d0 :: d1 :: rest ++ [e]).drop 1).tail := by
  obtain ⟨h0, h99⟩ := deque_ends d0 d1 e rest hrest
  unfold converged at htest
  rw [h0, h99] at htest
  dsimp only at htest
  have hpot : potential ((d0 :: d1 :: rest ++ [e]).drop 1) + rank d1
      = potential (d0 :: d1 :: rest) + rank e := by
    simp only [potential, List.cons_append, List.drop_succ_cons, List.drop_zero, List.tail_cons,
      List.map_append, List.map_cons, List.map_nil, List.sum_append, List.sum_cons,
      List.sum_nil]
    omega
  have htail : ((d0 :: d1 :: rest ++ [e]).drop 1).tail = rest ++ [e] := rfl
  cases d1 with
  | some a =>
    cases e with
    | some b =>
      have hb := he b rfl
      have ha := hgrid a (by simp)
      have hlt := rank_lt a b ha hb (test_finite a b (onGrid_nonneg b hb) htest)
      exact ⟨Or.inl (by omega), b, by rw [htail]; simp⟩
    | none =>
      rw [show Double.ofEntry (some a) = Double.finite a from rfl,
        show Double.ofEntry none = Double.posInf from rfl, test_newest_infinite] at htest
      cases htest
  | none =>
    cases e with
    | some b =>
      have hlt := rank_lt_none b (he b rfl)
      exact ⟨Or.inl (by omega), b, by rw [htail]; simp⟩
    | none =>
      obtain ⟨x, hx⟩ := hfinite
      have hx' : some x ∈ rest := by
        rcases List.mem_cons.mp hx with h | h
        · cases h
        · exact h
      refine ⟨Or.inr ⟨by omega, ?_⟩, x, by rw [htail]; simp [hx']⟩
      unfold infiniteRun
      rw [htail, takeWhile_append_of_mem _ rest [none] ⟨some x, hx', rfl⟩]
      simp [List.takeWhile_cons]

/-- The loop of `optimize` ends from every state whose deque holds 100 entries, the finite
ones `double`s that are not negative, one at least that is not the oldest being finite. -/
theorem whileLoop_terminates (self : Settings) (pb : Problem) (q0 q3 : Configuration_t)
    (s : LoopState) (hlen : s.length.length = 100)
    (hgrid : ∀ x, some x ∈ s.length → OnGrid x)
    (hfinite : ∃ x, some x ∈ s.length.tail) :
    ∃ fuel, ∀ t, whileLoop self pb q0 q3 fuel s ≠ LoopExit.outOfFuel t := by
  by_cases hcond : (!s.finished && s.projectionError != 0) = true
  · cases hround : round self pb q0 q3 s with
    | none =>
      refine ⟨1, fun t => ?_⟩
      rw [whileLoop, if_pos hcond, hround]
      exact fun h => LoopExit.noConfusion h
    | some next =>
      have hpe : s.projectionError ≠ 0 := by
        simp only [Bool.and_eq_true, Bool.not_eq_true', bne_iff_ne, ne_eq] at hcond
        exact hcond.2
      rcases round_cases self pb q0 q3 s next hround with ⟨h1, h2, -, -, -⟩ | ⟨result, h1, h2, -, -⟩
      · have hlen' : next.length.length = 100 := by rw [h1]; exact hlen
        have hdec : next.projectionError < s.projectionError := by
          rw [h2]; exact decrement_lt _ hpe
        obtain ⟨fuel, hfuel⟩ :=
          whileLoop_terminates self pb q0 q3 next hlen' (by rw [h1]; exact hgrid)
            (by rw [h1]; exact hfinite)
        refine ⟨fuel + 1, fun t => ?_⟩
        rw [whileLoop, if_pos hcond, hround]
        exact hfuel t
      · have hlen' : next.length.length = 100 := by rw [h1]; simp [hlen]
        by_cases hfin : next.finished = true
        · refine ⟨1, fun t => ?_⟩
          rw [whileLoop, if_pos hcond, hround]
          simp only [whileLoop, hfin, Bool.not_true, Bool.false_and, Bool.false_eq_true,
            if_false]
          exact fun h => LoopExit.noConfusion h
        · obtain ⟨d0, d1, rest, hs, hrest⟩ :
              ∃ d0 d1 rest, s.length = d0 :: d1 :: rest ∧ rest.length = 98 := by
            match hl : s.length, hlen with
            | d0 :: d1 :: rest, hlen => exact ⟨d0, d1, rest, rfl, by simpa using hlen⟩
          have hconv : converged 100
              ((d0 :: d1 :: rest ++ [PathLength.run false result]).drop 1) = false := by
            rw [← hs, ← h1, ← h2]; simpa using hfin
          have he : ∀ x, PathLength.run false result = some x → OnGrid x :=
            fun x hx => PathLength_run_onGrid result x hx
          obtain ⟨hmeasure, hfinite'⟩ := measure_lt d0 d1 (PathLength.run false result) rest
            hrest (by rw [← hs]; exact hgrid) he (by rw [hs] at hfinite; exact hfinite) hconv
          have hgrid' : ∀ x, some x ∈ next.length → OnGrid x := by
            intro x hx
            rw [h1] at hx
            have hx' := List.mem_of_mem_drop hx
            rcases List.mem_append.mp hx' with h | h
            · exact hgrid x h
            · exact he x (List.mem_singleton.mp h).symm
          obtain ⟨fuel, hfuel⟩ :=
            whileLoop_terminates self pb q0 q3 next hlen' hgrid'
              (by rw [h1, hs]; exact hfinite')
          refine ⟨fuel + 1, fun t => ?_⟩
          rw [whileLoop, if_pos hcond, hround]
          exact hfuel t
  · refine ⟨0, fun t => ?_⟩
    rw [whileLoop, if_neg hcond]
    exact fun h => LoopExit.noConfusion h
termination_by (potential s.length, infiniteRun s.length, s.projectionError)
decreasing_by
  · rw [h1]
    exact Prod.Lex.right _ (Prod.Lex.right _ hdec)
  · rw [h1, hs]
    rcases hmeasure with h | ⟨h, h'⟩
    · exact Prod.Lex.left _ _ h
    · rw [h]
      exact Prod.Lex.right _ (Prod.Lex.left _ _ h')

/-- More fuel does not change the way the loop ends once it ended. -/
theorem whileLoop_more_fuel (self : Settings) (pb : Problem) (q0 q3 : Configuration_t) :
    ∀ (fuel : ℕ) (s : LoopState),
      (∀ t, whileLoop self pb q0 q3 fuel s ≠ LoopExit.outOfFuel t) →
      ∀ more, fuel ≤ more →
        whileLoop self pb q0 q3 more s = whileLoop self pb q0 q3 fuel s
  | 0, s, h, more, _ => by
    have hcond : ¬ ((!s.finished && s.projectionError != 0) = true) := by
      intro hc
      exact h s (by rw [whileLoop, if_pos hc])
    cases more with
    | zero => rfl
    | succ more => rw [whileLoop, if_neg hcond, whileLoop, if_neg hcond]
  | fuel + 1, s, h, more, hmore => by
    obtain ⟨k, rfl⟩ : ∃ k, more = k + 1 := ⟨more - 1, by omega⟩
    rw [whileLoop, whileLoop]
    split
    · rename_i hcond
      split
      · rfl
      · rename_i next hround
        apply whileLoop_more_fuel self pb q0 q3 fuel next _ k (by omega)
        intro t
        have := h t
        rw [whileLoop, if_pos hcond, hround] at this
        exact this
    · rfl

/-- The loop is left only with `finished` true or the error budget at 0. -/
theorem whileLoop_left (self : Settings) (pb : Problem) (q0 q3 : Configuration_t) :
    ∀ (fuel : ℕ) (s t : LoopState), whileLoop self pb q0 q3 fuel s = LoopExit.left t →
      t.finished = true ∨ t.projectionError = 0
  | 0, s, t, h => by
    rw [whileLoop] at h
    split at h
    · cases h
    · rename_i hcond
      injection h with h
      subst h
      simp only [Bool.and_eq_true, Bool.not_eq_true', bne_iff_ne, ne_eq, not_and,
        Decidable.not_not] at hcond
      cases hf : s.finished with
      | true => exact Or.inl rfl
      | false => exact Or.inr (hcond hf)
  | fuel + 1, s, t, h => by
    rw [whileLoop] at h
    split at h
    · split at h
      · cases h
      · exact whileLoop_left self pb q0 q3 fuel _ t h
    · rename_i hcond
      injection h with h
      subst h
      simp only [Bool.and_eq_true, Bool.not_eq_true', bne_iff_ne, ne_eq, not_and,
        Decidable.not_not] at hcond
      cases hf : s.finished with
      | true => exact Or.inl rfl
      | false => exact Or.inr (hcond hf)

/-- When the collaborators answer the same in every round, a round depends on the count
of rounds only to increment it. -/
theorem round_of_constant_world (self : Settings) (pb : Problem) (q0 q3 : Configuration_t)
    (s : LoopState) (k : ℕ) (hconst : ∀ j, pb.world j = pb.world s.rounds) :
    round self pb q0 q3 { s with rounds := k }
      = (round self pb q0 q3 s).map (fun t => { t with rounds := k + 1 }) := by
  unfold round
  dsimp only
  rw [hconst k]
  cases (pb.world s.rounds).eval s.tmpPath
      (sampleTimes pb.RAND_MAX s.tmpPath (pb.world s.rounds).rand).2.1 with
  | none => rfl
  | some q1 =>
    dsimp only
    cases (pb.world s.rounds).eval s.tmpPath
        (sampleTimes pb.RAND_MAX s.tmpPath (pb.world s.rounds).rand).2.2.1 with
    | none => rfl
    | some q2 =>
      dsimp only
      cases cascade self (pb.world s.rounds) s.tmpPath q0 q1 q2 q3 _ _ _ _ _ _ _ with
      | none => rfl
      | some resultPaths =>
        dsimp only
        cases compose (pb.world s.rounds) s.tmpPath s.projectionError _ _ _ resultPaths with
        | none => rfl
        | some out => rfl

/-- A state that a round gives back with one more round counted is never left by the
loop, when the collaborators answer the same in every round. -/
theorem whileLoop_of_fixed_state (self : Settings) (pb : Problem) (q0 q3 : Configuration_t)
    (s : LoopState) (hconst : ∀ j, pb.world j = pb.world s.rounds)
    (hcond : (!s.finished && s.projectionError != 0) = true)
    (hround : round self pb q0 q3 s = some { s with rounds := s.rounds + 1 }) :
    ∀ fuel k, whileLoop self pb q0 q3 fuel { s with rounds := k }
      = LoopExit.outOfFuel { s with rounds := k + fuel }
  | 0, k => by
    rw [whileLoop, if_pos hcond]
    rfl
  | fuel + 1, k => by
    rw [whileLoop, if_pos hcond, round_of_constant_world self pb q0 q3 s k hconst, hround]
    dsimp only [Option.map_some']
    rw [whileLoop_of_fixed_state self pb q0 q3 s hconst hcond hround fuel (k + 1)]
    congr 2
    omega

/-- One more unit of fuel after a run that ended for lack of fuel: the run goes on from
the state it had reached. -/
theorem whileLoop_succ_of_outOfFuel (self : Settings) (pb : Problem) (q0 q3 : Configuration_t) :
    ∀ (fuel : ℕ) (s t : LoopState),
      whileLoop self pb q0 q3 fuel s = LoopExit.outOfFuel t →
      whileLoop self pb q0 q3 (fuel + 1) s = whileLoop self pb q0 q3 1 t
  | 0, s, t, h => by
    rw [whileLoop] at h
    split at h
    · injection h with h
      rw [h]
    · cases h
  | fuel + 1, s, t, h => by
    rw [whileLoop] at h
    split at h
    · rename_i hcond
      cases hround : round self pb q0 q3 s with
      | none =>
        rw [hround] at h
        cases h
      | some next =>
        rw [hround] at h
        have ih := whileLoop_succ_of_outOfFuel self pb q0 q3 fuel next t h
        rw [← ih]
        conv_lhs => rw [whileLoop, if_pos hcond, hround]
    · cases h

/-- What `optimize` returns when its loop is left with a `result`. -/
theorem optimize_of_left (self : Settings) (pb : Problem) (fuel : ℕ) (path : PathVector)
    (q0 q3 : Configuration_t) (s : LoopState) (result : PathVector)
    (h0 : path.initial = some q0) (h3 : path.end_ = some q3)
    (h : whileLoop self pb q0 q3 fuel (initialState pb path) = LoopExit.left s)
    (hr : s.result = some result) :
    optimize self pb fuel path = Outcome.returned result := by
  unfold optimize
  rw [h0, h3]
  dsimp only
  rw [h]
  dsimp only
  rw [hr]

/-- What `optimize` gives when the fuel of its loop runs out. -/
theorem optimize_of_outOfFuel ( self : Settings) (pb : Problem) (fuel : ℕ) (path : PathVector)
    (q0 q3 : Configuration_t) (s : LoopState)
    (h0 : path.initial = some q0) (h3 : path.end_ = some q3)
    (h : whileLoop self pb q0 q3 fuel (initialState pb path) = LoopExit.outOfFuel s) :
    optimize self pb fuel path = Outcome.outOfFuel := by
  unfold optimize
  rw [h0, h3]
  dsimp only
  rw [h]

end RandomShortcutDynamic
/-! ## Properties of `RandomShortcutDynamic::optimize` -/

namespace RandomShortcutDynamic

set_option maxRecDepth 100000 in
/-- C1 fails on the code: `optimize` commits the oriented copies of the first and of the
last segment without looking at their ends, although `steer` rejects a steered path whose
ends differ from the configurations asked for. When the three segments are replaced by
oriented copies whose heading differs from the heading of the path they copy, the path
returned starts at `[0, 1]` and ends at `[32767, 1]`, and the input path at `[0, 0]` and
`[32767, 0]`. -/
theorem optimize_oriented_ends_differ :
    optimize Scenario.settings Scenario.orientedProblem 101 Scenario.detour
        = Outcome.returned ⟨[⟨[0, 1], [10000, 1], 1, true⟩, ⟨[10000, 1], [20000, 1], 1, true⟩,
            ⟨[20000, 1], [32767, 1], 1, true⟩]⟩
      ∧ Scenario.detour.initial = some [0, 0]
      ∧ Scenario.detour.end_ = some [32767, 0]
      ∧ PathVector.initial ⟨[⟨[0, 1], [10000, 1], 1, true⟩, ⟨[10000, 1], [20000, 1], 1, true⟩,
            ⟨[20000, 1], [32767, 1], 1, true⟩]⟩ = some [0, 1]
      ∧ PathVector.end_ ⟨[⟨[0, 1], [10000, 1], 1, true⟩, ⟨[10000, 1], [20000, 1], 1, true⟩,
            ⟨[20000, 1], [32767, 1], 1, true⟩]⟩ = some [32767, 1] := by
  decide!

set_option maxRecDepth 100000 in
/-- C2 fails on the code: the middle segment is replaced by an oriented path, its two
neighbours are re-steered towards the new heading by paths of length 20000 that are
validated but never compared with the portions they replace, and the path returned has
length 40001 for an input of length 32767. -/
theorem optimize_resteered_is_longer :
    optimize Scenario.settings Scenario.resteeredProblem 101 Scenario.detour
        = Outcome.returned ⟨[⟨[0, 0], [10000, 1], 20000, true⟩,
            ⟨[10000, 1], [20000, 1], 1, true⟩, ⟨[20000, 1], [32767, 0], 20000, true⟩]⟩
      ∧ Scenario.detour.length = 32767
      ∧ PathVector.length ⟨[⟨[0, 0], [10000, 1], 20000, true⟩,
            ⟨[10000, 1], [20000, 1], 1, true⟩, ⟨[20000, 1], [32767, 0], 20000, true⟩]⟩ = 40001
      ∧ PathLength.run false Scenario.detour = some 32767
      ∧ PathLength.run false ⟨[⟨[0, 0], [10000, 1], 20000, true⟩,
            ⟨[10000, 1], [20000, 1], 1, true⟩, ⟨[20000, 1], [32767, 0], 20000, true⟩]⟩
          = some 40001 := by
  decide!

set_option maxHeartbeats 1000000 in
set_option maxRecDepth 100000 in
/-- C3 as stated fails. When every round halves the path, the loop runs on: here it ends
after 250 rounds, 150 completed ones and then 100 failed samples. And on a path whose
three lengths add up, in `double`s, to the infinite value, rounds that replace nothing
record the infinite value again and again, the test compares two infinite values, which
never passes, and `optimize` does not terminate. -/
theorem optimize_runs_250_rounds :
    ((whileLoop Scenario.settings Scenario.halvingProblem [0] [1] 250
        (initialState Scenario.halvingProblem Scenario.longPath)).state.rounds = 250
      ∧ optimize Scenario.settings Scenario.halvingProblem 250 Scenario.longPath
        = Outcome.returned ⟨[⟨[0], [0], 0, false⟩, ⟨[0], [1], 2 ^ 50, false⟩,
            ⟨[1], [1], 0, false⟩]⟩
      ∧ optimize Scenario.settings Scenario.halvingProblem 249 Scenario.longPath
        = Outcome.outOfFuel)
      ∧ PathLength.run false Scenario.hugePath = none
      ∧ ∀ fuel, optimize Scenario.settings Scenario.endlessProblem fuel Scenario.hugePath
          = Outcome.outOfFuel := by
  have h249 : whileLoop Scenario.settings Scenario.halvingProblem [0] [1] 249
        (initialState Scenario.halvingProblem Scenario.longPath)
      = LoopExit.outOfFuel
          { tmpPath := ⟨[⟨[0], [0], 0, false⟩, ⟨[0], [1], 2 ^ 50, false⟩,
              ⟨[1], [1], 0, false⟩]⟩
            result := some ⟨[⟨[0], [0], 0, false⟩, ⟨[0], [1], 2 ^ 50, false⟩,
              ⟨[1], [1], 0, false⟩]⟩
            length := (List.range 100).map (fun i => some ((2 ^ (149 - i) : ℕ) : value_type))
            projectionError := 1, finished := false, rounds := 249 } := by decide!
  have h250 : whileLoop Scenario.settings Scenario.halvingProblem [0] [1] 250
        (initialState Scenario.halvingProblem Scenario.longPath)
      = LoopExit.left
          { tmpPath := ⟨[⟨[0], [0], 0, false⟩, ⟨[0], [1], 2 ^ 50, false⟩,
              ⟨[1], [1], 0, false⟩]⟩
            result := some ⟨[⟨[0], [0], 0, false⟩, ⟨[0], [1], 2 ^ 50, false⟩,
              ⟨[1], [1], 0, false⟩]⟩
            length := (List.range 100).map (fun i => some ((2 ^ (149 - i) : ℕ) : value_type))
            projectionError := 0, finished := false, rounds := 250 } := by
    rw [whileLoop_succ_of_outOfFuel _ _ _ _ 249 _ _ h249]
    decide!
  have hhalving : (whileLoop Scenario.settings Scenario.halvingProblem [0] [1] 250
        (initialState Scenario.halvingProblem Scenario.longPath)).state.rounds = 250
      ∧ optimize Scenario.settings Scenario.halvingProblem 250 Scenario.longPath
        = Outcome.returned ⟨[⟨[0], [0], 0, false⟩, ⟨[0], [1], 2 ^ 50, false⟩,
            ⟨[1], [1], 0, false⟩]⟩
      ∧ optimize Scenario.settings Scenario.halvingProblem 249 Scenario.longPath
        = Outcome.outOfFuel :=
    ⟨by rw [h250]; rfl,
      optimize_of_left _ _ 250 _ [0] [1] _ _ rfl rfl h250 rfl,
      optimize_of_outOfFuel _ _ 249 _ [0] [1] _ rfl rfl h249⟩
  have hhuge : PathLength.run false Scenario.hugePath = none := by decide!
  refine ⟨hhalving, hhuge, fun fuel => ?_⟩
  have hround : round Scenario.settings Scenario.endlessProblem [0, 0] [3 * 2 ^ 1023, 0]
      (initialState Scenario.endlessProblem Scenario.hugePath)
      = some { tmpPath := Scenario.hugePath, result := some Scenario.hugePath,
               length := List.replicate 100 none, projectionError := 100,
               finished := false, rounds := 1 } := by decide!
  have hfixed : round Scenario.settings Scenario.endlessProblem [0, 0] [3 * 2 ^ 1023, 0]
      { tmpPath := Scenario.hugePath, result := some Scenario.hugePath,
        length := List.replicate 100 none, projectionError := 100,
        finished := false, rounds := 1 }
      = some { tmpPath := Scenario.hugePath, result := some Scenario.hugePath,
               length := List.replicate 100 none, projectionError := 100,
               finished := false, rounds := 1 + 1 } := by decide!
  have hq0 : Scenario.hugePath.initial = some [0, 0] := rfl
  have hq3 : Scenario.hugePath.end_ = some [3 * 2 ^ 1023, 0] := rfl
  unfold optimize
  rw [hq0, hq3]
  dsimp only
  cases fuel with
  | zero => rfl
  | succ fuel =>
    have hcond : (!(initialState Scenario.endlessProblem Scenario.hugePath).finished
        && (initialState Scenario.endlessProblem Scenario.hugePath).projectionError != 0)
        = true := rfl
    rw [whileLoop, if_pos hcond, hround]
    dsimp only
    have := whileLoop_of_fixed_state Scenario.settings Scenario.endlessProblem [0, 0]
      [3 * 2 ^ 1023, 0]
      { tmpPath := Scenario.hugePath, result := some Scenario.hugePath,
        length := List.replicate 100 none, projectionError := 100,
        finished := false, rounds := 1 }
      (fun _ => rfl) rfl hfixed fuel 1
    rw [this]

set_option maxRecDepth 100000 in
/-- C4 fails on the code: when the evaluation of the path fails on 100 samples in a row
from the start, the loop is left after exactly these 100 rounds with the error budget at
0, `result` is still null and `optimize` dereferences it: no path is returned. -/
theorem optimize_null_after_100_failed_samples :
    (whileLoop Scenario.settings Scenario.failingProblem [0, 0] [32767, 0] 100
        (initialState Scenario.failingProblem Scenario.detour))
        = LoopExit.left
          { tmpPath := Scenario.detour, result := none,
            length := List.replicate 99 none ++ [some 32767],
            projectionError := 0, finished := false, rounds := 100 }
      ∧ optimize Scenario.settings Scenario.failingProblem 100 Scenario.detour
        = Outcome.nullResult
      ∧ optimize Scenario.settings Scenario.failingProblem 99 Scenario.detour
        = Outcome.outOfFuel := by
  decide!

end RandomShortcutDynamic

namespace RandomShortcutDynamic

/-- What `optimize` does keep: the path returned has the initial and the end configuration
of the input path, whatever times are sampled and whatever `steer` and the path validator
answer, provided the oriented copy keeps the ends of the path it copies, a configured
path projector keeps the ends of the path it projects, and `extract` gives a portion that
starts with the path when taken from the start of its time range and ends with it when
taken up to the end of its time range, and in no round the composition raises a projection
error on the last segment after it raised one on the first segment and appended the
middle one. -/
theorem optimize_keeps_ends (self : Settings) (pb : Problem) (fuel : ℕ)
    (path returned : PathVector)
    (hcopy : ∀ k p, ((pb.world k).createCopy p).initial = p.initial
      ∧ ((pb.world k).createCopy p).end_ = p.end_)
    (hproj : ∀ k f p pp, (pb.world k).pathProjector = some f → f p = some pp →
      pp.initial = p.initial ∧ pp.end_ = p.end_)
    (hextract : ∀ k (v : PathVector) (a b : value_type),
      (v.initial.isSome = true →
          ((pb.world k).extract v (v.timeRange.1, b)).initial = v.initial)
        ∧ (v.end_.isSome = true →
          ((pb.world k).extract v (a, v.timeRange.2)).end_ = v.end_))
    (herror : ∀ k, (pb.world k).projection_error 0 = true →
      (pb.world k).projection_error 2 = true → (pb.world k).projection_error 1 = true)
    (hreturned : optimize self pb fuel path = Outcome.returned returned) :
    returned.initial = path.initial ∧ returned.end_ = path.end_ := by
  unfold optimize at hreturned
  split at hreturned
  · rename_i q0 q3 hq0 hq3
    have hinv := whileLoop_endsAt self pb q0 q3 hproj hcopy hextract herror fuel
      (initialState pb path) ⟨hq0, hq3, fun r hr => by cases hr⟩
    split at hreturned
    · rename_i s hloop
      rw [hloop] at hinv
      split at hreturned
      · rename_i result hresult
        injection hreturned with hreturned
        subst hreturned
        rw [hq0, hq3]
        exact hinv.2.2 result hresult
      · cases hreturned
    · cases hreturned
    · cases hreturned
  · cases hreturned

set_option maxRecDepth 100000 in
/-- The ends are kept at a concrete input: one round replaces the three segments of the detour
by quick lines, and the path returned runs from `[0, 0]` to `[32767, 0]` as the detour. -/
theorem optimize_keeps_ends_witness :
    optimize Scenario.settings Scenario.straightenedProblem 101 Scenario.detour
        = Outcome.returned ⟨[⟨[0, 0], [10000, 0], 1, true⟩, ⟨[10000, 0], [20000, 0], 1, true⟩,
            ⟨[20000, 0], [32767, 0], 1, true⟩]⟩
      ∧ PathVector.initial ⟨[⟨[0, 0], [10000, 0], 1, true⟩, ⟨[10000, 0], [20000, 0], 1, true⟩,
            ⟨[20000, 0], [32767, 0], 1, true⟩]⟩ = Scenario.detour.initial
      ∧ PathVector.end_ ⟨[⟨[0, 0], [10000, 0], 1, true⟩, ⟨[10000, 0], [20000, 0], 1, true⟩,
            ⟨[20000, 0], [32767, 0], 1, true⟩]⟩ = Scenario.detour.end_ := by
  have hrun : optimize Scenario.settings Scenario.straightenedProblem 101 Scenario.detour
      = Outcome.returned ⟨[⟨[0, 0], [10000, 0], 1, true⟩, ⟨[10000, 0], [20000, 0], 1, true⟩,
          ⟨[20000, 0], [32767, 0], 1, true⟩]⟩ := by decide!
  refine ⟨hrun, optimize_keeps_ends Scenario.settings Scenario.straightenedProblem 101
    Scenario.detour _ ?_ ?_ ?_ ?_ hrun⟩
  · intro k p
    by_cases hk : k = 0 <;>
      simp [Scenario.straightenedProblem, Scenario.straightenedRound, Scenario.orientedRound,
        Scenario.failingRound, hk]
  · intro k f p pp hf
    by_cases hk : k = 0 <;>
      simp [Scenario.straightenedProblem, Scenario.straightenedRound, Scenario.orientedRound,
        Scenario.failingRound, hk] at hf
  · intro k v a b
    by_cases hk : k = 0
    · simp only [Scenario.straightenedProblem, Scenario.straightenedRound,
        Scenario.orientedRound, hk, if_true, Scenario.detourExtract, PathVector.initial,
        PathVector.end_, List.head?_cons, List.getLast?_singleton, Option.map_some']
      constructor
      · intro h
        cases hv : Option.map Path.initial v.paths_.head? with
        | none => rw [hv] at h; cases h
        | some q => rfl
      · intro h
        cases hv : Option.map Path.end_ v.paths_.getLast? with
        | none => rw [hv] at h; cases h
        | some q => rfl
    · simp [Scenario.straightenedProblem, Scenario.failingRound, hk]
  · intro k h0
    by_cases hk : k = 0 <;>
      simp [Scenario.straightenedProblem, Scenario.straightenedRound, Scenario.orientedRound,
        Scenario.failingRound, hk] at h0

set_option maxRecDepth 100000 in
/-- Why the composition errors matter for the ends: when the composition of the first
segment throws, `result` becomes the current path itself; the middle segment is appended
to it, and when the last segment throws too the path returned is the input path followed
by a portion of itself, which ends at `[20000, 0]` where the input ends at
`[32767, 0]`. -/
theorem optimize_end_lost_after_two_errors :
    optimize Scenario.settings Scenario.brokenEndProblem 101 Scenario.detour
        = Outcome.returned ⟨[⟨[0, 0], [32767, 0], 32767, true⟩,
            ⟨[10000, 0], [20000, 0], 10000, true⟩]⟩
      ∧ Scenario.detour.end_ = some [32767, 0]
      ∧ PathVector.end_ ⟨[⟨[0, 0], [32767, 0], 32767, true⟩,
            ⟨[10000, 0], [20000, 0], 10000, true⟩]⟩ = some [20000, 0] := by
  decide!

end RandomShortcutDynamic

namespace RandomShortcutDynamic

/-- C3, amended: on every input path whose lengths add up, in `double`s, to a finite
value, and whatever the collaborators answer, `optimize` terminates, with a result that
more fuel does not change; its loop is left only with the convergence test passed or the
error budget at 0, and the number of rounds is not bounded by 100. -/
theorem optimize_terminates (self : Settings) (pb : Problem) (path : PathVector)
    (hfinite : PathLength.run false path ≠ none) :
    ∃ fuel, optimize self pb fuel path ≠ Outcome.outOfFuel
      ∧ (∀ more, fuel ≤ more → optimize self pb more path = optimize self pb fuel path)
      ∧ ∀ q0 q3 s, whileLoop self pb q0 q3 fuel (initialState pb path) = LoopExit.left s →
          s.finished = true ∨ s.projectionError = 0 := by
  cases hq0 : path.initial with
  | none =>
    refine ⟨0, ?_, ?_, fun q0 q3 s h => whileLoop_left self pb q0 q3 0 _ s h⟩
    · unfold optimize; rw [hq0]; exact fun h => Outcome.noConfusion h
    · intro more _; unfold optimize; rw [hq0]
  | some q0 =>
    cases hq3 : path.end_ with
    | none =>
      refine ⟨0, ?_, ?_, fun q0 q3 s h => whileLoop_left self pb q0 q3 0 _ s h⟩
      · unfold optimize; rw [hq0, hq3]; exact fun h => Outcome.noConfusion h
      · intro more _; unfold optimize; rw [hq0, hq3]
    | some q3 =>
      obtain ⟨total, htotal⟩ : ∃ total, PathLength.run false path = some total := by
        cases h : PathLength.run false path with
        | none => exact absurd h hfinite
        | some total => exact ⟨total, rfl⟩
      have hinit : (initialState pb path).length
          = List.replicate 99 none ++ [some total] := by
        rw [← htotal]; rfl
      obtain ⟨fuel, hfuel⟩ := whileLoop_terminates self pb q0 q3 (initialState pb path)
        (by rw [hinit]; simp)
        (by
          intro x hx
          rw [hinit] at hx
          rcases List.mem_append.mp hx with h | h
          · have := List.eq_of_mem_replicate h
            cases this
          · rw [List.mem_singleton] at h
            injection h with h
            rw [h]
            exact PathLength_run_onGrid path total htotal)
        ⟨total, by rw [hinit]; simp [List.replicate_succ]⟩
      refine ⟨fuel, ?_, ?_, fun q0 q3 s h => whileLoop_left self pb q0 q3 fuel _ s h⟩
      · unfold optimize
        rw [hq0, hq3]
        dsimp only
        cases hloop : whileLoop self pb q0 q3 fuel (initialState pb path) with
        | left s => dsimp only; split <;> exact fun h => Outcome.noConfusion h
        | undefined s => exact fun h => Outcome.noConfusion h
        | outOfFuel s => exact absurd hloop (hfuel s)
      · intro more hmore
        unfold optimize
        rw [hq0, hq3]
        dsimp only
        rw [whileLoop_more_fuel self pb q0 q3 fuel _ hfuel more hmore]

set_option maxRecDepth 100000 in
/-- The amended C3 at a concrete input: the long path has the finite length `2 ^ 200`, and
`optimize` ends on it while every round halves the path (after 250 rounds). -/
theorem optimize_terminates_witness :
    PathLength.run false Scenario.longPath = some (2 ^ 200)
      ∧ ∃ fuel,
        optimize Scenario.settings Scenario.halvingProblem fuel Scenario.longPath
          ≠ Outcome.outOfFuel
        ∧ (∀ more, fuel ≤ more →
            optimize Scenario.settings Scenario.halvingProblem more Scenario.longPath
              = optimize Scenario.settings Scenario.halvingProblem fuel Scenario.longPath)
        ∧ ∀ q0 q3 s,
            whileLoop Scenario.settings Scenario.halvingProblem q0 q3 fuel
              (initialState Scenario.halvingProblem Scenario.longPath) = LoopExit.left s →
            s.finished = true ∨ s.projectionError = 0 := by
  have hlength : PathLength.run false Scenario.longPath = some (2 ^ 200) := by decide!
  exact ⟨hlength,
    optimize_terminates Scenario.settings Scenario.halvingProblem Scenario.longPath
      (by rw [hlength]; exact fun h => Option.noConfusion h)⟩

end RandomShortcutDynamic

/-! ## `steer`, `generateContactReport` and `handleFailure` -/

namespace RandomShortcutDynamic

/-- When `steer` returns a path: the steering method gave a path between the two
configurations asked for, which is returned as it is without projector and through the
projector otherwise. -/
theorem steer_eq_some_iff (self : Settings) (c : Collaborators) (q1 q2 : Configuration_t)
    (p : Path) :
    steer self c q1 q2 = some p ↔
      ∃ dp, c.sm
          { configuration := q1, report := c.configValidation q1,
            rectangularContact := self.rectangularContact_, sizeFootX := self.sizeFootX_,
            sizeFootY := self.sizeFootY_, mass := c.mass, mu := self.mu_ } q2 = some dp
        ∧ dp.initial = q1 ∧ dp.end_ = q2
        ∧ ((c.pathProjector = none ∧ p = dp)
            ∨ ∃ f, c.pathProjector = some f ∧ f dp = some p) := by
  unfold steer
  dsimp only
  cases hsm : c.sm _ q2 with
  | none => simp
  | some dp =>
    dsimp only
    by_cases hends : dp.initial ≠ q1 ∨ dp.end_ ≠ q2
    · rw [if_pos hends]
      constructor
      · intro h; cases h
      · rintro ⟨dp', hdp, h1, h2, -⟩
        injection hdp with hdp
        subst hdp
        rcases hends with h | h
        · exact absurd h1 h
        · exact absurd h2 h
    · rw [if_neg hends]
      have h1 : dp.initial = q1 := by by_contra h; exact hends (Or.inl h)
      have h2 : dp.end_ = q2 := by by_contra h; exact hends (Or.inr h)
      cases hproj : c.pathProjector with
      | none =>
        dsimp only
        constructor
        · intro h
          injection h with h
          exact ⟨dp, rfl, h1, h2, Or.inl ⟨rfl, h.symm⟩⟩
        · rintro ⟨dp', hdp, -, -, ⟨-, hp⟩ | ⟨f, hf, -⟩⟩
          · injection hdp with hdp
            rw [hp, hdp]
          · cases hf
      | some f =>
        dsimp only
        constructor
        · intro h
          refine ⟨dp, rfl, h1, h2, Or.inr ⟨f, rfl, ?_⟩⟩
          cases hf : f dp with
          | none => rw [hf] at h; cases h
          | some pp => rw [hf] at h; exact h
        · rintro ⟨dp', hdp, -, -, ⟨hnone, -⟩ | ⟨f', hf', hp⟩⟩
          · cases hnone
          · injection hdp with hdp
            injection hf' with hf'
            subst hdp hf'
            rw [hp]

/-- C11 as stated fails: with a path projector that turns the heading of the ends, the
path returned by `steer ([0, 0], [1, 0])` runs from `[0, 1]` to `[1, 1]`. -/
theorem steer_projected_ends_differ :
    steer Scenario.settings Scenario.turningProjector [0, 0] [1, 0]
      = some ⟨[0, 1], [1, 1], 1, true⟩ := by
  decide!

/-- C11, amended: a path returned by `steer (q1, q2)` has initial configuration `q1` and
end configuration `q2` when no path projector is configured; when one is configured, the
path returned is the output of the projector for the path of the steering method, which
runs from `q1` to `q2`, and it runs from `q1` to `q2` whenever the projector keeps the
ends of that path. -/
theorem steer_ends (self : Settings) (c : Collaborators) (q1 q2 : Configuration_t) (p : Path)
    (h : steer self c q1 q2 = some p) :
    (c.pathProjector = none → p.initial = q1 ∧ p.end_ = q2)
      ∧ ∀ f, c.pathProjector = some f →
          ∃ dp, c.sm
                { configuration := q1, report := c.configValidation q1,
                  rectangularContact := self.rectangularContact_,
                  sizeFootX := self.sizeFootX_, sizeFootY := self.sizeFootY_,
                  mass := c.mass, mu := self.mu_ } q2 = some dp
            ∧ dp.initial = q1 ∧ dp.end_ = q2 ∧ f dp = some p
            ∧ (p.initial = dp.initial ∧ p.end_ = dp.end_ → p.initial = q1 ∧ p.end_ = q2) := by
  obtain ⟨dp, hsm, h1, h2, hcase⟩ := (steer_eq_some_iff self c q1 q2 p).mp h
  constructor
  · intro hnone
    rcases hcase with ⟨-, hp⟩ | ⟨f, hf, -⟩
    · rw [hp]; exact ⟨h1, h2⟩
    · rw [hnone] at hf; cases hf
  · intro f hf
    rcases hcase with ⟨hnone, -⟩ | ⟨f', hf', hp⟩
    · rw [hnone] at hf; cases hf
    · rw [hf] at hf'
      injection hf' with hf'
      subst hf'
      exact ⟨dp, hsm, h1, h2, hp, fun hk => ⟨hk.1.trans h1, hk.2.trans h2⟩⟩

set_option maxRecDepth 100000 in
/-- The amended C11 at concrete inputs: without projector, the path steered from `[0, 0]`
to `[1, 0]` has these ends; with a projector that keeps the ends and doubles the length,
the path returned is the projection of the path of the steering method and has these
ends too. -/
theorem steer_ends_witness :
    (steer Scenario.settings Scenario.orientedRound [0, 0] [1, 0]
        = some ⟨[0, 0], [1, 0], 1, true⟩
      ∧ (Scenario.orientedRound.pathProjector = none →
          (⟨[0, 0], [1, 0], 1, true⟩ : Path).initial = [0, 0]
            ∧ (⟨[0, 0], [1, 0], 1, true⟩ : Path).end_ = [1, 0]))
      ∧ steer Scenario.settings Scenario.keepingProjector [0, 0] [1, 0]
        = some ⟨[0, 0], [1, 0], 2, true⟩
      ∧ ∃ dp, Scenario.keepingProjector.sm
                { configuration := [0, 0],
                  report := Scenario.keepingProjector.configValidation [0, 0],
                  rectangularContact := Scenario.settings.rectangularContact_,
                  sizeFootX := Scenario.settings.sizeFootX_,
                  sizeFootY := Scenario.settings.sizeFootY_,
                  mass := Scenario.keepingProjector.mass, mu := Scenario.settings.mu_ } [1, 0]
              = some dp
            ∧ dp.initial = [0, 0] ∧ dp.end_ = [1, 0]
            ∧ (fun p : Path => some { p with length := 2 * p.length }) dp
              = some ⟨[0, 0], [1, 0], 2, true⟩
            ∧ ((⟨[0, 0], [1, 0], 2, true⟩ : Path).initial = dp.initial
                ∧ (⟨[0, 0], [1, 0], 2, true⟩ : Path).end_ = dp.end_ →
              (⟨[0, 0], [1, 0], 2, true⟩ : Path).initial = [0, 0]
                ∧ (⟨[0, 0], [1, 0], 2, true⟩ : Path).end_ = [1, 0]) :=
  ⟨⟨by decide!,
    (steer_ends Scenario.settings Scenario.orientedRound [0, 0] [1, 0] ⟨[0, 0], [1, 0], 1, true⟩
      (by decide!)).1⟩,
    by decide!,
    (steer_ends Scenario.settings Scenario.keepingProjector [0, 0] [1, 0]
      ⟨[0, 0], [1, 0], 2, true⟩ (by decide!)).2 _ rfl⟩

end RandomShortcutDynamic

/-- C12: the report of `generateContactReport (parent, helper, b)` has the `success_`,
`result_` and `status_` of `parent`; `contactCreated_` is true exactly when the number of
contacts of `result_` fixed relative to `previousState_` is the contact count of
`previousState_`; `multipleBreaks_` exactly when more than one contact of `previousState_`
is broken in `result_`; `repositionedInPlace_` is `b`; `contactMaintained_` is true
exactly when `b` is false and `result_` creates no contact relative to `previousState_`. -/
theorem generateContactReport_flags (parent : ProjectionReport) (helper : ContactGenHelper)
    (b : Bool) :
    (generateContactReport parent helper b).success_ = parent.success_
      ∧ (generateContactReport parent helper b).result_ = parent.result_
      ∧ (generateContactReport parent helper b).status_ = parent.status_
      ∧ ((generateContactReport parent helper b).contactCreated_ = true ↔
          (parent.result_.fixedContacts helper.previousState_).length
            = helper.previousState_.nbContacts)
      ∧ ((generateContactReport parent helper b).multipleBreaks_ = true ↔
          1 < (parent.result_.contactBreaks helper.previousState_).length)
      ∧ (generateContactReport parent helper b).repositionedInPlace_ = b
      ∧ ((generateContactReport parent helper b).contactMaintained_ = true ↔
          b = false ∧ parent.result_.contactCreations helper.previousState_ = []) := by
  refine ⟨rfl, rfl, rfl, ?_, ?_, rfl, ?_⟩
  · simp [generateContactReport]
  · simp [generateContactReport]
  · cases b <;> simp [generateContactReport]

/-- C13: `handleFailure` calls `repositionContacts` on the helper whose `workingState_` is
`previousState_` (the other members as they were), leaves `previousState_` as it was, and
returns the report generated from the report of that call, with `repositionedInPlace_`
true and `contactMaintained_` false whether or not the repositioning succeeded. -/
theorem handleFailure_frame (cs : ContactSearch) (helper : ContactGenHelper) :
    (handleFailure cs helper).2.2
        = Call.reposition { helper with workingState_ := helper.previousState_ }
            (cs.repositionContacts.run
              { helper with workingState_ := helper.previousState_ }).1
      ∧ (handleFailure cs helper).2.1.previousState_ = helper.previousState_
      ∧ (handleFailure cs helper).1.toProjectionReport
          = (cs.repositionContacts.run
              { helper with workingState_ := helper.previousState_ }).1
      ∧ (handleFailure cs helper).1.repositionedInPlace_ = true
      ∧ (handleFailure cs helper).1.contactMaintained_ = false :=
  ⟨rfl, rfl, rfl, rfl, rfl⟩

/-! ## The rounds of `optimize` -/

namespace RandomShortcutDynamic

/-- C14: for the segment from `qa` at `ta` to `qb` at `tb` of a round, `valid[i]` is true
if and only if `steer` returned a path, strictly shorter than the portion of the current
path extracted on the interval, that the path validator accepts; `orientedValid[i]` is
true only when `valid[i]` is (and then the path is kinodynamic and its oriented copy
validates); when `valid[i]` is true the candidate is the path steered, and when it is false
the candidate is the portion extracted. -/
theorem acceptSegment_flags (self : Settings) (c : Collaborators) (tmpPath : PathVector)
    (qa qb : Configuration_t) (ta tb : value_type) :
    ((acceptSegment self c tmpPath qa qb ta tb).valid = true ↔
        ∃ s, steer self c qa qb = some s
          ∧ s.length < (c.extract tmpPath (ta, tb)).length
          ∧ c.validate s = true)
      ∧ ((acceptSegment self c tmpPath qa qb ta tb).orientedValid = true →
          (acceptSegment self c tmpPath qa qb ta tb).valid = true)
      ∧ ((acceptSegment self c tmpPath qa qb ta tb).orientedValid = true ↔
          ∃ s, steer self c qa qb = some s
            ∧ s.length < (c.extract tmpPath (ta, tb)).length
            ∧ c.validate s = true ∧ s.kinodynamic = true
            ∧ c.validate (c.createCopy s) = true)
      ∧ ((acceptSegment self c tmpPath qa qb ta tb).valid = true →
          ∃ s, steer self c qa qb = some s
            ∧ (acceptSegment self c tmpPath qa qb ta tb).resultPath = PathPtr_t.path s)
      ∧ ((acceptSegment self c tmpPath qa qb ta tb).valid = false →
          (acceptSegment self c tmpPath qa qb ta tb).resultPath
            = PathPtr_t.vector (c.extract tmpPath (ta, tb))) := by
  unfold acceptSegment
  cases hs : steer self c qa qb with
  | none => simp
  | some s =>
    dsimp only
    by_cases hlen : s.length < (c.extract tmpPath (ta, tb)).length
    · cases hv : c.validate s with
      | false => simp [PathLength.run, Double.lt_lengths, hlen, hv]
      | true =>
        cases hk : s.kinodynamic with
        | false => simp [PathLength.run, Double.lt_lengths, hlen, hv, hk]
        | true =>
          cases ho : c.validate (c.createCopy s) <;>
            simp [PathLength.run, Double.lt_lengths, hlen, hv, hk, ho]
    · simp [PathLength.run, Double.lt_lengths, hlen]

end RandomShortcutDynamic

namespace RandomShortcutDynamic

theorem resteer_eq_some_iff (self : Settings) (c : Collaborators)
    (source target : Configuration_t) (p : Path) :
    resteer self c source target = some p ↔
      steer self c source target = some p ∧ c.validate p = true := by
  unfold resteer
  cases hs : steer self c source target with
  | none => simp
  | some replaceTmp =>
    dsimp only
    cases hv : c.validate replaceTmp with
    | false =>
      simp only [Bool.false_eq_true, if_false, Option.some.injEq, false_iff, not_and,
        Bool.not_eq_true, reduceCtorEq]
      intro h; rw [← h]; exact hv
    | true =>
      simp only [if_true, Option.some.injEq]
      constructor
      · intro h; subst h; exact ⟨rfl, hv⟩
      · intro h; exact h.1

theorem adjustVectorEnd_eq_some_iff (self : Settings) (c : Collaborators) (w : PathVector)
    (target : Configuration_t) (r : PathPtr_t) :
    adjustVectorEnd self c w target = some (some r) ↔
      ∃ last p, w.pathAtRank (w.numberPaths - 1) = some last
        ∧ steer self c last.initial target = some p ∧ c.validate p = true
        ∧ r = PathPtr_t.vector ⟨w.paths_.take (w.numberPaths - 1) ++ [p]⟩ := by
  unfold adjustVectorEnd
  cases hl : w.pathAtRank (w.numberPaths - 1) with
  | none => simp
  | some last =>
    dsimp only
    cases hr : resteer self c last.initial target with
    | none =>
      dsimp only
      constructor
      · intro h; injection h with h; cases h
      · rintro ⟨last', p, hlast, hs, hv, -⟩
        injection hlast with hlast
        subst hlast
        have := (resteer_eq_some_iff self c last.initial target p).mpr ⟨hs, hv⟩
        rw [hr] at this
        cases this
    | some replaceTmp =>
      have hre := (resteer_eq_some_iff self c last.initial target replaceTmp).mp hr
      simp only [Option.some.injEq]
      constructor
      · intro h
        exact ⟨last, replaceTmp, rfl, hre.1, hre.2, h.symm⟩
      · rintro ⟨last', p, hlast, hs, -, hrp⟩
        subst hlast
        rw [hre.1] at hs
        injection hs with hs
        subst hs
        exact hrp.symm

theorem adjustVectorStart_eq_some_iff (self : Settings) (c : Collaborators) (w : PathVector)
    (source : Configuration_t) (r : PathPtr_t) :
    adjustVectorStart self c w source = some (some r) ↔
      ∃ first p, w.pathAtRank 0 = some first
        ∧ steer self c source first.end_ = some p ∧ c.validate p = true
        ∧ r = PathPtr_t.vector ⟨p :: w.paths_.drop 1⟩ := by
  unfold adjustVectorStart
  cases hl : w.pathAtRank 0 with
  | none => simp
  | some first =>
    dsimp only
    cases hr : resteer self c source first.end_ with
    | none =>
      dsimp only
      constructor
      · intro h; injection h with h; cases h
      · rintro ⟨first', p, hfirst, hs, hv, -⟩
        injection hfirst with hfirst
        subst hfirst
        have := (resteer_eq_some_iff self c source first.end_ p).mpr ⟨hs, hv⟩
        rw [hr] at this
        cases this
    | some replaceTmp =>
      have hre := (resteer_eq_some_iff self c source first.end_ replaceTmp).mp hr
      simp only [Option.some.injEq]
      constructor
      · intro h
        exact ⟨first, replaceTmp, rfl, hre.1, hre.2, h.symm⟩
      · rintro ⟨first', p, hfirst, hs, -, hrp⟩
        subst hfirst
        rw [hre.1] at hs
        injection hs with hs
        subst hs
        exact hrp.symm

/-- When the adjustment of the first segment to an oriented middle segment succeeds. -/
theorem adjustFirst_eq_some_iff (self : Settings) (c : Collaborators) (tmpPath : PathVector)
    (seg0 : Segment) (q0 : Configuration_t) (t0 t1 : value_type) (oriented1 : Path)
    (r : PathPtr_t) :
    adjustFirst self c tmpPath seg0 q0 t0 t1 oriented1 = some (some r) ↔
      (seg0.orientedValid = true ∧ ∃ o, seg0.oriented = some o ∧ r = PathPtr_t.path o)
        ∨ (seg0.orientedValid = false ∧ seg0.valid = true
            ∧ ∃ p, steer self c q0 oriented1.initial = some p ∧ c.validate p = true
                ∧ r = PathPtr_t.path p)
        ∨ (seg0.orientedValid = false ∧ seg0.valid = false
            ∧ ∃ last p,
                (c.extract tmpPath (t0, t1)).pathAtRank
                    ((c.extract tmpPath (t0, t1)).numberPaths - 1) = some last
                ∧ steer self c last.initial oriented1.initial = some p ∧ c.validate p = true
                ∧ r = PathPtr_t.vector
                    ⟨(c.extract tmpPath (t0, t1)).paths_.take
                        ((c.extract tmpPath (t0, t1)).numberPaths - 1) ++ [p]⟩) := by
  unfold adjustFirst
  cases ho : seg0.orientedValid with
  | true =>
    cases hor : seg0.oriented with
    | none => simp
    | some o =>
      simp only [if_true, Option.some.injEq, true_and, Bool.true_eq_false, false_and, or_false]
      constructor
      · intro h; exact ⟨o, rfl, h.symm⟩
      · rintro ⟨o', ho', hr⟩; subst ho'; exact hr.symm
  | false =>
    cases hv : seg0.valid with
    | true =>
      simp only [Bool.false_eq_true, if_false, if_true, false_and, true_and, false_or,
        Bool.true_eq_false, or_false, Option.some.injEq]
      cases hr : resteer self c q0 oriented1.initial with
      | none =>
        simp only [Option.map_none', reduceCtorEq, false_iff, not_exists, not_and]
        intro p hs hval
        have := (resteer_eq_some_iff self c q0 oriented1.initial p).mpr ⟨hs, hval⟩
        rw [hr] at this
        cases this
      | some p =>
        have hre := (resteer_eq_some_iff self c q0 oriented1.initial p).mp hr
        simp only [Option.map_some', Option.some.injEq]
        constructor
        · intro h; exact ⟨p, hre.1, hre.2, h.symm⟩
        · rintro ⟨p', hs, -, hrp⟩
          rw [hre.1] at hs
          injection hs with hs
          rw [hrp, hs]
    | false =>
      simp only [Bool.false_eq_true, if_false, false_and, true_and, false_or]
      exact adjustVectorEnd_eq_some_iff self c _ _ r

/-- When the adjustment of the last segment to an oriented middle segment succeeds. -/
theorem adjustLast_eq_some_iff (self : Settings) (c : Collaborators) (tmpPath : PathVector)
    (seg2 : Segment) (q3 : Configuration_t) (t2 t3 : value_type) (oriented1 : Path)
    (r : PathPtr_t) :
    adjustLast self c tmpPath seg2 q3 t2 t3 oriented1 = some (some r) ↔
      (seg2.orientedValid = true ∧ ∃ o, seg2.oriented = some o ∧ r = PathPtr_t.path o)
        ∨ (seg2.orientedValid = false ∧ seg2.valid = true
            ∧ ∃ p, steer self c oriented1.end_ q3 = some p ∧ c.validate p = true
                ∧ r = PathPtr_t.path p)
        ∨ (seg2.orientedValid = false ∧ seg2.valid = false
            ∧ ∃ first p, (c.extract tmpPath (t2, t3)).pathAtRank 0 = some first
                ∧ steer self c oriented1.end_ first.end_ = some p ∧ c.validate p = true
                ∧ r = PathPtr_t.vector (⟨p :: (c.extract tmpPath (t2, t3)).paths_.drop 1⟩)) := by
  unfold adjustLast
  cases ho : seg2.orientedValid with
  | true =>
    cases hor : seg2.oriented with
    | none => simp
    | some o =>
      simp only [if_true, Option.some.injEq, true_and, Bool.true_eq_false, false_and, or_false]
      constructor
      · intro h; exact ⟨o, rfl, h.symm⟩
      · rintro ⟨o', ho', hr⟩; subst ho'; exact hr.symm
  | false =>
    cases hv : seg2.valid with
    | true =>
      simp only [Bool.false_eq_true, if_false, if_true, false_and, true_and, false_or,
        Bool.true_eq_false, or_false, Option.some.injEq]
      cases hr : resteer self c oriented1.end_ q3 with
      | none =>
        simp only [Option.map_none', reduceCtorEq, false_iff, not_exists, not_and]
        intro p hs hval
        have := (resteer_eq_some_iff self c oriented1.end_ q3 p).mpr ⟨hs, hval⟩
        rw [hr] at this
        cases this
      | some p =>
        have hre := (resteer_eq_some_iff self c oriented1.end_ q3 p).mp hr
        simp only [Option.map_some', Option.some.injEq]
        constructor
        · intro h; exact ⟨p, hre.1, hre.2, h.symm⟩
        · rintro ⟨p', hs, -, hrp⟩
          rw [hre.1] at hs
          injection hs with hs
          rw [hrp, hs]
    | false =>
      simp only [Bool.false_eq_true, if_false, false_and, true_and, false_or]
      exact adjustVectorStart_eq_some_iff self c _ _ r

end RandomShortcutDynamic

namespace RandomShortcutDynamic

theorem acceptSegment_oriented_isSome (self : Settings) (c : Collaborators)
    (tmpPath : PathVector) (qa qb : Configuration_t) (ta tb : value_type)
    (h : (acceptSegment self c tmpPath qa qb ta tb).orientedValid = true) :
    ∃ o, (acceptSegment self c tmpPath qa qb ta tb).oriented = some o := by
  unfold acceptSegment at h ⊢
  cases hs : steer self c qa qb with
  | none => rw [hs] at h; simp at h
  | some s =>
    rw [hs] at h
    dsimp only at h ⊢
    generalize (if Double.lt (Double.finite s.length)
        (Double.ofEntry (PathLength.run true (c.extract tmpPath (ta, tb)))) = true
      then c.validate s
      else Double.lt (Double.finite s.length)
        (Double.ofEntry (PathLength.run true (c.extract tmpPath (ta, tb))))) = valid at h ⊢
    cases valid with
    | false => simp at h
    | true =>
      cases hk : s.kinodynamic with
      | false => rw [hk] at h; simp at h
      | true => exact ⟨c.createCopy s, by simp⟩

theorem adjustVectorEnd_eq_none_iff (self : Settings) (c : Collaborators) (w : PathVector)
    (target : Configuration_t) :
    adjustVectorEnd self c w target = none ↔ w.paths_ = [] := by
  unfold adjustVectorEnd PathVector.pathAtRank PathVector.numberPaths
  cases hw : w.paths_ with
  | nil => simp
  | cons x xs =>
    have : (x :: xs)[(x :: xs).length - 1]? = some ((x :: xs).getLast (by simp)) := by
      rw [List.getLast_eq_getElem]
      exact List.getElem?_eq_getElem _
    rw [this]
    dsimp only
    split <;> simp

theorem adjustVectorStart_eq_none_iff (self : Settings) (c : Collaborators) (w : PathVector)
    (source : Configuration_t) :
    adjustVectorStart self c w source = none ↔ w.paths_ = [] := by
  unfold adjustVectorStart PathVector.pathAtRank
  cases hw : w.paths_ with
  | nil => simp
  | cons x xs =>
    simp only [List.getElem?_cons_zero, reduceCtorEq, iff_false]
    split <;> simp

/-- C15: in a round whose middle segment is oriented-valid, the three paths chosen become
(adjusted first segment, oriented middle segment, adjusted last segment) when both the
adjustment of the first segment and the adjustment of the last one succeed, and stay those
of the acceptance step when one of them fails. An adjustment succeeds when the neighbour
is itself oriented-valid, or when the re-steered path (the whole neighbour when it was
replaced, the last or first sub-path of the portion extracted when it was not) exists and
validates. The cascade is undefined only on a portion extracted without sub-path. -/
theorem cascade_middle_oriented (self : Settings) (c : Collaborators) (tmpPath : PathVector)
    (q0 q1 q2 q3 : Configuration_t) (t0 t1 t2 t3 : value_type) (seg0 seg1 seg2 : Segment)
    (h0 : seg0 = acceptSegment self c tmpPath q0 q1 t0 t1)
    (h1 : seg1 = acceptSegment self c tmpPath q1 q2 t1 t2)
    (h2 : seg2 = acceptSegment self c tmpPath q2 q3 t2 t3)
    (hmid : seg1.orientedValid = true) :
    ∃ oriented1, seg1.oriented = some oriented1
      ∧ (∀ r0 r2, adjustFirst self c tmpPath seg0 q0 t0 t1 oriented1 = some (some r0) →
          adjustLast self c tmpPath seg2 q3 t2 t3 oriented1 = some (some r2) →
          cascade self c tmpPath q0 q1 q2 q3 t0 t1 t2 t3 seg0 seg1 seg2
            = some (r0, PathPtr_t.path oriented1, r2))
      ∧ (adjustFirst self c tmpPath seg0 q0 t0 t1 oriented1 = some none →
          cascade self c tmpPath q0 q1 q2 q3 t0 t1 t2 t3 seg0 seg1 seg2
            = some (seg0.resultPath, seg1.resultPath, seg2.resultPath))
      ∧ (∀ r0, adjustFirst self c tmpPath seg0 q0 t0 t1 oriented1 = some (some r0) →
          adjustLast self c tmpPath seg2 q3 t2 t3 oriented1 = some none →
          cascade self c tmpPath q0 q1 q2 q3 t0 t1 t2 t3 seg0 seg1 seg2
            = some (seg0.resultPath, seg1.resultPath, seg2.resultPath))
      ∧ (cascade self c tmpPath q0 q1 q2 q3 t0 t1 t2 t3 seg0 seg1 seg2 = none →
          (c.extract tmpPath (t0, t1)).paths_ = [] ∨ (c.extract tmpPath (t2, t3)).paths_ = [])
      ∧ (∀ r0, adjustFirst self c tmpPath seg0 q0 t0 t1 oriented1 = some (some r0) ↔
          (seg0.orientedValid = true ∧ ∃ o, seg0.oriented = some o ∧ r0 = PathPtr_t.path o)
            ∨ (seg0.orientedValid = false ∧ seg0.valid = true
                ∧ ∃ p, steer self c q0 oriented1.initial = some p ∧ c.validate p = true
                    ∧ r0 = PathPtr_t.path p)
            ∨ (seg0.orientedValid = false ∧ seg0.valid = false
                ∧ ∃ last p,
                    (c.extract tmpPath (t0, t1)).pathAtRank
                        ((c.extract tmpPath (t0, t1)).numberPaths - 1) = some last
                    ∧ steer self c last.initial oriented1.initial = some p
                    ∧ c.validate p = true
                    ∧ r0 = PathPtr_t.vector
                        ⟨(c.extract tmpPath (t0, t1)).paths_.take
                            ((c.extract tmpPath (t0, t1)).numberPaths - 1) ++ [p]⟩))
      ∧ (∀ r2, adjustLast self c tmpPath seg2 q3 t2 t3 oriented1 = some (some r2) ↔
          (seg2.orientedValid = true ∧ ∃ o, seg2.oriented = some o ∧ r2 = PathPtr_t.path o)
            ∨ (seg2.orientedValid = false ∧ seg2.valid = true
                ∧ ∃ p, steer self c oriented1.end_ q3 = some p ∧ c.validate p = true
                    ∧ r2 = PathPtr_t.path p)
            ∨ (seg2.orientedValid = false ∧ seg2.valid = false
                ∧ ∃ first p, (c.extract tmpPath (t2, t3)).pathAtRank 0 = some first
                    ∧ steer self c oriented1.end_ first.end_ = some p
                    ∧ c.validate p = true
                    ∧ r2 = PathPtr_t.vector
                        (⟨p :: (c.extract tmpPath (t2, t3)).paths_.drop 1⟩))) := by
  obtain ⟨oriented1, ho1⟩ : ∃ o, seg1.oriented = some o := by
    rw [h1] at hmid ⊢
    exact acceptSegment_oriented_isSome self c tmpPath q1 q2 t1 t2 hmid
  have hcascade : cascade self c tmpPath q0 q1 q2 q3 t0 t1 t2 t3 seg0 seg1 seg2
      = match adjustFirst self c tmpPath seg0 q0 t0 t1 oriented1 with
        | none => none
        | some none => some (seg0.resultPath, seg1.resultPath, seg2.resultPath)
        | some (some tmpResult0) =>
          match adjustLast self c tmpPath seg2 q3 t2 t3 oriented1 with
          | none => none
          | some none => some (seg0.resultPath, seg1.resultPath, seg2.resultPath)
          | some (some tmpResult2) => some (tmpResult0, PathPtr_t.path oriented1, tmpResult2) := by
    unfold cascade
    rw [if_pos hmid]
    unfold cascadeMiddle
    rw [ho1]
  refine ⟨oriented1, ho1, ?_, ?_, ?_, ?_,
    fun r0 => adjustFirst_eq_some_iff self c tmpPath seg0 q0 t0 t1 oriented1 r0,
    fun r2 => adjustLast_eq_some_iff self c tmpPath seg2 q3 t2 t3 oriented1 r2⟩
  · intro r0 r2 hf hl
    rw [hcascade, hf, hl]
  · intro hf
    rw [hcascade, hf]
  · intro r0 hf hl
    rw [hcascade, hf, hl]
  · intro hnone
    rw [hcascade] at hnone
    have hfirst : adjustFirst self c tmpPath seg0 q0 t0 t1 oriented1 = none →
        (c.extract tmpPath (t0, t1)).paths_ = [] := by
      intro hf
      unfold adjustFirst at hf
      split at hf
      · rename_i hov
        rw [h0] at hov
        obtain ⟨o, ho⟩ := acceptSegment_oriented_isSome self c tmpPath q0 q1 t0 t1 hov
        rw [h0, ho] at hf
        cases hf
      · split at hf
        · cases hf
        · exact (adjustVectorEnd_eq_none_iff self c _ _).mp hf
    have hlast : adjustLast self c tmpPath seg2 q3 t2 t3 oriented1 = none →
        (c.extract tmpPath (t2, t3)).paths_ = [] := by
      intro hl
      unfold adjustLast at hl
      split at hl
      · rename_i hov
        rw [h2] at hov
        obtain ⟨o, ho⟩ := acceptSegment_oriented_isSome self c tmpPath q2 q3 t2 t3 hov
        rw [h2, ho] at hl
        cases hl
      · split at hl
        · cases hl
        · exact (adjustVectorStart_eq_none_iff self c _ _).mp hl
    cases hf : adjustFirst self c tmpPath seg0 q0 t0 t1 oriented1 with
    | none => exact Or.inl (hfirst hf)
    | some first =>
      rw [hf] at hnone
      cases first with
      | none => cases hnone
      | some r0 =>
        dsimp only at hnone
        cases hl : adjustLast self c tmpPath seg2 q3 t2 t3 oriented1 with
        | none => exact Or.inr (hlast hl)
        | some last =>
          rw [hl] at hnone
          cases last <;> cases hnone

end RandomShortcutDynamic

namespace RandomShortcutDynamic

set_option maxRecDepth 100000 in
/-- C15 at a concrete input: the middle segment of the detour is oriented, its two
neighbours, kept as extracted portions, are re-steered with success, and the three paths
chosen are the adjusted portions around the oriented path. -/
theorem cascade_middle_oriented_witness :
    (acceptSegment Scenario.settings Scenario.resteeredRound Scenario.detour
        [10000, 0] [20000, 0] 10000 20000).orientedValid = true
      ∧ cascade Scenario.settings Scenario.resteeredRound Scenario.detour
          [0, 0] [10000, 0] [20000, 0] [32767, 0] 0 10000 20000 32767
          (acceptSegment Scenario.settings Scenario.resteeredRound Scenario.detour
            [0, 0] [10000, 0] 0 10000)
          (acceptSegment Scenario.settings Scenario.resteeredRound Scenario.detour
            [10000, 0] [20000, 0] 10000 20000)
          (acceptSegment Scenario.settings Scenario.resteeredRound Scenario.detour
            [20000, 0] [32767, 0] 20000 32767)
        = some (PathPtr_t.vector ⟨[⟨[0, 0], [10000, 1], 20000, true⟩]⟩,
            PathPtr_t.path ⟨[10000, 1], [20000, 1], 1, true⟩,
            PathPtr_t.vector ⟨[⟨[20000, 1], [32767, 0], 20000, true⟩]⟩) := by
  have hmid : (acceptSegment Scenario.settings Scenario.resteeredRound Scenario.detour
      [10000, 0] [20000, 0] 10000 20000).orientedValid = true := by decide!
  obtain ⟨oriented1, ho1, hboth, -⟩ :=
    cascade_middle_oriented Scenario.settings Scenario.resteeredRound Scenario.detour
      [0, 0] [10000, 0] [20000, 0] [32767, 0] 0 10000 20000 32767 _ _ _ rfl rfl rfl hmid
  have hval : (acceptSegment Scenario.settings Scenario.resteeredRound Scenario.detour
      [10000, 0] [20000, 0] 10000 20000).oriented
      = some ⟨[10000, 1], [20000, 1], 1, true⟩ := by decide!
  rw [hval] at ho1
  injection ho1 with ho1
  subst ho1
  exact ⟨hmid, hboth _ _ (by decide!) (by decide!)⟩

set_option maxRecDepth 100000 in
/-- C16 fails on the code: the first and the last segment are replaced by oriented paths
(heading 1 at both ends) and the middle one by a path without oriented copy. The block
for the last segment re-steers the middle segment from `q[1]`, overwriting the path the
block for the first segment had steered from the end of the oriented first segment: the
first path chosen ends at `[10000, 1]` and the second one starts at `[10000, 0]`. -/
theorem optimize_double_oriented_jumps :
    cascade Scenario.settings Scenario.doubleOrientedRound Scenario.detour
          [0, 0] [10000, 0] [20000, 0] [32767, 0] 0 10000 20000 32767
          (acceptSegment Scenario.settings Scenario.doubleOrientedRound Scenario.detour
            [0, 0] [10000, 0] 0 10000)
          (acceptSegment Scenario.settings Scenario.doubleOrientedRound Scenario.detour
            [10000, 0] [20000, 0] 10000 20000)
          (acceptSegment Scenario.settings Scenario.doubleOrientedRound Scenario.detour
            [20000, 0] [32767, 0] 20000 32767)
        = some (PathPtr_t.path ⟨[0, 1], [10000, 1], 1, true⟩,
            PathPtr_t.path ⟨[10000, 0], [20000, 1], 1, true⟩,
            PathPtr_t.path ⟨[20000, 1], [32767, 1], 1, true⟩)
      ∧ optimize Scenario.settings Scenario.doubleOrientedProblem 101 Scenario.detour
        = Outcome.returned ⟨[⟨[0, 1], [10000, 1], 1, true⟩, ⟨[10000, 0], [20000, 1], 1, true⟩,
            ⟨[20000, 1], [32767, 1], 1, true⟩]⟩
      ∧ (acceptSegment Scenario.settings Scenario.doubleOrientedRound Scenario.detour
            [10000, 0] [20000, 0] 10000 20000).orientedValid = false
      ∧ steer Scenario.settings Scenario.doubleOrientedRound [10000, 1] [20000, 0]
        = some ⟨[10000, 1], [20000, 0], 1, true⟩ := by
  decide!

set_option maxRecDepth 100000 in
/-- C17 fails on the code: the `continue` of the `catch` block continues the `for` loop
over the segments. When the first segment throws, `result` becomes the current path and
the two other segments are appended to it: the path carried into the next round is the
path before the round followed by two portions of itself, of length 55534 for 32767. When
the first two segments throw, the third one is still appended and the error budget goes
from 100 to 98. -/
theorem round_goes_on_after_projection_error :
    round Scenario.settings (Scenario.throwingProblem 1) [0, 0] [32767, 0]
        (initialState (Scenario.throwingProblem 1) Scenario.detour)
      = some
          { tmpPath := ⟨[⟨[0, 0], [32767, 0], 32767, true⟩,
              ⟨[10000, 0], [20000, 0], 10000, true⟩, ⟨[20000, 0], [32767, 0], 12767, true⟩]⟩
            result := some ⟨[⟨[0, 0], [32767, 0], 32767, true⟩,
              ⟨[10000, 0], [20000, 0], 10000, true⟩, ⟨[20000, 0], [32767, 0], 12767, true⟩]⟩
            length := List.replicate 98 none ++ [some 32767, some 55534]
            projectionError := 99
            finished := false
            rounds := 1 }
      ∧ (initialState (Scenario.throwingProblem 1) Scenario.detour).tmpPath
        = ⟨[⟨[0, 0], [32767, 0], 32767, true⟩]⟩
      ∧ (round Scenario.settings (Scenario.throwingProblem 2) [0, 0] [32767, 0]
          (initialState (Scenario.throwingProblem 2) Scenario.detour)).map
            (fun s => (s.tmpPath, s.projectionError))
        = some (⟨[⟨[0, 0], [32767, 0], 32767, true⟩, ⟨[20000, 0], [32767, 0], 12767, true⟩]⟩,
            98) := by
  decide!

end RandomShortcutDynamic

namespace RandomShortcutDynamic

theorem decrement_eq (n : ℕ) (h0 : n ≠ 0) (h : n < 2 ^ sizeBits) : decrement n = n - 1 := by
  unfold decrement
  unfold sizeBits at h ⊢
  norm_num at h ⊢
  omega

/-- What a round does when one of its two evaluations fails, whatever the other
collaborators would answer. -/
theorem round_of_sampleFails (self : Settings) (pb : Problem) (q0 q3 : Configuration_t)
    (s : LoopState) (hfail : sampleFails pb s = true) :
    round self pb q0 q3 s
      = some { s with projectionError := decrement s.projectionError, rounds := s.rounds + 1 } := by
  unfold sampleFails at hfail
  dsimp only at hfail
  unfold round
  dsimp only
  cases h1 : (pb.world s.rounds).eval s.tmpPath
      (sampleTimes pb.RAND_MAX s.tmpPath (pb.world s.rounds).rand).2.1 with
  | none => rfl
  | some q1 =>
    cases h2 : (pb.world s.rounds).eval s.tmpPath
        (sampleTimes pb.RAND_MAX s.tmpPath (pb.world s.rounds).rand).2.2.1 with
    | none => rfl
    | some q2 => rw [h1, h2] at hfail; simp at hfail

/-- C18: in a round in which the evaluation of the current path at `t1` or at `t2`
fails, the error budget (not 0, as the loop was entered, and within the range of
`std::size_t`) decreases by exactly one, and the current path, `result`, the deque and
`finished` are left as they were; the outcome is the same whatever the steering method,
the projector, the validators, the oriented copy, `extract` and the composition would
answer; the loop goes on with the next round, and ends there when the budget reached
0. -/
theorem round_failed_sample (self : Settings) (pb : Problem) (q0 q3 : Configuration_t)
    (s : LoopState) (hbudget : s.projectionError ≠ 0)
    (hsize : s.projectionError < 2 ^ sizeBits) (hfail : sampleFails pb s = true) :
    round self pb q0 q3 s
        = some { s with projectionError := s.projectionError - 1, rounds := s.rounds + 1 }
      ∧ (∀ pb' : Problem, pb'.RAND_MAX = pb.RAND_MAX →
          (pb'.world s.rounds).rand = (pb.world s.rounds).rand →
          (pb'.world s.rounds).eval = (pb.world s.rounds).eval →
          round self pb' q0 q3 s = round self pb q0 q3 s)
      ∧ (s.finished = false → ∀ fuel,
          whileLoop self pb q0 q3 (fuel + 1) s
            = whileLoop self pb q0 q3 fuel
                { s with projectionError := s.projectionError - 1, rounds := s.rounds + 1 })
      ∧ (s.projectionError = 1 → ∀ fuel,
          whileLoop self pb q0 q3 fuel
              { s with projectionError := s.projectionError - 1, rounds := s.rounds + 1 }
            = LoopExit.left
                { s with projectionError := s.projectionError - 1, rounds := s.rounds + 1 }) := by
  have hround := round_of_sampleFails self pb q0 q3 s hfail
  rw [decrement_eq _ hbudget hsize] at hround
  refine ⟨hround, ?_, ?_, ?_⟩
  · intro pb' hmax hrand heval
    have hfail' : sampleFails pb' s = true := by
      unfold sampleFails at hfail ⊢
      dsimp only at hfail ⊢
      rw [hmax, hrand, heval]
      exact hfail
    rw [round_of_sampleFails self pb' q0 q3 s hfail', round_of_sampleFails self pb q0 q3 s hfail]
  · intro hfin fuel
    rw [whileLoop, if_pos (by simp [hfin, hbudget]), hround]
  · intro hone fuel
    have hcond : ¬ ((!s.finished && (s.projectionError - 1 != 0)) = true) := by
      simp [hone]
    cases fuel with
    | zero => rw [whileLoop]; exact if_neg hcond
    | succ fuel => rw [whileLoop]; exact if_neg hcond

set_option maxRecDepth 100000 in
/-- C18 at a concrete input: the first round on the detour when no configuration can be
evaluated. -/
theorem round_failed_sample_witness :
    sampleFails Scenario.failingProblem (initialState Scenario.failingProblem Scenario.detour)
        = true
      ∧ round Scenario.settings Scenario.failingProblem [0, 0] [32767, 0]
          (initialState Scenario.failingProblem Scenario.detour)
        = some { initialState Scenario.failingProblem Scenario.detour with
                  projectionError := 100 - 1, rounds := 0 + 1 } :=
  ⟨by decide!,
    (round_failed_sample Scenario.settings Scenario.failingProblem [0, 0] [32767, 0]
      (initialState Scenario.failingProblem Scenario.detour) (by decide) (by decide)
      (by decide!)).1⟩

end RandomShortcutDynamic

namespace RandomShortcutDynamic

/-- A round that gets past its two evaluations records the length of the path it
composed and evaluates the convergence test. -/
theorem round_completed (self : Settings) (pb : Problem) (q0 q3 : Configuration_t)
    (s next : LoopState) (hpass : sampleFails pb s = false)
    (h : round self pb q0 q3 s = some next) :
    next.length = (s.length ++ [PathLength.run false next.tmpPath]).drop 1
      ∧ next.finished = converged 100 next.length := by
  unfold sampleFails at hpass
  dsimp only at hpass
  unfold round at h
  dsimp only at h
  split at h
  · rename_i h1; rw [h1] at hpass; simp at hpass
  · split at h
    · rename_i h2; rw [h2] at hpass; simp at hpass
    · split at h
      · cases h
      · split at h
        · cases h
        · injection h with h
          subst h
          exact ⟨rfl, rfl⟩

theorem window_shift (w : List (Option value_type)) (x : Option value_type)
    (hlen : w.length = 100) :
    ((w ++ [x]).drop 1).length = 100
      ∧ ((w ++ [x]).drop 1)[100 - 1]? = some x
      ∧ ∀ i, i + 1 < 100 → ((w ++ [x]).drop 1)[i]? = w[i + 1]? := by
  refine ⟨by simp [hlen], ?_, ?_⟩
  · rw [List.getElem?_drop, List.getElem?_append_right (by omega)]
    simp [hlen]
  · intro i hi
    rw [List.getElem?_drop, List.getElem?_append_left (by omega), Nat.add_comm]

/-- The convergence test on a deque is the comparison, in `double`s, of the difference
of its first and last entries with the product of `1e-4` and the last one. -/
theorem converged_eq (w : List (Option value_type)) (oldest newest : Option value_type)
    (h0 : w[0]? = some oldest) (h : w[100 - 1]? = some newest) :
    converged 100 w
      = Double.le (Double.sub (Double.ofEntry oldest) (Double.ofEntry newest))
          (Double.mul Double.tenThousandth (Double.ofEntry newest)) := by
  unfold converged
  rw [h0, h]

/-- The deque along a run: it holds 100 entries, the finite ones `double`s that are not
negative, the first ones infinite as long as fewer than 99 rounds completed, and
`finished` is not set before. -/
theorem window_along_run (self : Settings) (pb : Problem) (q0 q3 : Configuration_t)
    (path : PathVector) :
    ∀ j s, stateAfter self pb q0 q3 (initialState pb path) j = some s →
      s.length.length = 100
        ∧ (∀ i, i + completedRounds self pb q0 q3 (initialState pb path) j < 99 →
            s.length[i]? = some none)
        ∧ (s.finished = true →
            99 ≤ completedRounds self pb q0 q3 (initialState pb path) j)
  | 0, s, h => by
    injection h with h
    subst h
    refine ⟨by simp [initialState, numberOfLoops], ?_, ?_⟩
    · intro i hi
      simp only [completedRounds, Nat.add_zero] at hi
      have hinit : (initialState pb path).length
          = List.replicate 99 none ++ [PathLength.run false path] := rfl
      rw [hinit, List.getElem?_append_left (by rw [List.length_replicate]; exact hi),
        List.getElem?_replicate]
      simp [hi]
    · intro hf; simp [initialState] at hf
  | j + 1, next, h => by
    rw [stateAfter] at h
    cases hs : stateAfter self pb q0 q3 (initialState pb path) j with
    | none => rw [hs] at h; cases h
    | some s =>
      rw [hs] at h
      change loopStep self pb q0 q3 s = some next at h
      obtain ⟨hlen, hinf, hfin⟩ := window_along_run self pb q0 q3 path j s hs
      have hcompleted : completedRounds self pb q0 q3 (initialState pb path) (j + 1)
          = completedRounds self pb q0 q3 (initialState pb path) j
            + (if sampleFails pb s = true then 0 else 1) := by
        rw [completedRounds, hs]
        simp only [h, Option.isSome_some, Bool.true_and]
        cases sampleFails pb s <;> simp
      have hcond : (!s.finished && s.projectionError != 0) = true := by
        by_contra hc
        rw [loopStep, if_neg hc] at h
        cases h
      have hround : round self pb q0 q3 s = some next := by
        rw [loopStep, if_pos hcond] at h
        exact h
      have hsfin : s.finished = false := by
        simp only [Bool.and_eq_true, Bool.not_eq_true'] at hcond
        exact hcond.1
      cases hfails : sampleFails pb s with
      | true =>
        rw [hcompleted, hfails]
        rw [round_of_sampleFails self pb q0 q3 s hfails] at hround
        injection hround with hround
        subst hround
        simp only [if_true, Nat.add_zero]
        exact ⟨hlen, hinf, fun hf => by rw [hsfin] at hf; cases hf⟩
      | false =>
        rw [hcompleted, hfails]
        simp only [Bool.false_eq_true, if_false]
        obtain ⟨hw, hfinished⟩ := round_completed self pb q0 q3 s next hfails hround
        obtain ⟨hl', hnew, hshift⟩ :=
          window_shift s.length (PathLength.run false next.tmpPath) hlen
        rw [← hw] at hl' hnew hshift
        refine ⟨hl', ?_, ?_⟩
        · intro i hi
          rw [hshift i (by omega)]
          exact hinf (i + 1) (by omega)
        · intro hf
          by_contra hlt
          have hfront : next.length[0]? = some none := by
            rw [hshift 0 (by omega)]
            exact hinf 1 (by omega)
          rw [hfinished, converged_eq next.length none _ hfront hnew] at hf
          rw [show Double.ofEntry none = Double.posInf from rfl,
            test_oldest_infinite _ (fun b hb => PathLength_run_onGrid next.tmpPath b hb)] at hf
          cases hf

/-- C19: the deque of `optimize` is seeded with 99 infinite values followed by the length
of the input path, whatever value is configured for `PathOptimizersNumberOfLoops`, and
always holds 100 entries. After a completed round `finished` is set exactly when
`oldest - newest <= 1e-4 * newest` holds as the code evaluates it, in `double`s,
`newest` being the length just recorded (the last entry) and `oldest` the first entry,
which is infinite as long as fewer than 99 rounds completed: the convergence test cannot
stop the loop before 99 rounds have completed. A round that fails at a sample leaves the
deque and `finished` as they were. -/
theorem convergence_window (self : Settings) (pb : Problem) (q0 q3 : Configuration_t)
    (path : PathVector) :
    (initialState pb path).length
        = List.replicate 99 none ++ [PathLength.run false path]
      ∧ (∀ configured,
          (initialState { pb with PathOptimizersNumberOfLoops := configured } path).length
            = (initialState pb path).length)
      ∧ (∀ j s, stateAfter self pb q0 q3 (initialState pb path) j = some s →
          s.length.length = 100
            ∧ (∀ i, i + completedRounds self pb q0 q3 (initialState pb path) j < 99 →
                s.length[i]? = some none)
            ∧ (s.finished = true →
                99 ≤ completedRounds self pb q0 q3 (initialState pb path) j))
      ∧ (∀ s next, s.length.length = 100 → loopStep self pb q0 q3 s = some next →
          sampleFails pb s = false →
          next.length = (s.length ++ [PathLength.run false next.tmpPath]).drop 1
            ∧ next.length[99]? = some (PathLength.run false next.tmpPath)
            ∧ ∃ oldest, next.length[0]? = some oldest
                ∧ (next.finished = true ↔
                    Double.le
                      (Double.sub (Double.ofEntry oldest)
                        (Double.ofEntry (PathLength.run false next.tmpPath)))
                      (Double.mul Double.tenThousandth
                        (Double.ofEntry (PathLength.run false next.tmpPath))) = true))
      ∧ (∀ s next, loopStep self pb q0 q3 s = some next → sampleFails pb s = true →
          next.length = s.length ∧ next.finished = s.finished) := by
  refine ⟨rfl, fun _ => rfl, window_along_run self pb q0 q3 path, ?_, ?_⟩
  · intro s next hlen hstep hpass
    have hround : round self pb q0 q3 s = some next := by
      unfold loopStep at hstep
      split at hstep
      · exact hstep
      · cases hstep
    obtain ⟨hw, hfinished⟩ := round_completed self pb q0 q3 s next hpass hround
    obtain ⟨hl', hnew, -⟩ :=
      window_shift s.length (PathLength.run false next.tmpPath) hlen
    rw [← hw] at hnew hl'
    obtain ⟨oldest, hold⟩ : ∃ oldest, next.length[0]? = some oldest := by
      cases hn : next.length with
      | nil => rw [hn] at hl'; simp at hl'
      | cons x xs => exact ⟨x, by simp⟩
    refine ⟨hw, hnew, oldest, hold, ?_⟩
    rw [hfinished, converged_eq next.length oldest _ hold hnew]
  · intro s next hstep hfails
    have hround : round self pb q0 q3 s = some next := by
      unfold loopStep at hstep
      split at hstep
      · exact hstep
      · cases hstep
    rw [round_of_sampleFails self pb q0 q3 s hfails] at hround
    injection hround with hround
    subst hround
    exact ⟨rfl, rfl⟩

set_option maxRecDepth 100000 in
/-- The test in `double`s and the test on the exact numbers differ: with the oldest
length 9006900599999999 and the newest 9005999999999999 the difference is 900600000000,
the product of `1e-4` and the newest rounds to 900600000000 too, and the test passes,
although the difference is above one ten-thousandth of the newest length. -/
theorem converged_in_doubles :
    converged 100
        ([some 9006900599999999] ++ List.replicate 98 none ++ [some 9005999999999999]) = true
      ∧ Double.sub (Double.finite 9006900599999999) (Double.finite 9005999999999999)
        = Double.finite 900600000000
      ∧ Double.mul Double.tenThousandth (Double.finite 9005999999999999)
        = Double.finite 900600000000
      ∧ (1 / 10000 : value_type) * 9005999999999999 < 9006900599999999 - 9005999999999999 := by
  decide!

end RandomShortcutDynamic

namespace RandomShortcutDynamic

/-- The parameter sampled from an output of `rand ()` grows strictly with that output. -/
theorem sample_lt_iff (t0 t3 : value_type) (R : ℕ) (hR : 0 < R) (hrange : t0 < t3)
    (x y : ℕ) :
    t0 + (t3 - t0) * (x : value_type) / (R : value_type)
        < t0 + (t3 - t0) * (y : value_type) / (R : value_type) ↔ x < y := by
  have hRq : (0 : value_type) < (R : value_type) := by exact_mod_cast hR
  have hL : (0 : value_type) < t3 - t0 := by linarith
  rw [add_lt_add_iff_left, div_lt_div_iff_of_pos_right hRq, mul_lt_mul_left hL]
  exact_mod_cast Iff.rfl

theorem sample_zero (t0 t3 : value_type) (R : ℕ) :
    t0 + (t3 - t0) * ((0 : ℕ) : value_type) / (R : value_type) = t0 := by
  simp

theorem sample_max (t0 t3 : value_type) (R : ℕ) (hR : 0 < R) :
    t0 + (t3 - t0) * (R : value_type) / (R : value_type) = t3 := by
  have hRq : (R : value_type) ≠ 0 := by exact_mod_cast (Nat.pos_iff_ne_zero.mp hR)
  field_simp

set_option maxRecDepth 100000 in
/-- C20 as stated fails: when `rand ()` gives 0 twice, both parameters sampled on the
detour (time range from 0 to 32767) are 0, the start of the time range; when it gives
`RAND_MAX` and 0, they are the two ends of the time range. -/
theorem sampleTimes_on_the_ends :
    sampleTimes 32767 Scenario.detour (0, 0) = (0, 0, 0, 32767)
      ∧ sampleTimes 32767 Scenario.detour (32767, 0) = (0, 0, 32767, 32767) := by
  decide!

/-- C20, amended: for a path with time range `[t0, t3]`, `t0 < t3`, and every pair of
outputs of `rand ()` in `[0, RAND_MAX]`, the parameters sampled satisfy
`t0 ≤ t1 ≤ t2 ≤ t3`; `t1 < t2` exactly when the two outputs differ, `t0 < t1` exactly when
both are positive, and `t2 < t3` exactly when both are below `RAND_MAX`. -/
theorem sampleTimes_ordered (RAND_MAX : ℕ) (tmpPath : PathVector) (rand : ℕ × ℕ)
    (hmax : 0 < RAND_MAX) (h1 : rand.1 ≤ RAND_MAX) (h2 : rand.2 ≤ RAND_MAX)
    (hrange : tmpPath.timeRange.1 < tmpPath.timeRange.2) :
    (sampleTimes RAND_MAX tmpPath rand).1 = tmpPath.timeRange.1
      ∧ (sampleTimes RAND_MAX tmpPath rand).2.2.2 = tmpPath.timeRange.2
      ∧ (sampleTimes RAND_MAX tmpPath rand).1 ≤ (sampleTimes RAND_MAX tmpPath rand).2.1
      ∧ (sampleTimes RAND_MAX tmpPath rand).2.1 ≤ (sampleTimes RAND_MAX tmpPath rand).2.2.1
      ∧ (sampleTimes RAND_MAX tmpPath rand).2.2.1 ≤ (sampleTimes RAND_MAX tmpPath rand).2.2.2
      ∧ ((sampleTimes RAND_MAX tmpPath rand).2.1 < (sampleTimes RAND_MAX tmpPath rand).2.2.1
          ↔ rand.1 ≠ rand.2)
      ∧ ((sampleTimes RAND_MAX tmpPath rand).1 < (sampleTimes RAND_MAX tmpPath rand).2.1
          ↔ 0 < rand.1 ∧ 0 < rand.2)
      ∧ ((sampleTimes RAND_MAX tmpPath rand).2.2.1 < (sampleTimes RAND_MAX tmpPath rand).2.2.2
          ↔ rand.1 < RAND_MAX ∧ rand.2 < RAND_MAX) := by
  have hlt := sample_lt_iff tmpPath.timeRange.1 tmpPath.timeRange.2 RAND_MAX hmax hrange
  have hz := sample_zero tmpPath.timeRange.1 tmpPath.timeRange.2 RAND_MAX
  have hm := sample_max tmpPath.timeRange.1 tmpPath.timeRange.2 RAND_MAX hmax
  have hle : ∀ x y : ℕ,
      tmpPath.timeRange.1
          + (tmpPath.timeRange.2 - tmpPath.timeRange.1) * (x : value_type) / (RAND_MAX : value_type)
        ≤ tmpPath.timeRange.1
          + (tmpPath.timeRange.2 - tmpPath.timeRange.1) * (y : value_type) / (RAND_MAX : value_type)
        ↔ x ≤ y := by
    intro x y
    rw [← not_lt, hlt y x, not_lt]
  have lo : ∀ x : ℕ, tmpPath.timeRange.1
      ≤ tmpPath.timeRange.1
        + (tmpPath.timeRange.2 - tmpPath.timeRange.1) * (x : value_type) / (RAND_MAX : value_type) := by
    intro x
    have := (hle 0 x).mpr (Nat.zero_le x)
    rwa [hz] at this
  have lo' : ∀ x : ℕ, tmpPath.timeRange.1
      < tmpPath.timeRange.1
        + (tmpPath.timeRange.2 - tmpPath.timeRange.1) * (x : value_type) / (RAND_MAX : value_type)
      ↔ 0 < x := by
    intro x
    have := hlt 0 x
    rwa [hz] at this
  have hi : ∀ x : ℕ, x ≤ RAND_MAX → tmpPath.timeRange.1
        + (tmpPath.timeRange.2 - tmpPath.timeRange.1) * (x : value_type) / (RAND_MAX : value_type)
      ≤ tmpPath.timeRange.2 := by
    intro x hx
    have := (hle x RAND_MAX).mpr hx
    rwa [hm] at this
  have hi' : ∀ x : ℕ, tmpPath.timeRange.1
        + (tmpPath.timeRange.2 - tmpPath.timeRange.1) * (x : value_type) / (RAND_MAX : value_type)
      < tmpPath.timeRange.2 ↔ x < RAND_MAX := by
    intro x
    have := hlt x RAND_MAX
    rwa [hm] at this
  unfold sampleTimes
  dsimp only
  by_cases horder : tmpPath.timeRange.1
        + (tmpPath.timeRange.2 - tmpPath.timeRange.1) * (rand.2 : value_type)
          / (RAND_MAX : value_type)
      < tmpPath.timeRange.1
        + (tmpPath.timeRange.2 - tmpPath.timeRange.1) * (rand.1 : value_type)
          / (RAND_MAX : value_type)
  · rw [if_pos horder]
    have hr : rand.2 < rand.1 := (hlt _ _).mp horder
    refine ⟨rfl, rfl, lo _, le_of_lt horder, hi _ h1, ?_, ?_, ?_⟩
    · exact ⟨fun _ => by omega, fun _ => horder⟩
    · rw [lo']; constructor
      · intro h; omega
      · intro h; exact h.2
    · rw [hi']; constructor
      · intro h; omega
      · intro h; exact h.1
  · rw [if_neg horder]
    have hr : rand.1 ≤ rand.2 := by
      rw [hlt] at horder; omega
    refine ⟨rfl, rfl, lo _, (hle _ _).mpr hr, hi _ h2, ?_, ?_, ?_⟩
    · rw [hlt]; constructor
      · intro h; omega
      · intro h; omega
    · rw [lo']; constructor
      · intro h; omega
      · intro h; exact h.1
    · rw [hi']; constructor
      · intro h; omega
      · intro h; exact h.2

set_option maxRecDepth 100000 in
/-- The amended C20 at a concrete input: the outputs 20000 and 10000 on the detour give
the parameters 10000 and 20000, strictly inside the time range. -/
theorem sampleTimes_ordered_witness :
    sampleTimes 32767 Scenario.detour (20000, 10000) = (0, 10000, 20000, 32767)
      ∧ (sampleTimes 32767 Scenario.detour (20000, 10000)).2.1
          < (sampleTimes 32767 Scenario.detour (20000, 10000)).2.2.1 :=
  ⟨by decide!,
    (sampleTimes_ordered 32767 Scenario.detour (20000, 10000) (by decide) (by decide)
      (by decide) (by decide!)).2.2.2.2.2.1.mpr (by decide)⟩

set_option maxRecDepth 100000 in
/-- The bound of 99 completed rounds is reached: when no segment can be replaced, the
lengths recorded all equal the input length and the loop of `optimize` ends by convergence
after exactly 99 rounds. -/
theorem optimize_converges_after_99_rounds :
    whileLoop Scenario.settings
        { PathOptimizersNumberOfLoops := 5, RAND_MAX := 32767,
          world := fun _ => Scenario.throwingRound 0 } [0, 0] [32767, 0] 98
        (initialState Scenario.failingProblem Scenario.detour)
      = LoopExit.outOfFuel
          (whileLoop Scenario.settings
            { PathOptimizersNumberOfLoops := 5, RAND_MAX := 32767,
              world := fun _ => Scenario.throwingRound 0 } [0, 0] [32767, 0] 98
            (initialState Scenario.failingProblem Scenario.detour)).state
      ∧ (whileLoop Scenario.settings
            { PathOptimizersNumberOfLoops := 5, RAND_MAX := 32767,
              world := fun _ => Scenario.throwingRound 0 } [0, 0] [32767, 0] 99
            (initialState Scenario.failingProblem Scenario.detour)).state.finished = true
      ∧ (whileLoop Scenario.settings
            { PathOptimizersNumberOfLoops := 5, RAND_MAX := 32767,
              world := fun _ => Scenario.throwingRound 0 } [0, 0] [32767, 0] 99
            (initialState Scenario.failingProblem Scenario.detour)).state.rounds = 99 := by
  decide!

end RandomShortcutDynamic

/-! ## The outcomes of `steer` and of `genContactFromOneMaintainCombinatorial` -/

namespace RandomShortcutDynamic

/-- C21: `steer (q1, q2)` returns no path when the steering method gives none or gives a
path whose initial or end configuration differs from `q1`, `q2`; otherwise it returns
the path of the steering method as it is when no path projector is configured, and with
a projector what the projection gives: the projected path when it succeeds, no path when
it fails. -/
theorem steer_outcomes (self : Settings) (c : Collaborators) (q1 q2 : Configuration_t) :
    (c.sm
          { configuration := q1, report := c.configValidation q1,
            rectangularContact := self.rectangularContact_, sizeFootX := self.sizeFootX_,
            sizeFootY := self.sizeFootY_, mass := c.mass, mu := self.mu_ } q2 = none →
        steer self c q1 q2 = none)
      ∧ ∀ dp, c.sm
          { configuration := q1, report := c.configValidation q1,
            rectangularContact := self.rectangularContact_, sizeFootX := self.sizeFootX_,
            sizeFootY := self.sizeFootY_, mass := c.mass, mu := self.mu_ } q2 = some dp →
        ((dp.initial ≠ q1 ∨ dp.end_ ≠ q2) → steer self c q1 q2 = none)
          ∧ (dp.initial = q1 → dp.end_ = q2 →
              (c.pathProjector = none → steer self c q1 q2 = some dp)
                ∧ ∀ f, c.pathProjector = some f →
                    steer self c q1 q2 = f dp
                      ∧ (f dp = none → steer self c q1 q2 = none)
                      ∧ ∀ pp, f dp = some pp → steer self c q1 q2 = some pp) := by
  constructor
  · intro hsm
    unfold steer
    dsimp only
    rw [hsm]
  · intro dp hsm
    constructor
    · intro hends
      unfold steer
      dsimp only
      rw [hsm]
      dsimp only
      rw [if_pos hends]
    · intro h1 h2
      have hends : ¬ (dp.initial ≠ q1 ∨ dp.end_ ≠ q2) := by
        rintro (h | h)
        · exact h h1
        · exact h h2
      constructor
      · intro hnone
        unfold steer
        dsimp only
        rw [hsm]
        dsimp only
        rw [if_neg hends, hnone]
      · intro f hf
        have hsteer : steer self c q1 q2 = f dp := by
          unfold steer
          dsimp only
          rw [hsm]
          dsimp only
          rw [if_neg hends, hf]
          dsimp only
          cases f dp <;> rfl
        refine ⟨hsteer, ?_, ?_⟩
        · intro hfail; rw [hsteer, hfail]
        · intro pp hpp; rw [hsteer, hpp]

end RandomShortcutDynamic

/-- C22: when `maintain_contacts` returns a failed report,
`genContactFromOneMaintainCombinatorial` returns that report and leaves the helper as
`maintain_contacts` left it, `workingState_` included, whatever `gen_contacts` would
answer; when it succeeds, `workingState_` is set to the `result_` of its report and the
value returned is the report of `gen_contacts` run on the helper so updated. -/
theorem genContactFromOneMaintainCombinatorial_outcomes (cs : ContactSearch)
    (helper : ContactGenHelper) :
    ((cs.maintain_contacts.run helper).1.success_ = false →
        genContactFromOneMaintainCombinatorial cs helper = cs.maintain_contacts.run helper
          ∧ ∀ other : HelperCall,
              genContactFromOneMaintainCombinatorial { cs with gen_contacts := other } helper
                = genContactFromOneMaintainCombinatorial cs helper)
      ∧ ((cs.maintain_contacts.run helper).1.success_ = true →
          genContactFromOneMaintainCombinatorial cs helper
            = cs.gen_contacts.run
                { (cs.maintain_contacts.run helper).2 with
                  workingState_ := (cs.maintain_contacts.run helper).1.result_ }) := by
  constructor
  · intro hfail
    have key : ∀ cs' : ContactSearch, cs'.maintain_contacts = cs.maintain_contacts →
        genContactFromOneMaintainCombinatorial cs' helper = cs.maintain_contacts.run helper := by
      intro cs' hsame
      unfold genContactFromOneMaintainCombinatorial
      rw [hsame]
      dsimp only
      rw [if_neg (by simp [hfail])]
    refine ⟨key cs rfl, fun other => ?_⟩
    rw [key cs rfl]
    exact key _ rfl
  · intro hsuccess
    unfold genContactFromOneMaintainCombinatorial
    dsimp only
    rw [if_pos hsuccess]

namespace interpolation

/-- The loop of `checkPath` from index 0 gives 0 exactly when there is no flag to look at
or the first one is false, and never more than `distance`. -/
theorem checkPathLoop_zero_iff (distance : ℕ) (v : ℕ → Bool) :
    (checkPathLoop distance v distance 0 = 0 ↔ distance = 0 ∨ v 0 = false)
      ∧ checkPathLoop distance v distance 0 ≤ distance := by
  obtain ⟨-, h2, h3, h4⟩ := checkPathLoop_spec distance v distance 0 (by omega)
  refine ⟨⟨fun hz => ?_, fun hor => ?_⟩, h2⟩
  · by_cases hd : distance = 0
    · exact Or.inl hd
    · right
      have := h4 (by omega)
      rwa [hz] at this
  · rcases hor with hd | hv
    · omega
    · by_contra hne
      have := h3 0 (le_refl _) (by omega)
      rw [hv] at this
      cases this

/-- C25: `checkPath (distance, valid)` throws, with the message `No path found at state
0`, if and only if `distance` is 0 or `valid[0]` is false; in every other case it returns
a number between 1 and `distance`. So `interpolateStates`, which asserts `distance < 100`,
either throws or calls `ConcatenateAndResizePath` with a number of transitions between 1
and `distance`. -/
theorem checkPath_throws_iff (distance : ℕ) (valid : ℕ → Bool) (tr : Transitions)
    (states : ℕ → State) (numOptimizations : ℕ) :
    (checkPath distance valid = Except.error "No path found at state 0"
        ↔ distance = 0 ∨ valid 0 = false)
      ∧ (∀ e, checkPath distance valid = Except.error e → e = "No path found at state 0")
      ∧ ((distance = 0 ∨ valid 0 = false)
          ∨ ∃ numValid, checkPath distance valid = Except.ok numValid
              ∧ 1 ≤ numValid ∧ numValid ≤ distance)
      ∧ (distance < 100 →
          interpolateStates tr states distance numOptimizations
              = some (Except.error "No path found at state 0")
            ∨ ∃ numValid, 1 ≤ numValid ∧ numValid ≤ distance
                ∧ interpolateStates tr states distance numOptimizations
                  = some (Except.ok
                      (ConcatenateAndResizePath (transitionPaths tr states numOptimizations)
                        numValid)))
      ∧ (100 ≤ distance → interpolateStates tr states distance numOptimizations = none) := by
  have key := checkPathLoop_zero_iff distance
  have shape : ∀ v : ℕ → Bool,
      checkPath distance v
        = if checkPathLoop distance v distance 0 = 0
          then Except.error "No path found at state 0"
          else Except.ok (checkPathLoop distance v distance 0) := fun _ => rfl
  refine ⟨?_, ?_, ?_, ?_, ?_⟩
  · rw [shape, ← (key valid).1]
    by_cases hz : checkPathLoop distance valid distance 0 = 0
    · simp [hz]
    · simp [hz]
  · intro e he
    rw [shape] at he
    by_cases hz : checkPathLoop distance valid distance 0 = 0
    · rw [if_pos hz] at he
      injection he with he
      exact he.symm
    · rw [if_neg hz] at he
      cases he
  · by_cases hz : checkPathLoop distance valid distance 0 = 0
    · exact Or.inl ((key valid).1.mp hz)
    · right
      refine ⟨_, ?_, by omega, (key valid).2⟩
      rw [shape, if_neg hz]
  · intro hdistance
    unfold interpolateStates
    rw [if_pos hdistance]
    dsimp only
    rw [shape]
    by_cases hz : checkPathLoop distance
        (fun i => (transitionPaths tr states numOptimizations i).isSome) distance 0 = 0
    · left
      rw [if_pos hz]
    · right
      refine ⟨checkPathLoop distance
        (fun i => (transitionPaths tr states numOptimizations i).isSome) distance 0,
        by omega, (key _).2, ?_⟩
      rw [if_neg hz]
  · intro hdistance
    unfold interpolateStates
    rw [if_neg (by omega)]

/-- The loop of `interpolateStates (helper, from, to)` keeps the answer of its last
iteration. -/
theorem interpolateStatesFor_last (allVariations : State → State → List String → List String)
    (helper : TimeConstraintHelper) (from_ to_ : State) :
    interpolateStatesFor allVariations helper from_ to_
      = ((allVariations to_ from_ helper.effectors).getLast?).bind
          (fun limb => helper.solve limb (TimeConfigFromDevice helper from_ 0)
            (TimeConfigFromDevice helper to_ 1)) := by
  unfold interpolateStatesFor
  dsimp only
  generalize allVariations to_ from_ helper.effectors = variations
  induction variations using List.reverseRecOn with
  | nil => rfl
  | append_singleton init limb _ => simp [List.foldl_append]

/-- C26: `interpolateStates (helper, from, to)` runs the planner once for each limb of
`to.allVariations (from, ...)`, in order, and returns what the planner returned for the
last of them, whatever it returned for the earlier ones; when no limb varies the planner
is not run and no path is returned, so the enclosing `interpolateStates` sets the flag of
that transition to false (and, `distance` being below 100 as asserted, throws when it is
the first transition). -/
theorem interpolateStates_last_limb_only (tr : Transitions) (states : ℕ → State)
    (distance numOptimizations i : ℕ) :
    (plannerRuns tr.allVariations (tr.helper i) (states i) (states (i + 1))).map Prod.fst
        = tr.allVariations (states (i + 1)) (states i) (tr.helper i).effectors
      ∧ interpolateStatesFor tr.allVariations (tr.helper i) (states i) (states (i + 1))
        = ((plannerRuns tr.allVariations (tr.helper i) (states i)
            (states (i + 1))).getLast?).bind Prod.snd
      ∧ (∀ earlier limb,
          tr.allVariations (states (i + 1)) (states i) (tr.helper i).effectors
            = earlier ++ [limb] →
          interpolateStatesFor tr.allVariations (tr.helper i) (states i) (states (i + 1))
            = (tr.helper i).solve limb (TimeConfigFromDevice (tr.helper i) (states i) 0)
                (TimeConfigFromDevice (tr.helper i) (states (i + 1)) 1))
      ∧ (tr.allVariations (states (i + 1)) (states i) (tr.helper i).effectors = [] →
          plannerRuns tr.allVariations (tr.helper i) (states i) (states (i + 1)) = []
            ∧ interpolateStatesFor tr.allVariations (tr.helper i) (states i) (states (i + 1))
              = none
            ∧ (transitionPaths tr states numOptimizations i).isSome = false
            ∧ (i = 0 → distance < 100 →
                interpolateStates tr states distance numOptimizations
                  = some (Except.error "No path found at state 0"))) := by
  have hlast := interpolateStatesFor_last tr.allVariations (tr.helper i) (states i)
    (states (i + 1))
  refine ⟨?_, ?_, ?_, ?_⟩
  · unfold plannerRuns
    rw [List.map_map]
    exact List.map_id _
  · rw [hlast]
    unfold plannerRuns
    rw [List.getLast?_map]
    cases (tr.allVariations (states (i + 1)) (states i) (tr.helper i).effectors).getLast? <;> rfl
  · intro earlier limb hvar
    rw [hlast, hvar]
    simp
  · intro hnone
    have hfor : interpolateStatesFor tr.allVariations (tr.helper i) (states i)
        (states (i + 1)) = none := by
      rw [hlast, hnone]; rfl
    have hflag : (transitionPaths tr states numOptimizations i).isSome = false := by
      unfold transitionPaths
      rw [hfor]
      rfl
    refine ⟨?_, hfor, hflag, ?_⟩
    · unfold plannerRuns
      rw [hnone]
      rfl
    · intro hi hdistance
      subst hi
      have hzero := ((checkPathLoop_zero_iff distance
        (fun j => (transitionPaths tr states numOptimizations j).isSome)).1).mpr
        (Or.inr hflag)
      unfold interpolateStates checkPath
      rw [if_pos hdistance]
      dsimp only
      rw [if_pos hzero]

end interpolation

/-! ## The number of attempts of `oneStep` -/

/-- When every failed attempt leaves the queue shorter by at least one candidate (an
empty queue staying empty), the loop of `oneStep` makes at least one attempt and at most
as many as there are candidates, or one when there is none. -/
theorem oneStepLoop_bounded (cs : ContactSearch)
    (hshrink : ∀ h : ContactGenHelper,
      (genContactFromOneMaintainCombinatorial cs h).1.success_ = false →
      (genContactFromOneMaintainCombinatorial cs h).2.candidates_.length
        ≤ h.candidates_.length - 1) :
    ∀ (fuel : ℕ) (helper : ContactGenHelper), 1 ≤ fuel → helper.candidates_.length ≤ fuel →
      ∃ attempts, oneStepLoop cs fuel helper = some attempts
        ∧ 1 ≤ attempts.length ∧ attempts.length ≤ max 1 helper.candidates_.length
  | 0, _, h, _ => by omega
  | fuel + 1, helper, _, hk => by
    rw [oneStepLoop]
    by_cases hcond : (!(genContactFromOneMaintainCombinatorial cs helper).1.success_
        && !(genContactFromOneMaintainCombinatorial cs helper).2.candidates_.isEmpty) = true
    · rw [if_pos hcond]
      simp only [Bool.and_eq_true, Bool.not_eq_true', List.isEmpty_eq_true] at hcond
      obtain ⟨hfail, hleft⟩ := hcond
      have hshort := hshrink helper hfail
      have hpos : 1 ≤ (genContactFromOneMaintainCombinatorial cs helper).2.candidates_.length := by
        cases hc : (genContactFromOneMaintainCombinatorial cs helper).2.candidates_ with
        | nil => rw [hc] at hleft; simp at hleft
        | cons x xs => simp
      obtain ⟨rest, hrest, h1, h2⟩ := oneStepLoop_bounded cs hshrink fuel
        (genContactFromOneMaintainCombinatorial cs helper).2 (by omega) (by omega)
      refine ⟨genContactFromOneMaintainCombinatorial cs helper :: rest, ?_, ?_, ?_⟩
      · rw [hrest]; rfl
      · simp
      · simp only [List.length_cons]
        have : max 1 (genContactFromOneMaintainCombinatorial cs helper).2.candidates_.length
            = (genContactFromOneMaintainCombinatorial cs helper).2.candidates_.length :=
          max_eq_right hpos
        have : max 1 helper.candidates_.length = helper.candidates_.length :=
          max_eq_right (by omega)
        omega
    · rw [if_neg hcond]
      exact ⟨[genContactFromOneMaintainCombinatorial cs helper], rfl, by simp, by simp⟩

/-- The fuel matters to `oneStep` only through its loop. -/
theorem oneStep_of_loop (cs : ContactSearch) (a b : ℕ) (helper : ContactGenHelper)
    (h : oneStepLoop cs a helper = oneStepLoop cs b helper) :
    oneStep cs a helper = oneStep cs b helper := by
  unfold oneStep
  rw [h]

/-- C24: provided every failed call of `genContactFromOneMaintainCombinatorial` leaves
`candidates_` shorter by at least one element (an empty queue staying empty), `oneStep`
terminates: with `k` the initial size of `candidates_`, its loop makes at least one and
at most `max (1, k)` attempts, after which `oneStep` returns, at most one call (of
`repositionContacts`) following the attempts. -/
theorem oneStep_attempts_bounded (cs : ContactSearch) (helper : ContactGenHelper)
    (hshrink : ∀ h : ContactGenHelper,
      (genContactFromOneMaintainCombinatorial cs h).1.success_ = false →
      (genContactFromOneMaintainCombinatorial cs h).2.candidates_.length
        ≤ h.candidates_.length - 1) :
    ∃ attempts run,
      oneStepLoop cs (max 1 helper.candidates_.length) helper = some attempts
        ∧ 1 ≤ attempts.length ∧ attempts.length ≤ max 1 helper.candidates_.length
        ∧ oneStep cs (max 1 helper.candidates_.length) helper = some run
        ∧ (∀ more, max 1 helper.candidates_.length ≤ more →
            oneStep cs more helper = some run)
        ∧ (run.calls = attemptCalls attempts
            ∨ ∃ given rep, run.calls = attemptCalls attempts ++ [Call.reposition given rep]) := by
  obtain ⟨attempts, hloop, h1, h2⟩ := oneStepLoop_bounded cs hshrink
    (max 1 helper.candidates_.length) helper (le_max_left _ _) (le_max_right _ _)
  have hrun : ∃ run, oneStep cs (max 1 helper.candidates_.length) helper = some run
      ∧ (run.calls = attemptCalls attempts
        ∨ ∃ given rep, run.calls = attemptCalls attempts ++ [Call.reposition given rep]) := by
    unfold oneStep
    rw [hloop]
    dsimp only
    cases hlast : attempts.getLast? with
    | none =>
      rw [List.getLast?_eq_none_iff] at hlast
      rw [hlast] at h1
      simp at h1
    | some last =>
      obtain ⟨rep, after⟩ := last
      dsimp only
      by_cases hs : rep.success_ = true
      · rw [if_neg (by simp [hs])]
        exact ⟨_, rfl, Or.inl rfl⟩
      · rw [if_pos (by simpa using hs)]
        exact ⟨_, rfl, Or.inr ⟨_, _, rfl⟩⟩
  obtain ⟨run, hone, hcalls⟩ := hrun
  refine ⟨attempts, run, hloop, h1, h2, hone, ?_, hcalls⟩
  intro more hmore
  rw [← hone]
  apply oneStep_of_loop
  rw [hloop]
  exact oneStepLoop_fuel cs _ helper attempts hloop more (le_trans h2 hmore)

/-- C24 at a concrete input: a search whose attempts all fail, each taking one candidate
off a queue of two, makes at most two attempts. -/
theorem oneStep_attempts_bounded_witness :
    ∃ attempts run,
      oneStepLoop (Scenario.failingSearch Scenario.noPlace)
          (max 1 (Scenario.helperOn [["left-foot"], ["right-foot"]]).candidates_.length)
          (Scenario.helperOn [["left-foot"], ["right-foot"]]) = some attempts
        ∧ 1 ≤ attempts.length
        ∧ attempts.length
          ≤ max 1 (Scenario.helperOn [["left-foot"], ["right-foot"]]).candidates_.length
        ∧ oneStep (Scenario.failingSearch Scenario.noPlace)
          (max 1 (Scenario.helperOn [["left-foot"], ["right-foot"]]).candidates_.length)
          (Scenario.helperOn [["left-foot"], ["right-foot"]]) = some run
        ∧ (∀ more,
            max 1 (Scenario.helperOn [["left-foot"], ["right-foot"]]).candidates_.length ≤ more →
            oneStep (Scenario.failingSearch Scenario.noPlace) more
              (Scenario.helperOn [["left-foot"], ["right-foot"]]) = some run)
        ∧ (run.calls = attemptCalls attempts
            ∨ ∃ given rep, run.calls = attemptCalls attempts ++ [Call.reposition given rep]) :=
  oneStep_attempts_bounded (Scenario.failingSearch Scenario.noPlace)
    (Scenario.helperOn [["left-foot"], ["right-foot"]])
    (by
      intro h _
      simp [genContactFromOneMaintainCombinatorial, Scenario.failingSearch, HelperCall.run])

/-- The bound of C24 is reached: the failing search on a queue of two candidates makes two
attempts before it repositions. -/
theorem oneStep_two_attempts :
    (oneStep (Scenario.failingSearch Scenario.noPlace) 2
        (Scenario.helperOn [["left-foot"], ["right-foot"]])).map (fun run => run.calls.length)
      = some 3
      ∧ oneStep (Scenario.failingSearch Scenario.noPlace) 1
          (Scenario.helperOn [["left-foot"], ["right-foot"]]) = none
      ∧ (oneStep (Scenario.failingSearch Scenario.noPlace) 1
          (Scenario.helperOn [])).map (fun run => run.calls.length) = some 2 := by
  decide

/-! ## The error budget of `optimize` -/

namespace RandomShortcutDynamic

set_option maxRecDepth 100000 in
/-- C23 fails on the code: the `catch` block of the composition loop decrements the error
budget once for each segment that throws, the loop over the segments going on after it.
With 99 failed samples the budget is 1; in the next round two segments throw and the
unsigned counter goes from 1 through 0 to `2 ^ 64 - 1`, so the loop is not left at 0 and
`optimize` runs on. With the budget at 2 and three segments throwing it wraps as well,
and from 100 one round with two throwing segments leaves 98. -/
theorem optimize_budget_wraps :
    (stateAfter Scenario.settings (Scenario.lateThrowProblem 99 2) [0, 0] [32767, 0]
        (initialState (Scenario.lateThrowProblem 99 2) Scenario.detour) 99).map
          (fun s => (s.projectionError, s.finished)) = some (1, false)
      ∧ (stateAfter Scenario.settings (Scenario.lateThrowProblem 99 2) [0, 0] [32767, 0]
          (initialState (Scenario.lateThrowProblem 99 2) Scenario.detour) 100).map
            (fun s => (s.projectionError, s.finished)) = some (18446744073709551615, false)
      ∧ optimize Scenario.settings (Scenario.lateThrowProblem 99 2) 300 Scenario.detour
        = Outcome.outOfFuel
      ∧ (stateAfter Scenario.settings (Scenario.lateThrowProblem 98 3) [0, 0] [32767, 0]
          (initialState (Scenario.lateThrowProblem 98 3) Scenario.detour) 98).map
            (fun s => s.projectionError) = some 2
      ∧ (stateAfter Scenario.settings (Scenario.lateThrowProblem 98 3) [0, 0] [32767, 0]
          (initialState (Scenario.lateThrowProblem 98 3) Scenario.detour) 99).map
            (fun s => s.projectionError) = some 18446744073709551615
      ∧ (stateAfter Scenario.settings (Scenario.lateThrowProblem 0 2) [0, 0] [32767, 0]
          (initialState (Scenario.lateThrowProblem 0 2) Scenario.detour) 1).map
            (fun s => s.projectionError) = some 98 := by
  decide!

end RandomShortcutDynamic
end HppRbprm
